import Mathlib

/-!
# DP-Invoices: invoice numbering, financial aggregation, store operations

A shallow embedding of `src/backend/routes/invoices.js` (and the schema of
`src/backend/db.js`), of the backup route of `src/backend/routes/database.js`
and of the form and export helpers of the pages `InvoiceCreate.js`,
`Invoices.js` and `Clients.js`.  Route handlers become pure functions on an
explicit store value; every `new Date()` becomes an explicit clock reading;
numbers are kept abstract (a type `α` with the arithmetic the handlers use).
-/

set_option autoImplicit false

deriving instance DecidableEq for Except

namespace DPInvoices

/-! ## The pieces of the JavaScript runtime the handlers rely on -/

/-- A JavaScript `Date` as seen by the handlers: the time value (milliseconds
since the epoch, UTC) together with the local-time offset of the machine that
is in force at that instant (minutes east of UTC). -/
structure JSDate where
  time : Int
  localOffsetMin : Int
deriving DecidableEq, Repr

/-- A calendar date: year, zero-based month index and day of the month. -/
structure Civil where
  year : Int
  month : Nat
  date : Nat
deriving DecidableEq, Repr

def msPerDay : Int := 86400000

/-- Proleptic Gregorian calendar date of a day number (days since 1970-01-01). -/
def civilFromDays (days : Int) : Civil :=
  let z := days + 719468
  let era := z / 146097
  let doe := z - era * 146097
  let yoe := (doe - doe / 1460 + doe / 36524 - doe / 146096) / 365
  let doy := doe - (365 * yoe + yoe / 4 - yoe / 100)
  let mp := (5 * doy + 2) / 153
  let d := doy - (153 * mp + 2) / 5 + 1
  let m := if mp < 10 then mp + 3 else mp - 9
  let y := yoe + era * 400 + (if m ≤ 2 then 1 else 0)
  ⟨y, (m - 1).toNat, d.toNat⟩

/-- Calendar date of the time value in UTC. -/
def JSDate.utc (d : JSDate) : Civil := civilFromDays (d.time / msPerDay)

/-- Calendar date of the time value in the machine's local time. -/
def JSDate.localCivil (d : JSDate) : Civil :=
  civilFromDays ((d.time + d.localOffsetMin * 60000) / msPerDay)

def JSDate.getFullYear (d : JSDate) : Int := d.localCivil.year
def JSDate.getMonth (d : JSDate) : Nat := d.localCivil.month
def JSDate.getDate (d : JSDate) : Nat := d.localCivil.date

/-- The decimal digits of `n`, exactly `width` of them (most significant first). -/
def zeroPad : Nat → Nat → List Char
  | 0, _ => []
  | width + 1, n => zeroPad width (n / 10) ++ [Nat.digitChar (n % 10)]

/-- The year field of `toISOString`: four digits for 0..9999, otherwise a sign
and six digits. -/
def isoYear (y : Int) : List Char :=
  if 0 ≤ y ∧ y ≤ 9999 then zeroPad 4 y.toNat
  else if y < 0 then '-' :: zeroPad 6 (-y).toNat
  else '+' :: zeroPad 6 y.toNat

/-- The date part `YYYY-MM-DD` of `toISOString`. -/
def isoDateChars (c : Civil) : List Char :=
  isoYear c.year ++ '-' :: zeroPad 2 (c.month + 1) ++ '-' :: zeroPad 2 c.date

/-- The time part `HH:mm:ss.sssZ` of `toISOString`. -/
def isoTimeChars (t : Int) : List Char :=
  let ms := (t % msPerDay).toNat
  zeroPad 2 (ms / 3600000) ++ ':' :: zeroPad 2 (ms / 60000 % 60) ++ ':' ::
    zeroPad 2 (ms / 1000 % 60) ++ '.' :: zeroPad 3 (ms % 1000) ++ ['Z']

/-- The method `Date.prototype.toISOString`: always UTC. -/
def JSDate.toISOString (d : JSDate) : String :=
  String.mk (isoDateChars d.utc ++ 'T' :: isoTimeChars d.time)

/-- The expression `s.split(sep)[0]` for a one-character separator: the text before the first
occurrence of the separator. -/
def splitHead (s : String) (sep : Char) : String :=
  String.mk (s.data.takeWhile (fun c => c != sep))

/-- The conversions `Number.prototype.toString` and `String(n)` on an integer. -/
def numberToString (n : Int) : String := toString n

/-- The method `String.prototype.slice(start)` with one argument. -/
def slice (s : String) (start : Int) : String :=
  let len : Int := s.length
  let src := if start < 0 then max (len + start) 0 else min start len
  String.mk (s.data.drop src.toNat)

/-- The method `String.prototype.padStart(targetLength, padString)`. -/
def padStart (s : String) (targetLength : Nat) (padString : String) : String :=
  if targetLength ≤ s.length ∨ padString.length = 0 then s
  else
    let fillLen := targetLength - s.length
    String.mk ((List.replicate fillLen padString.data).flatten.take fillLen) ++ s

/-- Indexing a string, `s[i]`: a one-character string, or `undefined`. -/
def charAt? (s : String) (i : Nat) : Option String :=
  (s.data.get? i).map String.singleton

/-- How a template literal prints a value that may be `undefined`. -/
def templateValue : Option String → String
  | some s => s
  | none => "undefined"

/-! ## Invoice numbering (`generateInvoiceNumber`) -/

/-- Lines 12-15: the `YYMMDD` part, read off the local calendar date. -/
def datePart (today : JSDate) : String :=
  let yy := slice (numberToString today.getFullYear) (-2)
  let mm := padStart (numberToString (today.getMonth + 1)) 2 "0"
  let dd := padStart (numberToString today.getDate) 2 "0"
  yy ++ mm ++ dd

/-- Line 19: the query parameter, `today.toISOString().split("T")[0]`. -/
def isoDate (d : JSDate) : String := splitHead d.toISOString 'T'

/-- Lines 10-29.  `today` is the value of `new Date()`; `dbAll date` is the
outcome of `SELECT invoice_number FROM invoices WHERE invoice_date = ?` with
that parameter: an error, or the selected rows. -/
def generateInvoiceNumber {ρ : Type} (today : JSDate)
    (dbAll : String → Except String (List ρ)) : Except String String :=
  match dbAll (isoDate today) with
  | .error err => .error err
  | .ok rows =>
    let letters := "ABCDEFGHIJKLMNOPQRSTUVWXYZ"
    let seq := if rows.length < letters.length then charAt? letters rows.length else some "Z"
    let invoiceNumber := "Invoice-" ++ datePart today ++ templateValue seq
    .ok invoiceNumber

/-- Two decimal digits of `n` (its value modulo 100), zero padded. -/
def twoDigits (n : Nat) : String := String.mk (zeroPad 2 n)

/-- The sequence letter for a count: the `n`-th letter of `A`..`Z`, `Z` from 26 on. -/
def seqLetter (n : Nat) : Char := if n < 26 then Char.ofNat ('A'.toNat + n) else 'Z'

/-- The label `Invoice-<YYMMDD><Letter>` for a calendar date and a count. -/
def labelOf (c : Civil) (n : Nat) : String :=
  "Invoice-" ++ twoDigits (c.year % 100).toNat ++ twoDigits (c.month + 1) ++ twoDigits c.date ++
    String.singleton (seqLetter n)

/-! ## Request bodies and the persistent store (`db.js`) -/

/-- A field of a JSON request body after destructuring: absent (`undefined`),
JSON `null`, or a value. -/
inductive Field (β : Type) where
  | undefined
  | null
  | val (v : β)
deriving DecidableEq, Repr

/-- What reaches an SQL parameter: `undefined` and `null` are both stored as NULL. -/
def Field.toSql {β : Type} : Field β → Option β
  | .val v => some v
  | _ => none

/-- A destructuring default `{ name = dflt }`: only `undefined` takes the default. -/
def Field.withDefault {β : Type} (f : Field β) (dflt : β) : Field β :=
  match f with
  | .undefined => .val dflt
  | other => other

/-- An element of `items` in a POST or PUT body. -/
structure Item (α : Type) where
  title : Field String
  description : Field String
  quantity : α
  unit_price : α
deriving DecidableEq, Repr

/-- A row of table `invoices`. -/
structure InvoiceRow (α : Type) where
  id : Nat
  invoice_number : Option String
  client_id : Option String
  project : Option String
  status : Option String
  invoice_date : Option String
  subtotal : α
  notes : Option String
  created_at : Option String
  paid_at : Option String
  advance_paid_at : Option String
deriving DecidableEq, Repr

/-- A row of table `invoice_items`. -/
structure ItemRow (α : Type) where
  id : Nat
  invoice_id : Nat
  title : Option String
  description : Option String
  quantity : α
  unit_price : α
  total : α
deriving DecidableEq, Repr

/-- The two tables the invoice routes write, each with its AUTOINCREMENT
counter (the largest row id ever handed out). -/
structure Store (α : Type) where
  invoices : List (InvoiceRow α)
  invoice_items : List (ItemRow α)
  invoicesSeq : Nat
  itemsSeq : Nat
deriving DecidableEq, Repr

/-- The store right after `initializeTables` on a new database file. -/
def Store.empty {α : Type} : Store α := ⟨[], [], 0, 0⟩

section Handlers

variable {α : Type}

/-- The query `SELECT invoice_number FROM invoices WHERE invoice_date = ?`. -/
def Store.selectByDate (s : Store α) (date : String) : List (InvoiceRow α) :=
  s.invoices.filter (fun r => r.invoice_date = some date)

/-- The query `SELECT * FROM invoice_items WHERE invoice_id = ?`. -/
def Store.itemsOf (s : Store α) (id : Nat) : List (ItemRow α) :=
  s.invoice_items.filter (fun it => it.invoice_id = id)

/-- The reducer of lines 43 and 666:
`items.reduce((sum, item) => sum + item.quantity * item.unit_price, 0)`. -/
def subtotalOf [Add α] [Mul α] [Zero α] (items : List (Item α)) : α :=
  items.foldl (fun sum item => sum + item.quantity * item.unit_price) 0

/-- The insert loop of lines 61-64 and 706-709: one `invoice_items` row per
item, in order, with `total = item.quantity * item.unit_price`; row ids
continue after `seq`. -/
def insertItems [Mul α] (invoice_id : Nat) : Nat → List (Item α) → List (ItemRow α)
  | _, [] => []
  | seq, item :: rest =>
    { id := seq + 1, invoice_id := invoice_id, title := item.title.toSql,
      description := item.description.toSql, quantity := item.quantity,
      unit_price := item.unit_price, total := item.quantity * item.unit_price }
      :: insertItems invoice_id (seq + 1) rest

/-- Body of `POST /`. -/
structure PostBody (α : Type) where
  client_id : Field String
  project : Field String
  status : Field String
  notes : Field String
  items : Option (List (Item α))

/-- The JSON answer of a successful `POST /`. -/
structure PostResponse where
  invoice_number : String
  invoice_id : Nat
deriving DecidableEq, Repr

/-- Lines 41-69: what `POST /` does once the invoice number is known.
`now₂` and `now₃` are the two further `new Date()` values (lines 41, 42). -/
def postInsert [Add α] [Mul α] [Zero α] (s : Store α) (invoice_number : String)
    (now₂ now₃ : JSDate) (body : PostBody α) : Store α × PostResponse :=
  let project := (body.project.withDefault "").toSql
  let status := (body.status.withDefault "Unpaid").toSql
  let notes := (body.notes.withDefault "").toSql
  let items := body.items.getD []
  let invoiceDate := isoDate now₂
  let createdAt := now₃.toISOString
  let subtotal := subtotalOf items
  let invoice_id := s.invoicesSeq + 1
  let row : InvoiceRow α :=
    { id := invoice_id, invoice_number := some invoice_number,
      client_id := body.client_id.toSql, project := project, status := status,
      invoice_date := some invoiceDate, subtotal := subtotal, notes := notes,
      created_at := some createdAt, paid_at := none, advance_paid_at := none }
  ({ invoices := s.invoices ++ [row],
     invoice_items := s.invoice_items ++ insertItems invoice_id s.itemsSeq items,
     invoicesSeq := invoice_id,
     itemsSeq := s.itemsSeq + items.length },
   { invoice_number := invoice_number, invoice_id := invoice_id })

/-- Handler of `POST /` (lines 35-72) with every store access succeeding; `today` is the
`new Date()` of `generateInvoiceNumber`. -/
def post [Add α] [Mul α] [Zero α] (s : Store α) (today now₂ now₃ : JSDate)
    (body : PostBody α) :
    Except String (Store α × PostResponse) :=
  match generateInvoiceNumber today (fun date => .ok (s.selectByDate date)) with
  | .error err => .error err
  | .ok invoice_number => .ok (postInsert s invoice_number now₂ now₃ body)

/-- The columns `PATCH /:id` can assign. -/
inductive Column where
  | status
  | paid_at
  | advance_paid_at
  | created_at
deriving DecidableEq, Repr

/-- Body of `PATCH /:id`. -/
structure PatchBody where
  status : Field String
  paid_at : Field String
  advance_paid_at : Field String
  created_at : Field String
deriving DecidableEq, Repr

/-- Lines 130-163: the assignments (`updates` zipped with `params`) that
`PATCH /:id` builds, in order. -/
def patchUpdates (body : PatchBody) (timestamp : String) : List (Column × Option String) :=
  let u₁ : List (Column × Option String) :=
    if body.status ≠ .undefined then
      (Column.status, body.status.toSql) ::
        (if body.status = .val "Paid" ∧ body.paid_at = .undefined then
          [(Column.paid_at, some timestamp)]
        else if body.status = .val "Advance" ∧ body.advance_paid_at = .undefined then
          [(Column.advance_paid_at, some timestamp)]
        else [])
    else []
  let u₂ := if body.paid_at ≠ .undefined then [(Column.paid_at, body.paid_at.toSql)] else []
  let u₃ :=
    if body.advance_paid_at ≠ .undefined then
      [(Column.advance_paid_at, body.advance_paid_at.toSql)]
    else []
  let u₄ :=
    if body.created_at ≠ .undefined then [(Column.created_at, body.created_at.toSql)] else []
  u₁ ++ u₂ ++ u₃ ++ u₄

/-- One assignment `column = ?` of an UPDATE applied to a row. -/
def InvoiceRow.assign (r : InvoiceRow α) : Column × Option String → InvoiceRow α
  | (.status, v) => { r with status := v }
  | (.paid_at, v) => { r with paid_at := v }
  | (.advance_paid_at, v) => { r with advance_paid_at := v }
  | (.created_at, v) => { r with created_at := v }

/-- The statement `UPDATE invoices SET ... WHERE id = ?`: the assignments take effect on
every row with that id, a later assignment of a column overriding an earlier. -/
def Store.updateWhereId (s : Store α) (id : Nat) (f : InvoiceRow α → InvoiceRow α) :
    Store α :=
  { s with invoices := s.invoices.map (fun r => if r.id = id then f r else r) }

/-- Handler of `PATCH /:id` (lines 125-176): answers 400 when the body names no field. -/
def patch (s : Store α) (id : Nat) (body : PatchBody) (now : JSDate) :
    Except String (Store α) :=
  let timestamp := now.toISOString
  let updates := patchUpdates body timestamp
  if updates.length = 0 then .error "No fields to update"
  else .ok (s.updateWhereId id (fun r => updates.foldl InvoiceRow.assign r))

/-- The row an `UPDATE` built by `PATCH /:id` leaves in place of `r`: the
assignments of `patchUpdates` applied in order. -/
def patchRow (body : PatchBody) (timestamp : String) (r : InvoiceRow α) : InvoiceRow α :=
  (patchUpdates body timestamp).foldl InvoiceRow.assign r

/-- Body of `PUT /:id`. -/
structure PutBody (α : Type) where
  client_id : Field String
  invoice_number : Field String
  invoice_date : Field String
  project : Field String
  status : Field String
  notes : Field String
  items : Option (List (Item α))
  created_at : Field String
  paid_at : Field String
  advance_paid_at : Field String

/-- The header UPDATE of `PUT /:id` (lines 669-691) applied to one row. -/
def putRow [Add α] [Mul α] [Zero α] (body : PutBody α) (r : InvoiceRow α) : InvoiceRow α :=
  let r₁ : InvoiceRow α :=
    { r with
      client_id := body.client_id.toSql
      invoice_number := body.invoice_number.toSql
      invoice_date := body.invoice_date.toSql
      project := (body.project.withDefault "").toSql
      status := (body.status.withDefault "Unpaid").toSql
      notes := (body.notes.withDefault "").toSql
      subtotal := subtotalOf (body.items.getD []) }
  let r₂ :=
    if body.created_at ≠ .undefined then { r₁ with created_at := body.created_at.toSql }
    else r₁
  let r₃ :=
    if body.paid_at ≠ .undefined then { r₂ with paid_at := body.paid_at.toSql }
    else r₂
  if body.advance_paid_at ≠ .undefined then
    { r₃ with advance_paid_at := body.advance_paid_at.toSql }
  else r₃

/-- Handler of `PUT /:id` (lines 650-717) with every statement succeeding: update the
header, delete the invoice's items, insert the new ones. -/
def put [Add α] [Mul α] [Zero α] (s : Store α) (id : Nat) (body : PutBody α) : Store α :=
  let items := body.items.getD []
  let s₁ := s.updateWhereId id (putRow body)
  { s₁ with
    invoice_items :=
      s₁.invoice_items.filter (fun it => ¬ it.invoice_id = id) ++
        insertItems id s₁.itemsSeq items
    itemsSeq := s₁.itemsSeq + items.length }

/-- Handler of `DELETE /:id` (lines 722-735): delete the items, then the invoice. -/
def delete (s : Store α) (id : Nat) : Store α :=
  { s with
    invoice_items := s.invoice_items.filter (fun it => ¬ it.invoice_id = id)
    invoices := s.invoices.filter (fun r => ¬ r.id = id) }

/-- The reducer of line 206, run by the preview over the selected item rows. -/
def previewTotal [Add α] [Mul α] [Zero α] (items : List (ItemRow α)) : α :=
  items.foldl (fun sum item => sum + item.quantity * item.unit_price) 0

/-- The sum of the `total` column of item rows, in row order. -/
def sumTotals [Add α] [Zero α] (items : List (ItemRow α)) : α :=
  items.foldl (fun sum item => sum + item.total) 0

/-- SQL `SUM(x)` over the selected rows, in row order: NULL when no row is
selected. -/
def sqlSum [Add α] : List α → Option α
  | [] => none
  | x :: xs => some (xs.foldl (fun acc y => acc + y) x)

/-- SQL `COALESCE(v, d)`. -/
def coalesce (v : Option α) (d : α) : α := v.getD d

/-- The CASE expression of line 744; `half` is the value of the literal `0.5`. -/
def revenueCase [Mul α] [Zero α] (half : α) (r : InvoiceRow α) : α :=
  if r.status = some "Paid" then r.subtotal
  else if r.status = some "Advance" then r.subtotal * half
  else 0

/-- The CASE expression of line 751. -/
def outstandingCase [Mul α] [Zero α] (half : α) (r : InvoiceRow α) : α :=
  if r.status = some "Unpaid" then r.subtotal
  else if r.status = some "Advance" then r.subtotal * half
  else 0

/-- The JSON answer of `GET /stats/overview`. -/
structure StatsOverview (α : Type) where
  total_revenue : α
  outstanding_amount : α
  unpaid_count : Nat

/-- Handler of `GET /stats/overview` (lines 741-774) with the three queries succeeding. -/
def statsOverview [Add α] [Mul α] [Zero α] (half : α) (s : Store α) : StatsOverview α :=
  { total_revenue := coalesce (sqlSum (s.invoices.map (revenueCase half))) 0
    outstanding_amount := coalesce (sqlSum (s.invoices.map (outstandingCase half))) 0
    unpaid_count :=
      (s.invoices.filter
        (fun r => r.status = some "Unpaid" ∨ r.status = some "Advance")).length }

/-- One write request to the invoice routes. -/
inductive Op (α : Type) where
  | post (today now₂ now₃ : JSDate) (body : PostBody α)
  | put (id : Nat) (body : PutBody α)
  | patch (id : Nat) (body : PatchBody) (now : JSDate)
  | delete (id : Nat)

/-- The store after a request; a request that is answered with an error
leaves the store as it was. -/
def step [Add α] [Mul α] [Zero α] (s : Store α) : Op α → Store α
  | .post today now₂ now₃ body =>
    match post s today now₂ now₃ body with
    | .ok (s', _) => s'
    | .error _ => s
  | .put id body => put s id body
  | .patch id body now =>
    match patch s id body now with
    | .ok s' => s'
    | .error _ => s
  | .delete id => delete s id

/-- The store after a sequence of requests. -/
def run [Add α] [Mul α] [Zero α] (s : Store α) (ops : List (Op α)) : Store α :=
  ops.foldl step s

/-- No two stored invoices carry the same `invoice_number`. -/
abbrev UniqueNumbers (s : Store α) : Prop :=
  (s.invoices.map (fun r => r.invoice_number)).Nodup

/-- Every stored invoice's `subtotal` is the sum of the `total` column of the
stored items that carry its id. -/
abbrev SubtotalInv [Add α] [Zero α] (s : Store α) : Prop :=
  ∀ r ∈ s.invoices, r.subtotal = sumTotals (s.itemsOf r.id)

/-- The requests `ops`, handled one after another from `s`, each satisfy `ok`
in the store they meet. -/
def RunsWith [Add α] [Mul α] [Zero α] (ok : Store α → Op α → Prop) :
    Store α → List (Op α) → Prop
  | _, [] => True
  | s, op :: rest => ok s op ∧ RunsWith ok (step s op) rest

/-- A clock reading whose local calendar date is its UTC calendar date and
whose year lies in the century `cent` (four-digit years only). -/
def GoodDate (cent : Int) (d : JSDate) : Prop :=
  d.localCivil = d.utc ∧ 10 ≤ cent ∧ cent ≤ 99 ∧
    100 * cent ≤ d.getFullYear ∧ d.getFullYear ≤ 100 * cent + 99

/-- The requests the numbering invariant is stated for: a creation whose
clock reading is a `GoodDate`, whose stored date is the date that was
counted, and that meets fewer than 26 invoices of that date; or a PATCH. -/
def NumberingOk (cent : Int) (s : Store α) : Op α → Prop
  | .post today now₂ _ _ =>
    GoodDate cent today ∧ isoDate now₂ = isoDate today ∧
      (s.selectByDate (isoDate today)).length < 26
  | .patch _ _ _ => True
  | _ => False

/-- The `(invoice_number, invoice_date)` columns of table `invoices`. -/
def keys (s : Store α) : List (Option String × Option String) :=
  s.invoices.map (fun r => (r.invoice_number, r.invoice_date))

/-- How many of the listed rows are dated `D`. -/
def dateCount (D : String) (ks : List (Option String × Option String)) : Nat :=
  (ks.filter (fun p => p.2 = some D)).length

/-- The numbering invariant on the `(invoice_number, invoice_date)` columns:
every row carries the label of its own date with a letter index below the
number of rows of that date, no date has more than 26 rows, and the numbers are
pairwise different. -/
def NumInv (cent : Int) (ks : List (Option String × Option String)) : Prop :=
  (∀ p ∈ ks, ∃ (d : JSDate) (i : Nat), GoodDate cent d ∧ p.2 = some (isoDate d) ∧
      p.1 = some ("Invoice-" ++ datePart d ++ String.singleton (seqLetter i)) ∧
      i < dateCount (isoDate d) ks) ∧
    (∀ D, dateCount D ks ≤ 26) ∧ (ks.map Prod.fst).Nodup

/-- The left-to-right sum of `quantity * unit_price` over an item list,
starting from 0. -/
def leftToRightSum [Add α] [Mul α] [Zero α] (items : List (Item α)) : α :=
  (items.map (fun item => item.quantity * item.unit_price)).foldl (fun sum x => sum + x) 0

/-- The requests the subtotal invariant is stated for: a PUT has to address
an invoice that is stored when it arrives; the other requests are free. -/
def PutTargetsStored (s : Store α) : Op α → Prop
  | .put id _ => ∃ r ∈ s.invoices, r.id = id
  | _ => True

/-- The subtotal invariant together with what makes it inductive: no item
row without its invoice, and no invoice id above the AUTOINCREMENT counter. -/
def StoreWF [Add α] [Zero α] (s : Store α) : Prop :=
  SubtotalInv s ∧ (∀ it ∈ s.invoice_items, ∃ r ∈ s.invoices, r.id = it.invoice_id) ∧
    (∀ r ∈ s.invoices, r.id ≤ s.invoicesSeq)

/-- The clock readings and body of one `POST /` request. -/
structure PostReq (α : Type) where
  today : JSDate
  now₂ : JSDate
  now₃ : JSDate
  body : PostBody α

/-- The invoice numbers answered to a series of `POST /` requests, each one
persisted before the next is handled (`none` for a request answered with an
error). -/
def postLabels [Add α] [Mul α] [Zero α] (s : Store α) :
    List (PostReq α) → List (Option String)
  | [] => []
  | r :: rest =>
    match post s r.today r.now₂ r.now₃ r.body with
    | .ok (s', resp) => some resp.invoice_number :: postLabels s' rest
    | .error _ => none :: postLabels s rest

end Handlers

/-! ## The preview document (`GET /:id/preview`, lines 179-539)

The template literal of lines 208-537 is kept as its stretches of text, one
definition per stretch between two interpolations, each as the list of its
lines. -/

/-- The text of a stretch of template: its lines one after another. -/
def templateText : List String → String
  | [] => ""
  | line :: rest => line ++ templateText rest

/-- Template text of lines 208-213, up to the title. -/
def litDoctype : List String :=
  ["\n",
   "<!DOCTYPE html>\n",
   "<html lang=\"en\">\n",
   "<head>\n",
   "<meta charset=\"UTF-8\">\n",
   "<title>"]

/-- Template text of lines 213-389: the style sheet and the first body tag. -/
def litStyle : List String :=
  ["</title>\n",
   "\n",
   "<style>\n",
   "/* ---------- Global ---------- */\n",
   "body \x7b\n",
   "position:relative;\n",
   "z-index:1;\n",
   "  margin:0; \n",
   "  padding:40px; \n",
   "  background:#f0f2f5; \n",
   "  font-family:\x27Segoe UI\x27, Tahoma, Geneva, Verdana, sans-serif; \n",
   "  color:#2c3e50;\n",
   "  min-height:100vh;\n",
   "\x7d\n",
   "\n",
   ".invoice-wrapper \x7b\n",
   "position:relative;\n",
   "  z-index:1;\n",
   "  max-width:900px;\n",
   "  margin:auto;\n",
   "  background:#ffffff;\n",
   "  padding:40px 50px;\n",
   "  border-radius:16px;\n",
   "  box-shadow:0 10px 25px rgba(0,0,0,0.08);\n",
   "\x7d\n",
   "\n",
   "/* ---------- Buttons ---------- */\n",
   ".btn \x7b\n",
   "  background: #1a2a52;\n",
   "  color: #ffffff;\n",
   "  border: none;\n",
   "  padding: 12px 28px;\n",
   "  font-size: 14px;\n",
   "  border-radius: 8px;\n",
   "  cursor: pointer;\n",
   "  margin-bottom: 20px;\n",
   "\x7d\n",
   "\n",
   "/* ---------- Header ---------- */\n",
   ".header \x7b\n",
   "  display: flex;\n",
   "  justify-content: space-between;\n",
   "  align-items: flex-start;\n",
   "  margin-bottom: 25px;\n",
   "\x7d\n",
   "\n",
   ".header h1 \x7b\n",
   "  margin: 0 0 10px 0;\n",
   "  font-size: 34px;\n",
   "  color: #1a2a52;\n",
   "\x7d\n",
   "\n",
   ".company-info \x7b\n",
   "  font-size: 14px;\n",
   "  line-height: 1.6;\n",
   "  color: #7f8c8d;\n",
   "\x7d\n",
   "\n",
   ".company-info strong \x7b\n",
   "  color: #2c3e50;\n",
   "\x7d\n",
   "\n",
   ".invoice-total \x7b\n",
   "  text-align: right;\n",
   "  font-size: 18px;\n",
   "  font-weight: 700;\n",
   "  color: #e84118;\n",
   "\x7d\n",
   "\n",
   "/* ---------- Info ---------- */\n",
   ".info-grid \x7b\n",
   "  display: grid;\n",
   "  grid-template-columns: 1fr 1fr;\n",
   "  gap: 20px;\n",
   "  margin-bottom: 30px;\n",
   "  font-size: 14px;\n",
   "\x7d\n",
   "\n",
   "/* ---------- Table ---------- */\n",
   "table \x7b\n",
   "  width: 100%;\n",
   "  border-collapse: collapse;\n",
   "  font-size: 14px;\n",
   "\x7d\n",
   "\n",
   "th \x7b\n",
   "  background: #1a2a52;\n",
   "  color: #ffffff;\n",
   "  padding: 14px 15px;\n",
   "  text-align: left;\n",
   "\x7d\n",
   "\n",
   "th.right,\n",
   "td.right \x7b\n",
   "  text-align: right;\n",
   "\x7d\n",
   "\n",
   "td \x7b\n",
   "  padding: 14px 15px;\n",
   "  border-bottom: 1px solid #e0e0e0;\n",
   "\x7d\n",
   "\n",
   ".item-description \x7b\n",
   "  font-size: 13px;\n",
   "  color: #7f8c8d;\n",
   "\x7d\n",
   "\n",
   "/* ---------- Totals ---------- */\n",
   ".totals \x7b\n",
   "  max-width: 360px;\n",
   "  margin-left: auto;\n",
   "  margin-top: 30px;\n",
   "  font-size: 16px;\n",
   "\x7d\n",
   "\n",
   ".totals-row \x7b\n",
   "  display: flex;\n",
   "  justify-content: space-between;\n",
   "  padding: 8px 0;\n",
   "  border-bottom: 1px solid #e0e0e0;\n",
   "\x7d\n",
   "\n",
   ".totals-final \x7b\n",
   "  font-weight: 700;\n",
   "  color: #1a2a52;\n",
   "  border-bottom: none;\n",
   "\x7d\n",
   "\n",
   "/* ---------- Bank ---------- */\n",
   ".banks \x7b\n",
   "  margin-top: 40px;\n",
   "  padding-top: 20px;\n",
   "  display: flex;\n",
   "  gap: 20px;\n",
   "  border-top: 2px solid #e0e0e0;\n",
   "\x7d\n",
   "\n",
   ".bank-info \x7b\n",
   "  flex: 1;\n",
   "  font-size: 14px;\n",
   "  line-height: 1.6;\n",
   "  color: #2c3e50;\n",
   "\x7d\n",
   "\n",
   ".bank-info strong \x7b\n",
   "  color: #1a2a52;\n",
   "  font-size: 15px;\n",
   "\x7d\n",
   "\n",
   "/* ---------- Footer ---------- */\n",
   ".footer \x7b\n",
   "  margin-top: 50px;\n",
   "  text-align: center;\n",
   "  font-weight: 600;\n",
   "  color: #95a5a6;\n",
   "\x7d\n",
   "\n",
   "@media print \x7b\n",
   "  .btn \x7b\n",
   "    display: none;\n",
   "  \x7d\n",
   "  body \x7b\n",
   "    margin:0; \n",
   "    padding:0; \n",
   "    background:#ffffff;\n",
   "  \x7d\n",
   "  .invoice-wrapper \x7b\n",
   "    padding:0;\n",
   "    border-radius:0;\n",
   "    box-shadow:unset;\n",
   "  \x7d\n",
   "\n",
   "\x7d\n",
   "</style>\n",
   "</head>\n",
   "\n",
   "<body class=\"invoice-page "]

/-- Template text that closes a body tag (line 389, and again line 408). -/
def litTagEnd : List String :=
  ["\">\n"]

/-- Template text of lines 407-408: the second body tag. -/
def litBody2 : List String :=
  ["\n",
   "<body class=\"invoice-page "]

/-- Template text of lines 426-430: wrapper and buttons, up to the invoice id. -/
def litWrapper : List String :=
  ["\n",
   "<div class=\"invoice-wrapper\">\n",
   "\n",
   "<button class=\"btn\" onclick=\"printInvoice()\">Print</button>\n",
   "<button class=\"btn\" onclick=\"window.open(\x27/api/invoices/"]

/-- Template text of line 430 between the invoice id and the invoice number. -/
def litPdf : List String :=
  ["/pdf/"]

/-- Template text of lines 430-437, up to the company name. -/
def litHeader : List String :=
  ["\x27)\">Download PDF</button>\n",
   "\n",
   "<!-- Header -->\n",
   "<div class=\"header\">\n",
   "  <div>\n",
   "    <h1>Invoice</h1>\n",
   "    <div class=\"company-info\">\n",
   "      <strong>"]

/-- Template text of lines 437-438 between company name and company address. -/
def litCompanySep : List String :=
  ["</strong><br>\n",
   "      "]

/-- Template text of lines 438-442, up to the amount due. -/
def litInvoiceDue : List String :=
  ["\n",
   "    </div>\n",
   "  </div>\n",
   "  <div class=\"invoice-total\">\n",
   "    Invoice Due<br>$"]

/-- Template text of lines 442-450, up to the client name. -/
def litBillTo : List String :=
  ["\n",
   "  </div>\n",
   "</div>\n",
   "\n",
   "<!-- Info -->\n",
   "<div class=\"info-grid\">\n",
   "  <div>\n",
   "    <strong>Bill To:</strong><br>\n",
   "    "]

/-- Template text of lines 450-451 between client name and contact person. -/
def litContactSep : List String :=
  ["<br>\n",
   "    "]

/-- Template text of lines 451-454, up to the invoice number. -/
def litInvoiceNo : List String :=
  ["\n",
   "  </div>\n",
   "  <div>\n",
   "    <strong>Invoice #:</strong> "]

/-- Template text of lines 454-455 between the invoice number and the invoice date. -/
def litDate : List String :=
  ["<br>\n",
   "    <strong>Date:</strong> "]

/-- Template text of lines 455-470: the table head, up to the rows. -/
def litTableHead : List String :=
  ["<br>\n",
   "  </div>\n",
   "</div>\n",
   "\n",
   "<!-- Table -->\n",
   "<table>\n",
   "  <thead>\n",
   "    <tr>\n",
   "      <th>Description</th>\n",
   "      <th class=\"right\">Qty</th>\n",
   "      <th class=\"right\">Price</th>\n",
   "      <th class=\"right\">Total</th>\n",
   "    </tr>\n",
   "  </thead>\n",
   "  <tbody>\n",
   "    "]

/-- Template text of lines 482-490, from the end of the rows up to the total. -/
def litTotals : List String :=
  ["\n",
   "  </tbody>\n",
   "</table>\n",
   "\n",
   "<!-- Totals -->\n",
   "<div class=\"totals\">\n",
   "  <div class=\"totals-row\">\n",
   "    <span>Total</span>\n",
   "    <strong>$"]

/-- Template text of lines 490-494, up to the deposit amount. -/
def litDeposit : List String :=
  ["</strong>\n",
   "  </div>\n",
   "  <div class=\"totals-row\">\n",
   "    <span>Deposit (50%)</span>\n",
   "    <span>$"]

/-- Template text of lines 494-498, up to the remaining balance amount. -/
def litBalance : List String :=
  ["</span>\n",
   "  </div>\n",
   "  <div class=\"totals-row totals-final\">\n",
   "    <span>Remaining Balance</span>\n",
   "    <span>$"]

/-- Template text of lines 498-504, up to the first bank block. -/
def litBanks : List String :=
  ["</span>\n",
   "  </div>\n",
   "</div>\n",
   "\n",
   "<!-- Bank -->\n",
   "<div class=\"banks\">\n",
   "  "]

/-- Template text of lines 510-511 between the two bank blocks. -/
def litBankSep : List String :=
  ["\n",
   "  "]

/-- Template text of lines 517-537: footer and script, to the end of the template. -/
def litFooter : List String :=
  ["\n",
   "</div>\n",
   "\n",
   "<div class=\"footer\">\n",
   "  Thank you for your business!\n",
   "</div>\n",
   "\n",
   "</div>\n",
   "\n",
   "<script>\n",
   "function printInvoice() \x7b\n",
   "  window.print();\n",
   "\x7d\n",
   "</script>\n",
   "\n",
   "</body>\n",
   "</html>\n",
   "\n",
   "\n",
   "\n",
   "  "]

/-- Template text of lines 390-406: the watermark shown for a paid invoice. -/
def wmPaid : List String :=
  ["\n",
   "<div style=\"\n",
   "  position:fixed;\n",
   "  top:50%;\n",
   "  left:50%;\n",
   "  transform:translate(-50%, -50%) rotate(-30deg);\n",
   "  font-size:240px;\n",
   "  font-weight:800;\n",
   "  color:#1a2a52;\n",
   "  opacity:0.08;\n",
   "  z-index:2;\n",
   "  pointer-events:none;\n",
   "  user-select:none;\n",
   "  white-space:nowrap;\n",
   "\">\n",
   "  PAID\n",
   "</div>\n"]

/-- Template text of lines 409-425: the watermark shown for an unpaid invoice. -/
def wmUnpaid : List String :=
  ["\n",
   "<div style=\"\n",
   "  position:fixed;\n",
   "  top:50%;\n",
   "  left:50%;\n",
   "  transform:translate(-50%, -50%) rotate(-30deg);\n",
   "  font-size:200px;\n",
   "  font-weight:800;\n",
   "  color:#1a2a52;\n",
   "  opacity:0.08;\n",
   "  z-index:2;\n",
   "  pointer-events:none;\n",
   "  user-select:none;\n",
   "  white-space:nowrap;\n",
   "\">\n",
   "  UNPAID\n",
   "</div>\n"]

/-- Template text of lines 470-473 that opens an item row, up to the title. -/
def rowOpen : List String :=
  ["\n",
   "      <tr>\n",
   "        <td>\n",
   "          "]

/-- Template text of lines 473-474 between the title and the description of an item. -/
def rowTitleEnd : List String :=
  ["<br>\n",
   "          "]

/-- Template text of lines 476-478, up to the quantity. -/
def rowQty : List String :=
  ["\n",
   "        </td>\n",
   "        <td class=\"right\">"]

/-- Template text of lines 478-479 (and again 479-480) between two right-aligned cells. -/
def rowPrice : List String :=
  ["</td>\n",
   "        <td class=\"right\">$"]

/-- Template text of lines 480-482 that closes an item row. -/
def rowClose : List String :=
  ["</td>\n",
   "      </tr>\n",
   "    "]

/-- Template text of line 475 that opens the description of an item. -/
def descOpen : List String :=
  ["<span class=\"item-description\">- "]

/-- Template text of line 475 that closes the description of an item. -/
def descClose : List String :=
  ["</span>"]

/-- Template text of lines 504-506 (and again 511-513) that opens a bank block. -/
def bankOpen : List String :=
  ["\n",
   "  <div class=\"bank-info\">\n",
   "    "]

/-- Template text of lines 508-510 (and again 515-517) that closes a bank block. -/
def bankClose : List String :=
  ["\n",
   "  </div>\n",
   "  "]

/-- Template text of line 507 that opens the emphasised first line of a bank block. -/
def strongOpen : List String :=
  ["<strong>"]

/-- Template text of line 507 that closes the emphasised first line of a bank block. -/
def strongClose : List String :=
  ["</strong>"]

section Preview

variable {α : Type}

/-- The row the preview query selects (lines 183-194): the invoice with the
joined client and company columns. -/
structure PreviewInvoice (α : Type) where
  invoice : InvoiceRow α
  client_name : Option String
  contact_person : Option String
  company_name : Option String
  company_address : Option String
  bank_info_1 : Option String
  bank_info_2 : Option String

/-- How the template prints a number: interpolated as it is, and through
`toFixed(2)`. `toFixed` is a method of numbers only: `isNumber` tells the
values that are numbers from the others (a NULL column is read as `null`), on
which the method call throws a `TypeError`. -/
structure NumberFormat (α : Type) where
  toText : α → String
  toFixed2 : α → String
  isNumber : α → Bool

/-- Interpolation of a TEXT column: NULL prints as `null`. -/
def sqlText : Option String → String
  | some s => s
  | none => "null"

/-- Interpolation of `column || ""`. -/
def orEmpty : Option String → String
  | some s => s
  | none => ""

/-- The method `Array.prototype.join(sep)` on strings. -/
def joinWith (sep : String) : List String → String
  | [] => ""
  | [s] => s
  | s :: rest => s ++ sep ++ joinWith sep rest

/-- The pieces of a text between the occurrences of `sep`. -/
def splitOn (sep : Char) : List Char → List (List Char)
  | [] => [[]]
  | c :: cs =>
    if c = sep then [] :: splitOn sep cs
    else
      match splitOn sep cs with
      | [] => [[c]]
      | l :: ls => (c :: l) :: ls

/-- The call `s.split('\n')`. -/
def splitLines (s : String) : List String := (splitOn '\n' s.data).map String.mk

/-- The call `s.replace(/\n/g, replacement)`, for a replacement text without `$`. -/
def replaceNewlines (s : String) (replacement : String) : String :=
  String.mk (s.data.flatMap (fun c => if c = '\n' then replacement.data else [c]))

/-- The mapping of lines 506-508: the first line is wrapped in `strong` tags. -/
def emphasizeFirst : List String → List String
  | [] => []
  | line :: rest => (templateText strongOpen ++ line ++ templateText strongClose) :: rest

/-- Lines 474-476: the description element of an item row; nothing for a
description that is NULL or empty. -/
def descriptionHtml (description : Option String) : String :=
  match description with
  | some d =>
    if d ≠ "" then
      templateText descOpen ++ replaceNewlines d "<br>- " ++ templateText descClose
    else ""
  | none => ""

/-- Lines 470-482: the table row of one item whose `unit_price` is a number. -/
def itemRowHtml [Mul α] (fmt : NumberFormat α) (item : ItemRow α) : String :=
  templateText rowOpen ++ sqlText item.title ++ templateText rowTitleEnd ++
    descriptionHtml item.description ++ templateText rowQty ++ fmt.toText item.quantity ++
    templateText rowPrice ++ fmt.toFixed2 item.unit_price ++ templateText rowPrice ++
    fmt.toFixed2 (item.quantity * item.unit_price) ++ templateText rowClose

/-- Lines 504-510 and 511-517: a bank block; nothing for a text that is NULL
or empty. -/
def bankBlock (info : Option String) : String :=
  match info with
  | some b =>
    if b ≠ "" then
      templateText bankOpen ++ joinWith "<br>" (emphasizeFirst (splitLines b)) ++
        templateText bankClose
    else ""
  | none => ""

/-- Lines 206-537: the HTML document of the preview, for item rows whose
`unit_price` is a number. -/
def previewHtml [Add α] [Mul α] [Zero α] [Div α] [OfNat α 2] (fmt : NumberFormat α)
    (invoice : PreviewInvoice α) (items : List (ItemRow α)) : String :=
  let total := previewTotal items
  templateText litDoctype ++ sqlText invoice.invoice.invoice_number ++
    templateText litStyle ++ sqlText invoice.invoice.status ++ templateText litTagEnd ++
    (if invoice.invoice.status = some "Paid" then templateText wmPaid else "") ++
    templateText litBody2 ++ sqlText invoice.invoice.status ++ templateText litTagEnd ++
    (if invoice.invoice.status = some "Unpaid" then templateText wmUnpaid else "") ++
    templateText litWrapper ++ toString invoice.invoice.id ++ templateText litPdf ++
    sqlText invoice.invoice.invoice_number ++ templateText litHeader ++
    sqlText invoice.company_name ++ templateText litCompanySep ++
    orEmpty invoice.company_address ++ templateText litInvoiceDue ++ fmt.toFixed2 total ++
    templateText litBillTo ++ sqlText invoice.client_name ++ templateText litContactSep ++
    orEmpty invoice.contact_person ++ templateText litInvoiceNo ++
    sqlText invoice.invoice.invoice_number ++ templateText litDate ++
    sqlText invoice.invoice.invoice_date ++ templateText litTableHead ++
    joinWith "" (items.map (itemRowHtml fmt)) ++ templateText litTotals ++
    fmt.toFixed2 total ++ templateText litDeposit ++ fmt.toFixed2 (total / 2) ++
    templateText litBalance ++ fmt.toFixed2 (total / 2) ++ templateText litBanks ++
    bankBlock invoice.bank_info_1 ++ templateText litBankSep ++
    bankBlock invoice.bank_info_2 ++ templateText litFooter

end Preview

/-! ## Whitespace-separated tokens of a text -/

/-- The text `t` is a whitespace-separated token of `s`: a non-empty stretch
of `s` without whitespace that has whitespace, or the end of the text, on
either side. -/
def IsTok (t s : List Char) : Prop :=
  t ≠ [] ∧ (∀ c ∈ t, c.isWhitespace = false) ∧
    ∃ pre post, s = pre ++ t ++ post ∧
      (∀ c, pre.getLast? = some c → c.isWhitespace = true) ∧
      (∀ c, post.head? = some c → c.isWhitespace = true)

/-- Tokens of strings. -/
def IsToken (t s : String) : Prop := IsTok t.data s.data

/-- The letters of the two watermark words. -/
def wordLetters : List Char := ['U', 'N', 'P', 'A', 'I', 'D']

/-- Neither watermark word is a token of the text. -/
def NoPaidWord (s : String) : Prop := ¬ IsToken "PAID" s ∧ ¬ IsToken "UNPAID" s

/-- A template literal as what it is made of: stretches of template text
(by lines), and interpolated values. -/
inductive Piece where
  | lit (lines : List String)
  | val (s : String)

/-- The text a piece contributes. -/
def Piece.text : Piece → String
  | .lit lines => templateText lines
  | .val s => s

/-- The value of a template literal: its pieces in order. -/
def renderPieces : List Piece → String
  | [] => ""
  | p :: ps => p.text ++ renderPieces ps

/-- Lines that all end with a line break, but for the last one, and of which
none has the word `w` in it. -/
def linesFree (w : String) : List String → Bool
  | [] => true
  | [line] => !(decide (w.data <:+: line.data))
  | line :: rest =>
    !(decide (w.data <:+: line.data)) && (line.data.getLast? == some '\n') &&
      linesFree w rest

/-- A stretch of template text that starts and ends with a character that is
no letter of the watermark words. -/
def Piece.guarded : Piece → Bool
  | .lit lines =>
    match lines.head?.bind (fun l => l.data.head?),
      lines.getLast?.bind (fun l => l.data.getLast?) with
    | some a, some b => !(wordLetters.contains a) && !(wordLetters.contains b)
    | _, _ => false
  | .val _ => false

/-- Every interpolated value is followed by guarded template text or ends
the list, and all template text is guarded. -/
def separated : List Piece → Bool
  | [] => true
  | .lit s :: rest => (Piece.lit s).guarded && separated rest
  | .val _ :: [] => true
  | .val _ :: .val _ :: _ => false
  | .val _ :: .lit s :: rest => separated (.lit s :: rest)

section PreviewPieces

variable {α : Type}

/-- The pieces of the watermark interpolation for `word` (lines 390-407 and
409-426): the watermark text when the status is `word`, nothing otherwise. -/
def markPieces (status : Option String) (word : String) (text : List String) : List Piece :=
  if status = some word then [.lit text] else []

/-- The pieces of `descriptionHtml`. -/
def descPieces (description : Option String) : List Piece :=
  match description with
  | some d =>
    if d ≠ "" then [.lit descOpen, .val (replaceNewlines d "<br>- "), .lit descClose] else []
  | none => []

/-- The pieces of `itemRowHtml`. -/
def rowPieces [Mul α] (fmt : NumberFormat α) (item : ItemRow α) : List Piece :=
  [.lit rowOpen, .val (sqlText item.title), .lit rowTitleEnd] ++
    (descPieces item.description ++
      [.lit rowQty, .val (fmt.toText item.quantity), .lit rowPrice,
       .val (fmt.toFixed2 item.unit_price), .lit rowPrice,
       .val (fmt.toFixed2 (item.quantity * item.unit_price)), .lit rowClose])

/-- The pieces of `bankBlock`. -/
def bankPieces (info : Option String) : List Piece :=
  match info with
  | some b =>
    if b ≠ "" then
      [.lit bankOpen, .val (joinWith "<br>" (emphasizeFirst (splitLines b))), .lit bankClose]
    else []
  | none => []

/-- The pieces of `previewHtml`, in order. -/
def previewPieces [Add α] [Mul α] [Zero α] [Div α] [OfNat α 2] (fmt : NumberFormat α)
    (invoice : PreviewInvoice α) (items : List (ItemRow α)) : List Piece :=
  let total := previewTotal items
  [.lit litDoctype, .val (sqlText invoice.invoice.invoice_number), .lit litStyle,
    .val (sqlText invoice.invoice.status), .lit litTagEnd] ++
  (markPieces invoice.invoice.status "Paid" wmPaid ++
  ([.lit litBody2, .val (sqlText invoice.invoice.status), .lit litTagEnd] ++
  (markPieces invoice.invoice.status "Unpaid" wmUnpaid ++
  ([.lit litWrapper, .val (toString invoice.invoice.id), .lit litPdf,
    .val (sqlText invoice.invoice.invoice_number), .lit litHeader,
    .val (sqlText invoice.company_name), .lit litCompanySep,
    .val (orEmpty invoice.company_address), .lit litInvoiceDue, .val (fmt.toFixed2 total),
    .lit litBillTo, .val (sqlText invoice.client_name), .lit litContactSep,
    .val (orEmpty invoice.contact_person), .lit litInvoiceNo,
    .val (sqlText invoice.invoice.invoice_number), .lit litDate,
    .val (sqlText invoice.invoice.invoice_date), .lit litTableHead] ++
  (items.flatMap (rowPieces fmt) ++
  ([.lit litTotals, .val (fmt.toFixed2 total), .lit litDeposit,
    .val (fmt.toFixed2 (total / 2)), .lit litBalance, .val (fmt.toFixed2 (total / 2)),
    .lit litBanks] ++
  (bankPieces invoice.bank_info_1 ++
  ([.lit litBankSep] ++
  (bankPieces invoice.bank_info_2 ++ [.lit litFooter])))))))))

end PreviewPieces

section PreviewConditions

variable {α : Type}

/-- A list of pieces that is `separated` and does not start with an
interpolated value. -/
def WellFormed (ps : List Piece) : Prop :=
  separated ps = true ∧ ∀ v rest, ps ≠ .val v :: rest

/-- No piece of the list has `t` as a token. -/
def Clean (t : List Char) (ps : List Piece) : Prop :=
  ∀ p ∈ ps, ¬ IsTok t p.text.data

/-- A TEXT column that is NULL or has neither watermark word as a token. -/
def TextFree (f : Option String) : Prop := ∀ s, f = some s → NoPaidWord s

/-- The text fields of the invoice, of its client and company and of the
items, and the printed numbers, have neither `PAID` nor `UNPAID` as a token. -/
def FieldsFree (fmt : NumberFormat α) (invoice : PreviewInvoice α)
    (items : List (ItemRow α)) : Prop :=
  TextFree invoice.invoice.invoice_number ∧ TextFree invoice.invoice.invoice_date ∧
    TextFree invoice.company_name ∧ TextFree invoice.company_address ∧
    TextFree invoice.client_name ∧ TextFree invoice.contact_person ∧
    TextFree invoice.bank_info_1 ∧ TextFree invoice.bank_info_2 ∧
    (∀ item ∈ items, TextFree item.title ∧ TextFree item.description) ∧
    (∀ x : α, NoPaidWord (fmt.toText x) ∧ NoPaidWord (fmt.toFixed2 x))

end PreviewConditions

/-! ## Labels of the totals block -/

/-- A stretch of template text that starts and ends with a character outside
`letters`. -/
def Piece.guardedBy (letters : List Char) : Piece → Bool
  | .lit lines =>
    match lines.head?.bind (fun l => l.data.head?),
      lines.getLast?.bind (fun l => l.data.getLast?) with
    | some a, some b => !(letters.contains a) && !(letters.contains b)
    | _, _ => false
  | .val _ => false

/-- Every interpolated value is followed by template text or ends the list,
and all template text is guarded against `letters`. -/
def separatedBy (letters : List Char) : List Piece → Bool
  | [] => true
  | .lit s :: rest => (Piece.lit s).guardedBy letters && separatedBy letters rest
  | .val _ :: [] => true
  | .val _ :: .val _ :: _ => false
  | .val _ :: .lit s :: rest => separatedBy letters (.lit s :: rest)

/-- The word `t` stands at the start of `s` and is followed by whitespace or
by the end of the text. -/
def tokenAtStart (t s : List Char) : Bool :=
  decide (t <+: s) &&
    (match (s.drop t.length).head? with
     | some c => c.isWhitespace
     | none => true)

/-- The word `t` is found in `s` as a token; `atBoundary` tells whether `s`
starts the text or follows whitespace. -/
def hasTokenAfter (t : List Char) : Bool → List Char → Bool
  | _, [] => false
  | atBoundary, c :: cs =>
    (atBoundary && tokenAtStart t (c :: cs)) || hasTokenAfter t c.isWhitespace cs

/-- The word `t` is found in `s` as a whitespace-separated token. -/
def hasToken (t s : List Char) : Bool := hasTokenAfter t true s

/-- The word `t` is no token of the piece: it occurs in no line of it, or
only inside longer words. -/
def Piece.clear (t : String) : Piece → Bool
  | .lit lines => linesFree t lines || !(hasToken t.data (templateText lines).data)
  | .val s => !(hasToken t.data s.data)

/-- The document has a row of the totals block with the label `label`: a
`totals-row` element whose first `span` holds exactly `label` and whose second
`span` holds an amount. -/
def HasTotalsRow (label html : String) : Prop :=
  ∃ pre cls amount post : String,
    html = pre ++ "<div class=\"totals-row" ++ cls ++ "\">\n    <span>" ++ label ++
      "</span>\n    <span>$" ++ amount ++ "</span>\n  </div>" ++ post

/-! ## The preview route (`GET /:id/preview`, lines 179-539) and the tables it joins -/

section PreviewRoute

variable {α : Type}

/-- The columns of table `clients` the invoice queries name. `company_name`
is no column of the table `db.js` creates (lines 84-90): only a database file
of an older schema has it (comment of lines 93-94). -/
structure ClientRow where
  company_name : Option String
  contact_person : Option String
deriving DecidableEq, Repr

/-- The columns of table `company` the preview query names. -/
structure CompanyRow where
  name : Option String
  address : Option String
  bank_info_1 : Option String
  bank_info_2 : Option String
deriving DecidableEq, Repr

/-- The columns of table `clients` in a database file created by
`initializeTables` (`db.js`, lines 84-90). -/
def clientsSchema : List String := ["id", "contact_person", "email", "phone", "address"]

/-- The database file as the preview reads it: the invoice tables, the
columns table `clients` has in this file, the row of `clients` whose id
equals a stored `client_id` (if there is one), and the row of `company` with
id 1 (if there is one). -/
structure Database (α : Type) where
  store : Store α
  clientsColumns : List String
  clientOf : Option String → Option ClientRow
  company : Option CompanyRow

/-- The query of lines 183-194 (`db.get`): the invoice with the given id,
left-joined with its client and with the company row. SQLite refuses a
statement that names a column its table does not have; the statement names
`c.company_name`. -/
def Database.previewRow (db : Database α) (id : Nat) :
    Except String (Option (PreviewInvoice α)) :=
  if "company_name" ∈ db.clientsColumns then
    .ok ((db.store.invoices.find? (fun i => i.id = id)).map (fun i =>
      { invoice := i
        client_name := (db.clientOf i.client_id).bind (fun c => c.company_name)
        contact_person := (db.clientOf i.client_id).bind (fun c => c.contact_person)
        company_name := db.company.bind (fun com => com.name)
        company_address := db.company.bind (fun com => com.address)
        bank_info_1 := db.company.bind (fun com => com.bank_info_1)
        bank_info_2 := db.company.bind (fun com => com.bank_info_2) }))
  else .error "SQLITE_ERROR: no such column: c.company_name"

/-- The query of lines 200-202 (`db.all`): the items of the invoice. -/
def Database.previewItems (db : Database α) (id : Nat) : Except String (List (ItemRow α)) :=
  .ok (db.store.itemsOf id)

/-- What a route answers: the HTTP status and the text sent. -/
structure Answer where
  status : Nat
  body : String
deriving DecidableEq, Repr

/-- Handler of `GET /:id/preview` (lines 179-539): the answer sent, or `none`
when no answer is sent. The template calls `item.unit_price.toFixed(2)` on the
value read from each item row (line 479); on a value that is no number the
call throws inside the callback of the items query, before `res.send`. The
other `toFixed` calls are on results of `*`, `+` and `/`, which are numbers. -/
def preview [Add α] [Mul α] [Zero α] [Div α] [OfNat α 2] (fmt : NumberFormat α)
    (db : Database α) (id : Nat) : Option Answer :=
  match db.previewRow id with
  | .error err => some ⟨500, err⟩
  | .ok none => some ⟨404, "Invoice not found"⟩
  | .ok (some invoice) =>
    match db.previewItems id with
    | .error err2 => some ⟨500, err2⟩
    | .ok items =>
      if items.all (fun item => fmt.isNumber item.unit_price) then
        some ⟨200, previewHtml fmt invoice items⟩
      else none

end PreviewRoute

/-! ## The create form (`InvoiceCreate.js`) -/

section CreateForm

variable {α : Type}

/-- The state of the create form that `handleSubmit` reads. -/
structure CreateForm (α : Type) where
  selectedClient : String
  project : String
  items : List (Item α)
  notes : String

/-- What `handleSubmit` does: an alert, or a `POST /invoices` request. -/
inductive Submission (α : Type) where
  | alert (message : String)
  | request (body : PostBody α)

/-- The function `handleSubmit` of `InvoiceCreate.js` (lines 37-52), up to the
request it sends: no request without a selected client. The `created_at` it
puts in the body is not read by `POST /`. -/
def handleSubmit (form : CreateForm α) : Submission α :=
  if form.selectedClient = "" then .alert "Select a client"
  else
    .request { client_id := .val form.selectedClient, project := .val form.project,
               items := some form.items, notes := .val form.notes, status := .val "Unpaid" }

/-- The store after the create form is submitted: the store is written only
by the request, if one is sent. -/
def submitForm [Add α] [Mul α] [Zero α] (s : Store α) (today now₂ now₃ : JSDate)
    (form : CreateForm α) : Store α :=
  match handleSubmit form with
  | .alert _ => s
  | .request body => step s (.post today now₂ now₃ body)

/-- Every stored item row carries the id of a stored invoice. -/
abbrev NoOrphans (s : Store α) : Prop :=
  ∀ it ∈ s.invoice_items, ∃ r ∈ s.invoices, r.id = it.invoice_id

end CreateForm

/-! ## CSV export (`Invoices.js`, `Clients.js`) -/

/-- The call `s.replace(/"/g, '""')`. -/
def doubleQuotes (s : String) : String :=
  String.mk (s.data.flatMap (fun c => if c = '"' then ['"', '"'] else [c]))

/-- The test `/[",\n\r]/.test(s)`. -/
def needsQuoting (s : String) : Bool :=
  s.data.any (fun c => c = '"' || c = ',' || c = '\n' || c = '\r')

/-- The function `escapeCsvValue` of `Invoices.js` (lines 72-79), on a value
that is `null`, `undefined` or a string. -/
def InvoicesPage.escapeCsvValue (value : Field String) : String :=
  match value with
  | .undefined => ""
  | .null => ""
  | .val stringValue =>
    if needsQuoting stringValue then "\"" ++ doubleQuotes stringValue ++ "\""
    else stringValue

/-- The function `escapeCsvValue` of `Clients.js` (lines 77-84), on a value
that is `null`, `undefined` or a string. -/
def ClientsPage.escapeCsvValue (value : Field String) : String :=
  match value with
  | .undefined => ""
  | .null => ""
  | .val stringValue =>
    if needsQuoting stringValue then "\"" ++ doubleQuotes stringValue ++ "\""
    else stringValue

/-- Doubled quotes read as one quote each. -/
def collapseQuotes : List Char → List Char
  | [] => []
  | [c] => [c]
  | c :: d :: rest =>
    if c = '"' ∧ d = '"' then '"' :: collapseQuotes rest else c :: collapseQuotes (d :: rest)

/-- Reading a field of a CSV record as RFC 4180 describes it (written from
the specification, not from the source): a field that starts with a quote
loses its enclosing quotes and has its doubled quotes collapsed; any other
field is taken as it is. -/
def csvFieldValue (field : String) : String :=
  match field.data with
  | '"' :: rest => String.mk (collapseQuotes rest.dropLast)
  | _ => field

/-! ## Restoring a backup (`database.js`, `POST /backups/use`)

The functions of Node's `path` module are modelled for POSIX paths
(`path.posix`): the only separator is `/`. -/

/-- The call `path.basename(p)`: trailing separators are dropped, what follows
the last remaining separator is returned. -/
def basename (p : String) : String :=
  String.mk ((p.data.reverse.dropWhile (fun c => c = '/')).takeWhile
    (fun c => ¬ c = '/')).reverse

/-- The call `path.dirname(p)`: the path up to the separator before its last
component. -/
def dirname (p : String) : String :=
  match p.data with
  | [] => "."
  | c :: tail =>
    match (tail.reverse.dropWhile (fun x => x = '/')).dropWhile (fun x => ¬ x = '/') with
    | [] => if c = '/' then "/" else "."
    | _ :: before => if c = '/' ∧ before = [] then "//" else String.mk (c :: before.reverse)

/-- A path that starts at the root. -/
def isAbsolute (p : String) : Bool := p.data.head? == some '/'

/-- The components of a path: the texts between its separators. -/
def components (p : String) : List String := (splitOn '/' p.data).map String.mk

/-- One step of `normalizeString` of the `path` module: empty components and
`.` are skipped, `..` removes the component before it (or is kept, above the
start of a relative path), any other component is kept. -/
def normalizeStep (allowAboveRoot : Bool) (res : List String) (part : String) : List String :=
  if part = "" ∨ part = "." then res
  else if part = ".." then
    match res.getLast? with
    | some last =>
      if last = ".." then (if allowAboveRoot then res ++ [".."] else res) else res.dropLast
    | none => if allowAboveRoot then [".."] else []
  else res ++ [part]

/-- The components `normalizeString` keeps, in order. -/
def normalizeParts (allowAboveRoot : Bool) (parts : List String) : List String :=
  parts.foldl (normalizeStep allowAboveRoot) []

/-- The components of a path once `.`, `..` and empty components are resolved. -/
def pathParts (p : String) : List String := normalizeParts (!isAbsolute p) (components p)

/-- The call `path.normalize(p)`. -/
def normalize (p : String) : String :=
  if p = "" then "."
  else
    let trailingSeparator := p.data.getLast? == some '/'
    let parts := pathParts p
    if parts = [] then
      if isAbsolute p then "/" else if trailingSeparator then "./" else "."
    else
      (if isAbsolute p then "/" else "") ++ joinWith "/" parts ++
        (if trailingSeparator then "/" else "")

/-- The call `path.join(a, b)`: the arguments that are not empty, joined by a
separator and normalized. -/
def pathJoin (a b : String) : String :=
  let joined := joinWith "/" ([a, b].filter (fun x => ¬ x = ""))
  if joined = "" then "." else normalize joined

/-- The outcome of `POST /backups/use`: an error answer, or the copy of a
file over the database file (followed by the restart of the connection). -/
inductive UseBackup where
  | reject (status : Nat) (error : String)
  | copied (source target : String)
deriving DecidableEq, Repr

/-- Handler of `POST /backups/use` (`database.js`, lines 171-205), up to the
copy; `existsSync` is the file system as `fs.existsSync` sees it and `dbPath`
the value of `resolveDbPath()`. -/
def backupsUse (existsSync : String → Bool) (dbPath : String) (filename : Field String) :
    UseBackup :=
  match filename with
  | .undefined => .reject 400 "Missing filename"
  | .null => .reject 400 "Missing filename"
  | .val filename =>
    if filename = "" then .reject 400 "Missing filename"
    else
      let dbDir := dirname dbPath
      let baseName := basename dbPath
      let safeName := basename filename
      if ¬ (baseName ++ ".backup-").data <+: safeName.data then
        .reject 400 "Invalid backup filename"
      else
        let backupPath := pathJoin dbDir safeName
        if ¬ existsSync backupPath then .reject 404 "Backup file not found"
        else .copied backupPath dbPath

/-! ## Sample requests used by the worked examples -/

/-- A creation with no items whose three clock readings start at time value
`t`, on a machine at UTC-3. -/
def reqAt (t : Int) : PostReq Int :=
  { today := ⟨t, -180⟩, now₂ := ⟨t + 1, -180⟩, now₃ := ⟨t + 2, -180⟩,
    body := { client_id := .val "1", project := .undefined, status := .undefined,
              notes := .undefined, items := none } }

/-- 2024-01-02T15:00:00.000Z, which is noon of 2 January 2024 at UTC-3. -/
def noon : Int := 1704207600000

/-- 2024-01-02T01:00:00.000Z, which is 22:00 of 1 January 2024 at UTC-3. -/
def lateEvening : Int := 1704157200000

/-- The `POST /` request of `reqAt t` as an operation. -/
def postAt (t : Int) : Op Int :=
  .post (reqAt t).today (reqAt t).now₂ (reqAt t).now₃ (reqAt t).body

/-- Two creations a minute apart, deletion of the first invoice, a third creation. -/
def reissueOps : List (Op Int) :=
  [postAt noon, postAt (noon + 60000), .delete 1, postAt (noon + 120000)]


/-- A creation at noon, a PATCH marking invoice 1 as paid, a second creation
a minute later. -/
def numberingOps : List (Op Int) :=
  [postAt noon,
   .patch 1 { status := .val "Paid", paid_at := .undefined, advance_paid_at := .undefined,
              created_at := .undefined } ⟨noon + 30000, -180⟩,
   postAt (noon + 60000)]

/-- Two items: 2 at 150 and 3 at 40. -/
def twoItems : List (Item Int) :=
  [{ title := .val "Design", description := .val "Logo\nBanner", quantity := 2,
     unit_price := 150 },
   { title := .val "Hosting", description := .undefined, quantity := 3, unit_price := 40 }]

/-- One item: 1 at 10. -/
def oneItem : List (Item Int) :=
  [{ title := .val "Setup", description := .null, quantity := 1, unit_price := 10 }]

/-- A creation at time value `t` (machine at UTC-3) with the given items. -/
def postItemsAt (t : Int) (items : List (Item Int)) : Op Int :=
  .post ⟨t, -180⟩ ⟨t + 1, -180⟩ ⟨t + 2, -180⟩
    { client_id := .val "1", project := .val "Site", status := .undefined, notes := .undefined,
      items := some items }

/-- A full update that keeps number and date and carries the given items. -/
def putBodyWith (items : List (Item Int)) : PutBody Int :=
  { client_id := .val "1", invoice_number := .val "Invoice-240102A",
    invoice_date := .val "2024-01-02", project := .val "Site", status := .val "Unpaid",
    notes := .undefined, items := some items, created_at := .undefined, paid_at := .undefined,
    advance_paid_at := .undefined }

/-- A PUT addressed to id 1 while no invoice is stored, then a creation
without items (which receives id 1). -/
def orphanOps : List (Op Int) :=
  [.put 1 (putBodyWith oneItem), postAt noon]

/-- Creation with two items, PUT to one item, PATCH to paid, a second
creation, deletion of the first invoice. -/
def lifecycleOps : List (Op Int) :=
  [postItemsAt noon twoItems,
   .put 1 (putBodyWith oneItem),
   .patch 1 { status := .val "Paid", paid_at := .undefined, advance_paid_at := .undefined,
              created_at := .undefined } ⟨noon + 30000, -180⟩,
   postItemsAt (noon + 60000) twoItems,
   .delete 1]

/-- An invoice row with the given id, status and subtotal. -/
def invoiceWith (id : Nat) (status : String) (subtotal : ℚ) : InvoiceRow ℚ :=
  { id := id, invoice_number := none, client_id := none, project := none,
    status := some status, invoice_date := none, subtotal := subtotal, notes := none,
    created_at := none, paid_at := none, advance_paid_at := none }

/-- Three invoices: 100 Paid, 200 Unpaid, 50 Advance. -/
def statsStore : Store ℚ :=
  { invoices := [invoiceWith 1 "Paid" 100, invoiceWith 2 "Unpaid" 200,
      invoiceWith 3 "Advance" 50],
    invoice_items := [], invoicesSeq := 3, itemsSeq := 0 }

/-- Two creations on the evening of 1 January 2024 at UTC-3, at 20:00 and at
22:00 local time, which is 23:00 UTC of 1 January and 01:00 UTC of 2 January. -/
def eveningOps : List (Op Int) :=
  [postAt (lateEvening - 7200000), postAt lateEvening]

/-- A PATCH body that only names a status. -/
def statusOnly (status : String) : PatchBody :=
  { status := .val status, paid_at := .undefined, advance_paid_at := .undefined,
    created_at := .undefined }

/-- A PATCH body that names a status and every timestamp. -/
def explicitBody : PatchBody :=
  { status := .val "Paid", paid_at := .val "2023-12-24T10:00:00.000Z",
    advance_paid_at := .null, created_at := .val "2023-12-01T08:00:00.000Z" }

/-- An invoice created at noon and marked paid by a PATCH half a minute later. -/
def paidOps : List (Op Int) :=
  [postAt noon, .patch 1 (statusOnly "Paid") ⟨noon + 30000, -180⟩]

/-- A full update that sets the status to `Paid` and names no timestamp. -/
def putPaidBody : PutBody Int :=
  { client_id := .val "1", invoice_number := .val "Invoice-240102A",
    invoice_date := .val "2024-01-02", project := .val "Site", status := .val "Paid",
    notes := .undefined, items := some oneItem, created_at := .undefined,
    paid_at := .undefined, advance_paid_at := .undefined }

/-- A full update that sets the status to `Advance` and names no timestamp. -/
def putAdvanceBody : PutBody Int :=
  { putPaidBody with status := .val "Advance" }

/-- The one invoice row stored after `paidOps`. -/
def paidRow : InvoiceRow Int :=
  { id := 1, invoice_number := some "Invoice-240102A", client_id := some "1",
    project := some "", status := some "Paid", invoice_date := some "2024-01-02",
    subtotal := 0, notes := some "", created_at := some "2024-01-02T15:00:00.002Z",
    paid_at := some "2024-01-02T15:00:30.000Z", advance_paid_at := none }

/-- A number format on whole amounts: the decimal text, and the decimal text
followed by two zero decimals. -/
def wholeFormat : NumberFormat Int :=
  { toText := fun x => toString x, toFixed2 := fun x => toString x ++ ".00",
    isNumber := fun _ => true }

/-- A paid invoice with its joined client and company columns. -/
def sampleInvoice : PreviewInvoice Int :=
  { invoice :=
      { id := 7, invoice_number := some "Invoice-240102A", client_id := some "1",
        project := some "Site", status := some "Paid", invoice_date := some "2024-01-02",
        subtotal := 420, notes := none, created_at := some "2024-01-02T15:00:00.002Z",
        paid_at := some "2024-01-02T15:00:30.000Z", advance_paid_at := none },
    client_name := some "ACME", contact_person := none, company_name := some "DP Studio",
    company_address := some "Main Street 1", bank_info_1 := some "Bank A\nIBAN 123",
    bank_info_2 := none }

/-- Two item rows of invoice 7: 2 at 150 with a two-line description, 3 at 40
without description. -/
def sampleRows : List (ItemRow Int) :=
  [{ id := 1, invoice_id := 7, title := some "Design", description := some "Logo\nBanner",
     quantity := 2, unit_price := 150, total := 300 },
   { id := 2, invoice_id := 7, title := some "Hosting", description := none, quantity := 3,
     unit_price := 40, total := 120 }]

/-- A database file created by `initializeTables` on which nothing was stored. -/
def freshDatabase : Database Int :=
  { store := Store.empty, clientsColumns := clientsSchema, clientOf := fun _ => none,
    company := none }

/-- A creation at noon (machine at UTC-3) whose body names no `client_id`. -/
def postWithoutClient : Op Int :=
  .post ⟨noon, -180⟩ ⟨noon + 1, -180⟩ ⟨noon + 2, -180⟩
    { client_id := .undefined, project := .val "Site", status := .undefined,
      notes := .undefined, items := some oneItem }

/-- A create form on which no client is selected. -/
def formWithoutClient : CreateForm Int :=
  { selectedClient := "", project := "Site", items := oneItem, notes := "" }

/-- A PUT addressed to id 1 while no invoice is stored. -/
def putMissingOps : List (Op Int) :=
  [.put 1 (putBodyWith oneItem)]

/-- A database file of the older schema (table `clients` has `company_name`)
that holds one invoice with two items, its client and the company row. -/
def legacyDatabase : Database Int :=
  { store := step Store.empty (postItemsAt noon twoItems),
    clientsColumns := "company_name" :: clientsSchema,
    clientOf := fun _ => some { company_name := some "ACME", contact_person := some "Ann" },
    company := some { name := some "DP Studio", address := some "Main Street 1",
                      bank_info_1 := some "Bank A\nIBAN 123", bank_info_2 := none } }
/-! ## Facts about the runtime model -/

theorem civil_bounds (days : Int) :
    (civilFromDays days).month < 12 ∧ 1 ≤ (civilFromDays days).date ∧
      (civilFromDays days).date ≤ 31 := by
  simp only [civilFromDays]
  split_ifs <;> omega

theorem toDigitsCore_four (f n : Nat) (ds : List Char) (h1 : 1000 ≤ n) (h2 : n ≤ 9999) :
    Nat.toDigitsCore 10 (f + 4) n ds =
      Nat.digitChar (n / 1000) :: Nat.digitChar (n / 100 % 10) ::
        Nat.digitChar (n / 10 % 10) :: Nat.digitChar (n % 10) :: ds := by
  have e1 : ¬ (n / 10 = 0) := by omega
  have e2 : ¬ (n / 10 / 10 = 0) := by omega
  have e3 : ¬ (n / 10 / 10 / 10 = 0) := by omega
  have e4 : n / 10 / 10 / 10 / 10 = 0 := by omega
  have a1 : n / 10 / 10 / 10 % 10 = n / 1000 := by omega
  have a2 : n / 10 / 10 % 10 = n / 100 % 10 := by omega
  simp only [Nat.toDigitsCore, e1, e2, e3, e4, if_true, if_false, a1, a2]

theorem slice_year (n : Nat) (h1 : 1000 ≤ n) (h2 : n ≤ 9999) :
    slice (numberToString (n : Int)) (-2) = twoDigits (n % 100) := by
  have hrepr : numberToString (n : Int) =
      String.mk [Nat.digitChar (n / 1000), Nat.digitChar (n / 100 % 10),
        Nat.digitChar (n / 10 % 10), Nat.digitChar (n % 10)] := by
    show Nat.repr n = _
    have : n + 1 = (n - 3) + 4 := by omega
    rw [Nat.repr, Nat.toDigits, this, toDigitsCore_four _ _ _ h1 h2]
    rfl
  have b1 : n % 100 / 10 % 10 = n / 10 % 10 := by omega
  have b2 : n % 100 % 10 = n % 10 := by omega
  rw [hrepr]
  simp [slice, twoDigits, zeroPad, String.length, b1, b2]

theorem padStart_two :
    ∀ n : Nat, n < 100 → padStart (numberToString (n : Int)) 2 "0" = twoDigits n := by
  decide

theorem letters_lookup : ∀ n : Nat, n < 26 →
    charAt? "ABCDEFGHIJKLMNOPQRSTUVWXYZ" n = some (String.singleton (seqLetter n)) := by
  decide

theorem local_bounds (d : JSDate) : d.getMonth < 12 ∧ 1 ≤ d.getDate ∧ d.getDate ≤ 31 :=
  civil_bounds _

/-- With a four-digit local year, `datePart` is the three zero-padded pairs. -/
theorem datePart_eq (today : JSDate) (h1 : 1000 ≤ today.getFullYear)
    (h2 : today.getFullYear ≤ 9999) :
    datePart today = twoDigits (today.getFullYear % 100).toNat ++
      twoDigits (today.getMonth + 1) ++ twoDigits today.getDate := by
  obtain ⟨hm, _, hd⟩ := local_bounds today
  obtain ⟨n, hn⟩ := Int.eq_ofNat_of_zero_le (show 0 ≤ today.getFullYear by omega)
  have e : (today.getFullYear % 100).toNat = n % 100 := by rw [hn]; omega
  unfold datePart
  simp only []
  have hc : (today.getMonth : Int) + 1 = ((today.getMonth + 1 : Nat) : Int) := by push_cast; rfl
  rw [e, hn, slice_year n (by omega) (by omega), hc, padStart_two _ (by omega),
    padStart_two _ (by omega)]

/-- The letter chosen on line 24 is always one of `A`..`Z`. -/
theorem seq_eq (n : Nat) :
    templateValue (if n < "ABCDEFGHIJKLMNOPQRSTUVWXYZ".length then
      charAt? "ABCDEFGHIJKLMNOPQRSTUVWXYZ" n else some "Z") = String.singleton (seqLetter n) := by
  have hl : "ABCDEFGHIJKLMNOPQRSTUVWXYZ".length = 26 := by decide
  rw [hl]
  by_cases h : n < 26
  · rw [if_pos h, letters_lookup n h]; rfl
  · rw [if_neg h]; simp [templateValue, seqLetter, h]; rfl

theorem generateInvoiceNumber_ok {ρ : Type} (today : JSDate)
    (dbAll : String → Except String (List ρ)) (rows : List ρ)
    (h : dbAll (isoDate today) = .ok rows) :
    generateInvoiceNumber today dbAll =
      .ok ("Invoice-" ++ datePart today ++ String.singleton (seqLetter rows.length)) := by
  unfold generateInvoiceNumber
  rw [h]
  simp only []
  rw [seq_eq]

section StoreFacts

variable {α : Type} [Add α] [Mul α] [Zero α]

theorem post_eq (s : Store α) (today now₂ now₃ : JSDate) (body : PostBody α) :
    post s today now₂ now₃ body =
      .ok (postInsert s ("Invoice-" ++ datePart today ++
        String.singleton (seqLetter (s.selectByDate (isoDate today)).length))
        now₂ now₃ body) := by
  unfold post
  rw [generateInvoiceNumber_ok today _ (s.selectByDate (isoDate today)) rfl]

theorem selectByDate_postInsert (s : Store α) (num : String) (now₂ now₃ : JSDate)
    (body : PostBody α) (D : String) :
    ((postInsert s num now₂ now₃ body).1.selectByDate D).length =
      (s.selectByDate D).length + (if isoDate now₂ = D then 1 else 0) := by
  by_cases h : isoDate now₂ = D <;> simp [postInsert, Store.selectByDate, List.filter_append, h]

theorem postLabels_from (D : String) (reqs : List (PostReq α)) :
    ∀ s : Store α, (∀ r ∈ reqs, isoDate r.today = D ∧ isoDate r.now₂ = D) →
      postLabels s reqs = (reqs.enumFrom (s.selectByDate D).length).map
        (fun p => some ("Invoice-" ++ datePart p.2.today ++ String.singleton (seqLetter p.1))) := by
  induction reqs with
  | nil => intro s _; rfl
  | cons r rest ih =>
    intro s h
    obtain ⟨h1, h2⟩ := h r (List.mem_cons_self _ _)
    have hrest : ∀ r' ∈ rest, isoDate r'.today = D ∧ isoDate r'.now₂ = D :=
      fun r' hr' => h r' (List.mem_cons_of_mem _ hr')
    simp only [postLabels, post_eq, List.enumFrom_cons, List.map_cons]
    rw [ih _ hrest, selectByDate_postInsert, if_pos h2, h1]
    rfl

end StoreFacts

/-! ## Dates and labels determine each other -/

theorem digitChar_ne_T : ∀ n : Nat, n < 10 → Nat.digitChar n ≠ 'T' := by decide

theorem zeroPad_ne_T : ∀ (w n : Nat), ∀ c ∈ zeroPad w n, c ≠ 'T'
  | 0, _ => by simp [zeroPad]
  | w + 1, n => by
    intro c hc
    simp only [zeroPad, List.mem_append, List.mem_singleton] at hc
    rcases hc with hc | hc
    · exact zeroPad_ne_T w (n / 10) c hc
    · rw [hc]; exact digitChar_ne_T _ (Nat.mod_lt _ (by decide))

theorem isoYear_ne_T (y : Int) : ∀ x ∈ isoYear y, x ≠ 'T' := by
  intro x hx
  unfold isoYear at hx
  split_ifs at hx
  · exact zeroPad_ne_T _ _ x hx
  · rcases List.mem_cons.1 hx with hx | hx
    · rw [hx]; decide
    · exact zeroPad_ne_T _ _ x hx
  · rcases List.mem_cons.1 hx with hx | hx
    · rw [hx]; decide
    · exact zeroPad_ne_T _ _ x hx

theorem isoDateChars_ne_T (c : Civil) : ∀ x ∈ isoDateChars c, x ≠ 'T' := by
  intro x hx
  unfold isoDateChars at hx
  simp only [List.mem_append, List.mem_cons] at hx
  rcases hx with (hx | hx | hx) | hx | hx
  · exact isoYear_ne_T _ x hx
  · rw [hx]; decide
  · exact zeroPad_ne_T _ _ x hx
  · rw [hx]; decide
  · exact zeroPad_ne_T _ _ x hx

theorem takeWhile_before (l r : List Char) (sep : Char) (h : ∀ x ∈ l, x ≠ sep) :
    (l ++ sep :: r).takeWhile (fun c => c != sep) = l := by
  induction l with
  | nil => simp
  | cons a l ih =>
    have ha : a ≠ sep := h a (List.mem_cons_self _ _)
    simp [List.takeWhile_cons, ha, ih (fun x hx => h x (List.mem_cons_of_mem _ hx))]

/-- The query parameter is the `YYYY-MM-DD` text of the UTC calendar date. -/
theorem isoDate_eq (d : JSDate) : isoDate d = String.mk (isoDateChars d.utc) := by
  simp only [isoDate, splitHead, JSDate.toISOString]
  rw [takeWhile_before _ _ _ (isoDateChars_ne_T _)]

theorem digitChar_inj :
    ∀ a : Nat, a < 10 → ∀ b : Nat, b < 10 →
      Nat.digitChar a = Nat.digitChar b → a = b := by
  decide

theorem seqLetter_inj :
    ∀ i : Nat, i < 26 → ∀ j : Nat, j < 26 → seqLetter i = seqLetter j → i = j := by
  decide

theorem twoDigits_inj (a b : Nat) (ha : a < 100) (hb : b < 100)
    (h : zeroPad 2 a = zeroPad 2 b) : a = b := by
  simp only [zeroPad, List.nil_append, List.cons_append, List.cons.injEq, and_true] at h
  have h1 := digitChar_inj _ (Nat.mod_lt _ (by decide)) _ (Nat.mod_lt _ (by decide)) h.1
  have h2 := digitChar_inj _ (Nat.mod_lt _ (by decide)) _ (Nat.mod_lt _ (by decide)) h.2
  omega

/-- Within one century, and with local date equal to UTC date, the label
determines the counted date and the letter index. -/
theorem label_inj (cent : Int) (d d' : JSDate) (i j : Nat) (hd : GoodDate cent d)
    (hd' : GoodDate cent d') (hi : i < 26) (hj : j < 26)
    (h : "Invoice-" ++ datePart d ++ String.singleton (seqLetter i) =
      "Invoice-" ++ datePart d' ++ String.singleton (seqLetter j)) :
    isoDate d = isoDate d' ∧ i = j := by
  obtain ⟨hl, c1, c2, y1, y2⟩ := hd
  obtain ⟨hl', _, _, y1', y2'⟩ := hd'
  obtain ⟨m1, _, e1⟩ := local_bounds d
  obtain ⟨m1', _, e1'⟩ := local_bounds d'
  rw [datePart_eq d (by omega) (by omega), datePart_eq d' (by omega) (by omega)] at h
  have h' := congrArg String.data h
  simp only [String.data_append, twoDigits, String.singleton, List.append_assoc] at h'
  have hcancel := List.append_cancel_left h'
  have l1 : (zeroPad 2 (d.getFullYear % 100).toNat).length =
      (zeroPad 2 (d'.getFullYear % 100).toNat).length := by simp [zeroPad]
  obtain ⟨hy, h3⟩ := List.append_inj hcancel l1
  have l2 : (zeroPad 2 (d.getMonth + 1)).length = (zeroPad 2 (d'.getMonth + 1)).length := by
    simp [zeroPad]
  obtain ⟨hm, h4⟩ := List.append_inj h3 l2
  have l3 : (zeroPad 2 d.getDate).length = (zeroPad 2 d'.getDate).length := by simp [zeroPad]
  obtain ⟨hdd, h5⟩ := List.append_inj h4 l3
  have ey := twoDigits_inj _ _ (by omega) (by omega) hy
  have em := twoDigits_inj _ _ (by omega) (by omega) hm
  have ed := twoDigits_inj _ _ (by omega) (by omega) hdd
  have hc : seqLetter i = seqLetter j := by simpa using h5
  refine ⟨?_, seqLetter_inj i hi j hj hc⟩
  have hyear : d.getFullYear = d'.getFullYear := by omega
  have hciv : d.localCivil = d'.localCivil := by
    have a1 : d.localCivil.year = d'.localCivil.year := hyear
    have a2 : d.localCivil.month = d'.localCivil.month := by
      have : d.getMonth = d'.getMonth := by omega
      exact this
    have a3 : d.localCivil.date = d'.localCivil.date := ed
    cases hA : d.localCivil
    cases hB : d'.localCivil
    rw [hA, hB] at a1 a2 a3
    simp only at a1 a2 a3
    rw [a1, a2, a3]
  rw [isoDate_eq, isoDate_eq, ← hl, ← hl', hciv]

/-! ## The numbering invariant -/

section NumberingFacts

variable {α : Type}

theorem run_invariant [Add α] [Mul α] [Zero α] (ok : Store α → Op α → Prop)
    (Inv : Store α → Prop)
    (hstep : ∀ s op, Inv s → ok s op → Inv (step s op)) :
    ∀ (ops : List (Op α)) (s : Store α), Inv s → RunsWith ok s ops → Inv (run s ops) := by
  intro ops
  induction ops with
  | nil => intro s hs _; exact hs
  | cons op rest ih =>
    intro s hs h
    exact ih (step s op) (hstep s op hs h.1) h.2

theorem selectByDate_length (s : Store α) (D : String) :
    (s.selectByDate D).length = dateCount D (keys s) := by
  simp only [Store.selectByDate, dateCount, keys, List.filter_map, List.length_map]
  rfl

theorem keys_postInsert [Add α] [Mul α] [Zero α] (s : Store α) (num : String)
    (now₂ now₃ : JSDate) (body : PostBody α) :
    keys (postInsert s num now₂ now₃ body).1 =
      keys s ++ [(some num, some (isoDate now₂))] := by
  simp [keys, postInsert]

theorem assign_keeps (us : List (Column × Option String)) :
    ∀ r : InvoiceRow α, (us.foldl InvoiceRow.assign r).invoice_number = r.invoice_number ∧
      (us.foldl InvoiceRow.assign r).invoice_date = r.invoice_date ∧
      (us.foldl InvoiceRow.assign r).id = r.id ∧
      (us.foldl InvoiceRow.assign r).subtotal = r.subtotal := by
  induction us with
  | nil => intro r; exact ⟨rfl, rfl, rfl, rfl⟩
  | cons u us ih =>
    intro r
    obtain ⟨c, v⟩ := u
    have h := ih (r.assign (c, v))
    cases c <;> exact h

theorem keys_patch [Add α] [Mul α] [Zero α] (s : Store α) (id : Nat) (body : PatchBody)
    (now : JSDate) :
    keys (step s (.patch id body now)) = keys s := by
  simp only [step, patch]
  split_ifs
  · rfl
  · simp only [keys, Store.updateWhereId, List.map_map]
    apply List.map_congr_left
    intro r _
    simp only [Function.comp]
    split_ifs
    · rw [(assign_keeps _ r).1, (assign_keeps _ r).2.1]
    · rfl

theorem dateCount_append (D : String) (ks : List (Option String × Option String))
    (n d : Option String) :
    dateCount D (ks ++ [(n, d)]) = dateCount D ks + (if d = some D then 1 else 0) := by
  by_cases h : d = some D <;> simp [dateCount, List.filter_append, h]

theorem numInv_append (cent : Int) (ks : List (Option String × Option String)) (d : JSDate)
    (hinv : NumInv cent ks) (hd : GoodDate cent d) (hlt : dateCount (isoDate d) ks < 26) :
    NumInv cent (ks ++ [(some ("Invoice-" ++ datePart d ++
      String.singleton (seqLetter (dateCount (isoDate d) ks))), some (isoDate d))]) := by
  obtain ⟨ha, hb, hc⟩ := hinv
  refine ⟨?_, ?_, ?_⟩
  · intro p hp
    rcases List.mem_append.1 hp with hp | hp
    · obtain ⟨d', i, g, e1, e2, e3⟩ := ha p hp
      refine ⟨d', i, g, e1, e2, ?_⟩
      rw [dateCount_append]
      omega
    · rw [List.mem_singleton] at hp
      refine ⟨d, dateCount (isoDate d) ks, hd, by rw [hp], by rw [hp], ?_⟩
      rw [dateCount_append, if_pos rfl]
      omega
  · intro D
    rw [dateCount_append]
    by_cases h : some (isoDate d) = some D
    · rw [if_pos h]
      have : isoDate d = D := Option.some.inj h
      rw [← this]
      omega
    · rw [if_neg h]
      exact hb D
  · rw [List.map_append, List.nodup_append]
    refine ⟨hc, by simp, ?_⟩
    intro x hx hx'
    simp only [List.map_cons, List.map_nil, List.mem_singleton] at hx'
    obtain ⟨p, hp, rfl⟩ := List.mem_map.1 hx
    obtain ⟨d', i, g, e1, e2, e3⟩ := ha p hp
    rw [e2] at hx'
    have hi : i < 26 := lt_of_lt_of_le e3 (hb _)
    obtain ⟨h1, h2⟩ := label_inj cent d' d i _ g hd hi hlt (Option.some.inj hx')
    rw [h1, h2] at e3
    exact lt_irrefl _ e3

theorem numInv_step [Add α] [Mul α] [Zero α] (cent : Int) (s : Store α) (op : Op α)
    (hinv : NumInv cent (keys s))
    (hok : NumberingOk cent s op) : NumInv cent (keys (step s op)) := by
  cases op with
  | post today now₂ now₃ body =>
    obtain ⟨hg, hdate, hlt⟩ := hok
    simp only [step, post_eq, keys_postInsert, hdate, selectByDate_length]
    rw [selectByDate_length] at hlt
    exact numInv_append cent (keys s) today hinv hg hlt
  | put id body => exact False.elim hok
  | patch id body now => rw [keys_patch]; exact hinv
  | delete id => exact False.elim hok

end NumberingFacts

/-! ## Items and subtotals -/

section ItemFacts

variable {α : Type}

theorem insertItems_invoice_id [Mul α] (id : Nat) (items : List (Item α)) :
    ∀ (seq : Nat), ∀ it ∈ insertItems id seq items, it.invoice_id = id := by
  induction items with
  | nil => intro seq it h; simp [insertItems] at h
  | cons item rest ih =>
    intro seq it h
    simp only [insertItems, List.mem_cons] at h
    rcases h with h | h
    · rw [h]
    · exact ih _ it h

theorem insertItems_fields [Mul α] (id : Nat) (items : List (Item α)) :
    ∀ (seq : Nat), (insertItems id seq items).map
        (fun it => (it.invoice_id, it.title, it.description, it.quantity, it.unit_price,
          it.total)) =
      items.map (fun item => (id, item.title.toSql, item.description.toSql, item.quantity,
        item.unit_price, item.quantity * item.unit_price)) := by
  induction items with
  | nil => intro seq; rfl
  | cons item rest ih => intro seq; simp [insertItems, ih]

theorem foldl_insertItems [Add α] [Mul α] (id : Nat) (items : List (Item α)) :
    ∀ (seq : Nat) (init : α),
      (insertItems id seq items).foldl (fun sum it => sum + it.total) init =
        items.foldl (fun sum item => sum + item.quantity * item.unit_price) init ∧
      (insertItems id seq items).foldl (fun sum it => sum + it.quantity * it.unit_price) init =
        items.foldl (fun sum item => sum + item.quantity * item.unit_price) init := by
  induction items with
  | nil => intro seq init; exact ⟨rfl, rfl⟩
  | cons item rest ih =>
    intro seq init
    simp only [insertItems, List.foldl_cons]
    exact ih _ _

theorem sumTotals_insertItems [Add α] [Mul α] [Zero α] (id seq : Nat) (items : List (Item α)) :
    sumTotals (insertItems id seq items) = subtotalOf items :=
  (foldl_insertItems id items seq 0).1

theorem previewTotal_insertItems [Add α] [Mul α] [Zero α] (id seq : Nat)
    (items : List (Item α)) : previewTotal (insertItems id seq items) = subtotalOf items :=
  (foldl_insertItems id items seq 0).2

theorem filter_eq_of_all [Mul α] (id seq : Nat) (items : List (Item α)) :
    (insertItems id seq items).filter (fun it => it.invoice_id = id) =
      insertItems id seq items := by
  rw [List.filter_eq_self]
  intro it h
  simp [insertItems_invoice_id id items seq it h]

theorem filter_eq_nil_of_ne [Mul α] (id id' seq : Nat) (items : List (Item α)) (h : id' ≠ id) :
    (insertItems id seq items).filter (fun it => it.invoice_id = id') = [] := by
  rw [List.filter_eq_nil_iff]
  intro it hit
  simp [insertItems_invoice_id id items seq it hit, h.symm]

theorem filter_ne_then_eq (l : List (ItemRow α)) (id : Nat) :
    (l.filter (fun it => ¬ it.invoice_id = id)).filter (fun it => it.invoice_id = id) = [] := by
  rw [List.filter_eq_nil_iff]
  intro it hit
  have := (List.mem_filter.1 hit).2
  simpa using this

theorem filter_ne_then_other (l : List (ItemRow α)) (id id' : Nat) (h : id' ≠ id) :
    (l.filter (fun it => ¬ it.invoice_id = id)).filter (fun it => it.invoice_id = id') =
      l.filter (fun it => it.invoice_id = id') := by
  rw [List.filter_filter]
  apply List.filter_congr
  intro it _
  by_cases e : it.invoice_id = id'
  · simp [e, h]
  · simp [e]

theorem itemsOf_put_same [Add α] [Mul α] [Zero α] (s : Store α) (id : Nat) (body : PutBody α) :
    (put s id body).itemsOf id = insertItems id s.itemsSeq (body.items.getD []) := by
  simp only [put, Store.itemsOf, Store.updateWhereId, List.filter_append, filter_ne_then_eq,
    filter_eq_of_all, List.nil_append]

theorem itemsOf_put_other [Add α] [Mul α] [Zero α] (s : Store α) (id id' : Nat)
    (body : PutBody α) (h : id' ≠ id) : (put s id body).itemsOf id' = s.itemsOf id' := by
  simp only [put, Store.itemsOf, Store.updateWhereId, List.filter_append,
    filter_ne_then_other _ _ _ h, filter_eq_nil_of_ne _ _ _ _ h, List.append_nil]

theorem putRow_id [Add α] [Mul α] [Zero α] (body : PutBody α) (r : InvoiceRow α) :
    (putRow body r).id = r.id ∧ (putRow body r).subtotal = subtotalOf (body.items.getD []) := by
  unfold putRow
  simp only []
  split_ifs <;> exact ⟨rfl, rfl⟩

theorem post_shape [Add α] [Mul α] [Zero α] (s : Store α) (today now₂ now₃ : JSDate)
    (body : PostBody α) :
    ∃ (s' : Store α) (resp : PostResponse) (row : InvoiceRow α),
      post s today now₂ now₃ body = .ok (s', resp) ∧
      s'.invoices = s.invoices ++ [row] ∧ row.id = resp.invoice_id ∧
      resp.invoice_id = s.invoicesSeq + 1 ∧ s'.invoicesSeq = s.invoicesSeq + 1 ∧
      s'.invoice_items =
        s.invoice_items ++ insertItems resp.invoice_id s.itemsSeq (body.items.getD []) ∧
      row.subtotal = subtotalOf (body.items.getD []) :=
  ⟨_, _, _, post_eq s today now₂ now₃ body, rfl, rfl, rfl, rfl, rfl, rfl⟩

end ItemFacts

/-! ## The subtotal invariant -/

section SubtotalFacts

variable {α : Type} [Add α] [Mul α] [Zero α]

theorem storeWF_post (s : Store α) (today now₂ now₃ : JSDate) (body : PostBody α)
    (h : StoreWF s) : StoreWF (step s (.post today now₂ now₃ body)) := by
  obtain ⟨h1, h2, h3⟩ := h
  obtain ⟨s', resp, row, e, ei, eid, er, es, eit, esub⟩ := post_shape s today now₂ now₃ body
  simp only [step, e]
  have hfresh : s.invoice_items.filter (fun it => it.invoice_id = s.invoicesSeq + 1) = [] := by
    rw [List.filter_eq_nil_iff]
    intro it hit
    obtain ⟨r, hr, hid⟩ := h2 it hit
    have := h3 r hr
    simp only [decide_eq_true_eq]
    omega
  refine ⟨?_, ?_, ?_⟩
  · intro r hr
    rw [ei] at hr
    rcases List.mem_append.1 hr with hr | hr
    · have hne : r.id ≠ resp.invoice_id := by have := h3 r hr; omega
      simp only [Store.itemsOf, eit, List.filter_append, filter_eq_nil_of_ne _ _ _ _ hne,
        List.append_nil]
      exact h1 r hr
    · rw [List.mem_singleton] at hr
      rw [hr, eid]
      simp only [Store.itemsOf, eit, List.filter_append, filter_eq_of_all]
      rw [er, hfresh, List.nil_append, ← er, sumTotals_insertItems, esub]
  · intro it hit
    rw [eit] at hit
    rw [ei]
    rcases List.mem_append.1 hit with hit | hit
    · obtain ⟨r, hr, hid⟩ := h2 it hit
      exact ⟨r, List.mem_append_left _ hr, hid⟩
    · refine ⟨row, by simp, ?_⟩
      rw [insertItems_invoice_id _ _ _ it hit, eid]
  · intro r hr
    rw [ei] at hr
    rw [es]
    rcases List.mem_append.1 hr with hr | hr
    · have := h3 r hr; omega
    · rw [List.mem_singleton] at hr
      rw [hr, eid, er]

theorem storeWF_put (s : Store α) (id : Nat) (body : PutBody α) (h : StoreWF s)
    (hid : ∃ r ∈ s.invoices, r.id = id) : StoreWF (put s id body) := by
  obtain ⟨h1, h2, h3⟩ := h
  have hmem : ∀ r' ∈ (put s id body).invoices, ∃ r ∈ s.invoices,
      r'.id = r.id ∧ (r.id = id → r'.subtotal = subtotalOf (body.items.getD [])) ∧
        (r.id ≠ id → r' = r) := by
    intro r' hr'
    simp only [put, Store.updateWhereId, List.mem_map] at hr'
    obtain ⟨r, hr, e⟩ := hr'
    refine ⟨r, hr, ?_⟩
    by_cases h0 : r.id = id
    · rw [if_pos h0] at e
      rw [← e]
      exact ⟨(putRow_id body r).1, fun _ => (putRow_id body r).2, fun hn => absurd h0 hn⟩
    · rw [if_neg h0] at e
      rw [← e]
      exact ⟨rfl, fun hn => absurd hn h0, fun _ => rfl⟩
  have hback : ∀ r ∈ s.invoices, ∃ r' ∈ (put s id body).invoices, r'.id = r.id := by
    intro r hr
    simp only [put, Store.updateWhereId, List.mem_map]
    refine ⟨_, ⟨r, hr, rfl⟩, ?_⟩
    split_ifs
    · exact (putRow_id body r).1
    · rfl
  refine ⟨?_, ?_, ?_⟩
  · intro r' hr'
    obtain ⟨r, hr, e1, e2, e3⟩ := hmem r' hr'
    by_cases h0 : r.id = id
    · rw [e1, h0, itemsOf_put_same, sumTotals_insertItems]
      exact e2 h0
    · rw [e3 h0, itemsOf_put_other s id r.id body h0]
      exact h1 r hr
  · intro it hit
    have hit' : it ∈ s.invoice_items.filter (fun it => ¬ it.invoice_id = id) ++
        insertItems id s.itemsSeq (body.items.getD []) := hit
    rcases List.mem_append.1 hit' with hit' | hit'
    · obtain ⟨r, hr, e⟩ := h2 it (List.mem_filter.1 hit').1
      obtain ⟨r', hr', e'⟩ := hback r hr
      exact ⟨r', hr', e'.trans e⟩
    · obtain ⟨r, hr, e⟩ := hid
      obtain ⟨r', hr', e'⟩ := hback r hr
      exact ⟨r', hr', by rw [e', e, insertItems_invoice_id _ _ _ it hit']⟩
  · intro r' hr'
    obtain ⟨r, hr, e1, _, _⟩ := hmem r' hr'
    rw [e1]
    exact h3 r hr

theorem storeWF_patch (s : Store α) (id : Nat) (body : PatchBody) (now : JSDate)
    (h : StoreWF s) : StoreWF (step s (.patch id body now)) := by
  obtain ⟨h1, h2, h3⟩ := h
  simp only [step, patch]
  split_ifs
  · exact ⟨h1, h2, h3⟩
  · have hmem : ∀ r' ∈ (s.updateWhereId id (fun r =>
        (patchUpdates body now.toISOString).foldl InvoiceRow.assign r)).invoices,
        ∃ r ∈ s.invoices, r'.id = r.id ∧ r'.subtotal = r.subtotal := by
      intro r' hr'
      simp only [Store.updateWhereId, List.mem_map] at hr'
      obtain ⟨r, hr, e⟩ := hr'
      refine ⟨r, hr, ?_⟩
      rw [← e]
      split_ifs
      · exact ⟨(assign_keeps _ r).2.2.1, (assign_keeps _ r).2.2.2⟩
      · exact ⟨rfl, rfl⟩
    refine ⟨?_, ?_, ?_⟩
    · intro r' hr'
      obtain ⟨r, hr, e1, e2⟩ := hmem r' hr'
      rw [e2, e1]
      exact h1 r hr
    · intro it hit
      obtain ⟨r, hr, e⟩ := h2 it hit
      refine ⟨_, List.mem_map.2 ⟨r, hr, rfl⟩, ?_⟩
      split_ifs
      · rw [(assign_keeps _ r).2.2.1, e]
      · exact e
    · intro r' hr'
      obtain ⟨r, hr, e1, _⟩ := hmem r' hr'
      rw [e1]
      exact h3 r hr

omit [Mul α] in
theorem storeWF_delete (s : Store α) (id : Nat) (h : StoreWF s) : StoreWF (delete s id) := by
  obtain ⟨h1, h2, h3⟩ := h
  refine ⟨?_, ?_, ?_⟩
  · intro r hr
    have hr' : r ∈ s.invoices.filter (fun r => ¬ r.id = id) := hr
    obtain ⟨hr0, hne⟩ := List.mem_filter.1 hr'
    have hne' : r.id ≠ id := by simpa using hne
    show r.subtotal = sumTotals ((s.invoice_items.filter (fun it => ¬ it.invoice_id = id)).filter
      (fun it => it.invoice_id = r.id))
    rw [filter_ne_then_other _ _ _ hne']
    exact h1 r hr0
  · intro it hit
    have hit' : it ∈ s.invoice_items.filter (fun it => ¬ it.invoice_id = id) := hit
    obtain ⟨hit0, hne⟩ := List.mem_filter.1 hit'
    obtain ⟨r, hr, e⟩ := h2 it hit0
    refine ⟨r, ?_, e⟩
    show r ∈ s.invoices.filter (fun r => ¬ r.id = id)
    rw [List.mem_filter]
    refine ⟨hr, ?_⟩
    rw [e]
    exact hne
  · intro r hr
    have hr' : r ∈ s.invoices.filter (fun r => ¬ r.id = id) := hr
    exact h3 r (List.mem_filter.1 hr').1

theorem storeWF_step (s : Store α) (op : Op α) (h : StoreWF s) (hok : PutTargetsStored s op) :
    StoreWF (step s op) := by
  cases op with
  | post today now₂ now₃ body => exact storeWF_post s today now₂ now₃ body h
  | put id body => exact storeWF_put s id body h hok
  | patch id body now => exact storeWF_patch s id body now h
  | delete id => exact storeWF_delete s id h

end SubtotalFacts

/-! ## Portfolio statistics -/

section StatsFacts

variable {α : Type} [CommSemiring α]

theorem foldl_add_eq (xs : List α) :
    ∀ x : α, xs.foldl (fun acc y => acc + y) x = x + xs.sum := by
  induction xs with
  | nil => intro x; simp
  | cons y ys ih => intro x; simp [ih, add_assoc]

theorem coalesce_sqlSum (xs : List α) : coalesce (sqlSum xs) 0 = xs.sum := by
  cases xs with
  | nil => rfl
  | cons x xs => simp [sqlSum, coalesce, foldl_add_eq]

theorem sum_revenueCase (half : α) (rows : List (InvoiceRow α)) :
    (rows.map (revenueCase half)).sum =
      ((rows.filter (fun r => r.status = some "Paid")).map (fun r => r.subtotal)).sum +
      ((rows.filter (fun r => r.status = some "Advance")).map
        (fun r => half * r.subtotal)).sum := by
  induction rows with
  | nil => simp
  | cons r rest ih =>
    by_cases h1 : r.status = some "Paid"
    · have h2 : ¬ r.status = some "Advance" := by rw [h1]; decide
      have f1 : (r :: rest).filter (fun r => r.status = some "Paid") =
          r :: rest.filter (fun r => r.status = some "Paid") :=
        List.filter_cons_of_pos (by simpa using h1)
      have f2 : (r :: rest).filter (fun r => r.status = some "Advance") =
          rest.filter (fun r => r.status = some "Advance") :=
        List.filter_cons_of_neg (by simpa using h2)
      have c : revenueCase half r = r.subtotal := by unfold revenueCase; rw [if_pos h1]
      rw [f1, f2, List.map_cons, List.sum_cons, c, ih, List.map_cons, List.sum_cons, add_assoc]
    · have f1 : (r :: rest).filter (fun r => r.status = some "Paid") =
          rest.filter (fun r => r.status = some "Paid") :=
        List.filter_cons_of_neg (by simpa using h1)
      by_cases h2 : r.status = some "Advance"
      · have f2 : (r :: rest).filter (fun r => r.status = some "Advance") =
            r :: rest.filter (fun r => r.status = some "Advance") :=
          List.filter_cons_of_pos (by simpa using h2)
        have c : revenueCase half r = half * r.subtotal := by
          unfold revenueCase; rw [if_neg h1, if_pos h2, mul_comm]
        rw [f1, f2, List.map_cons, List.sum_cons, c, ih, List.map_cons, List.sum_cons]
        exact add_left_comm _ _ _
      · have f2 : (r :: rest).filter (fun r => r.status = some "Advance") =
            rest.filter (fun r => r.status = some "Advance") :=
          List.filter_cons_of_neg (by simpa using h2)
        have c : revenueCase half r = 0 := by unfold revenueCase; rw [if_neg h1, if_neg h2]
        rw [f1, f2, List.map_cons, List.sum_cons, c, ih, zero_add]

end StatsFacts

/-! ## Status updates -/

section PatchFacts

variable {α : Type}

theorem sum_outstandingCase [CommSemiring α] (half : α) (rows : List (InvoiceRow α)) :
    (rows.map (outstandingCase half)).sum =
      ((rows.filter (fun r => r.status = some "Unpaid")).map (fun r => r.subtotal)).sum +
      ((rows.filter (fun r => r.status = some "Advance")).map
        (fun r => half * r.subtotal)).sum := by
  induction rows with
  | nil => simp
  | cons r rest ih =>
    by_cases h1 : r.status = some "Unpaid"
    · have h2 : ¬ r.status = some "Advance" := by rw [h1]; decide
      have f1 : (r :: rest).filter (fun r => r.status = some "Unpaid") =
          r :: rest.filter (fun r => r.status = some "Unpaid") :=
        List.filter_cons_of_pos (by simpa using h1)
      have f2 : (r :: rest).filter (fun r => r.status = some "Advance") =
          rest.filter (fun r => r.status = some "Advance") :=
        List.filter_cons_of_neg (by simpa using h2)
      have c : outstandingCase half r = r.subtotal := by unfold outstandingCase; rw [if_pos h1]
      rw [f1, f2, List.map_cons, List.sum_cons, c, ih, List.map_cons, List.sum_cons, add_assoc]
    · have f1 : (r :: rest).filter (fun r => r.status = some "Unpaid") =
          rest.filter (fun r => r.status = some "Unpaid") :=
        List.filter_cons_of_neg (by simpa using h1)
      by_cases h2 : r.status = some "Advance"
      · have f2 : (r :: rest).filter (fun r => r.status = some "Advance") =
            r :: rest.filter (fun r => r.status = some "Advance") :=
          List.filter_cons_of_pos (by simpa using h2)
        have c : outstandingCase half r = half * r.subtotal := by
          unfold outstandingCase; rw [if_neg h1, if_pos h2, mul_comm]
        rw [f1, f2, List.map_cons, List.sum_cons, c, ih, List.map_cons, List.sum_cons]
        exact add_left_comm _ _ _
      · have f2 : (r :: rest).filter (fun r => r.status = some "Advance") =
            rest.filter (fun r => r.status = some "Advance") :=
          List.filter_cons_of_neg (by simpa using h2)
        have c : outstandingCase half r = 0 := by
          unfold outstandingCase; rw [if_neg h1, if_neg h2]
        rw [f1, f2, List.map_cons, List.sum_cons, c, ih, zero_add]

theorem unpaid_filter_length (rows : List (InvoiceRow α)) :
    (rows.filter (fun r => r.status = some "Unpaid" ∨ r.status = some "Advance")).length =
      (rows.map (fun r => r.status)).count (some "Unpaid") +
        (rows.map (fun r => r.status)).count (some "Advance") := by
  induction rows with
  | nil => rfl
  | cons r rest ih =>
    by_cases h1 : r.status = some "Unpaid"
    · have h2 : ¬ r.status = some "Advance" := by rw [h1]; decide
      rw [List.filter_cons_of_pos (by simp [h1]), List.map_cons, List.length_cons, ih,
        List.count_cons, List.count_cons]
      simp [h1]
      omega
    · by_cases h2 : r.status = some "Advance"
      · rw [List.filter_cons_of_pos (by simp [h2]), List.map_cons, List.length_cons, ih,
          List.count_cons, List.count_cons]
        simp [h2]
        omega
      · rw [List.filter_cons_of_neg (by simp [h1, h2]), List.map_cons, ih, List.count_cons,
          List.count_cons]
        simp [h1, h2]

/-- What `PATCH /:id` leaves in each of the four columns it can assign. -/
theorem patchRow_columns (body : PatchBody) (ts : String) (r : InvoiceRow α) :
    (patchRow body ts r).status =
      (if body.status = .undefined then r.status else body.status.toSql) ∧
    (patchRow body ts r).paid_at =
      (if body.paid_at ≠ .undefined then body.paid_at.toSql
       else if body.status = .val "Paid" then some ts else r.paid_at) ∧
    (patchRow body ts r).advance_paid_at =
      (if body.advance_paid_at ≠ .undefined then body.advance_paid_at.toSql
       else if body.status = .val "Advance" then some ts else r.advance_paid_at) ∧
    (patchRow body ts r).created_at =
      (if body.created_at ≠ .undefined then body.created_at.toSql else r.created_at) := by
  obtain ⟨st, pa, ad, cr⟩ := body
  have hne : ∀ s : String, s = "Paid" → ¬ s = "Advance" := by
    intro s h; rw [h]; decide
  cases st <;> cases pa <;> cases ad <;> cases cr <;>
    simp [patchRow, patchUpdates, InvoiceRow.assign, Field.toSql] <;>
    split_ifs <;> simp_all [InvoiceRow.assign]

/-- The columns `PATCH /:id` never assigns. -/
theorem patchRow_frame (body : PatchBody) (ts : String) (r : InvoiceRow α) :
    (patchRow body ts r).id = r.id ∧ (patchRow body ts r).invoice_number = r.invoice_number ∧
      (patchRow body ts r).invoice_date = r.invoice_date ∧
      (patchRow body ts r).subtotal = r.subtotal :=
  ⟨(assign_keeps _ r).2.2.1, (assign_keeps _ r).1, (assign_keeps _ r).2.1,
    (assign_keeps _ r).2.2.2⟩

/-- A PATCH whose body names a status is answered with success and rewrites
exactly the rows with the addressed id. -/
theorem patch_with_status (s : Store α) (id : Nat) (body : PatchBody) (now : JSDate)
    (h : body.status ≠ .undefined) :
    patch s id body now = .ok (s.updateWhereId id (patchRow body now.toISOString)) := by
  unfold patch
  have hl : ¬ (patchUpdates body now.toISOString).length = 0 := by
    simp [patchUpdates, h]
  simp only [hl, if_false]
  rfl

end PatchFacts

/-! ## Tokens of concatenated texts -/

theorem isTok_sub {t s : List Char} (h : IsTok t s) : t <:+: s := by
  obtain ⟨_, _, pre, post, e, _, _⟩ := h
  exact ⟨pre, post, e.symm⟩

/-- A token of a text without whitespace is the whole text. -/
theorem isTok_word {t w : List Char} (hw : ∀ c ∈ w, c.isWhitespace = false) (h : IsTok t w) :
    t = w := by
  obtain ⟨_, _, pre, post, e, hpre, hpost⟩ := h
  have hp : pre = [] := by
    cases hl : pre.getLast? with
    | none => exact List.getLast?_eq_none_iff.1 hl
    | some c =>
      have hc : c ∈ w := by
        rw [e]
        exact List.mem_append_left _ (List.mem_append_left _ (List.mem_of_getLast?_eq_some hl))
      have := hw c hc
      rw [hpre c hl] at this
      exact absurd this (by decide)
  have hq : post = [] := by
    cases hl : post.head? with
    | none => exact List.head?_eq_none_iff.1 hl
    | some c =>
      have hc : c ∈ w := by
        rw [e]
        exact List.mem_append_right _ (List.mem_of_mem_head? hl)
      have := hw c hc
      rw [hpost c hl] at this
      exact absurd this (by decide)
  rw [e, hp, hq]
  simp

/-- A token of `a ++ b` made of letters only is a token of `a` or of `b`,
when `a` does not end with such a letter or `b` does not start with one. -/
theorem isTok_append {t a b : List Char} (L : List Char) (ht : ∀ c ∈ t, c ∈ L)
    (hsep : (∀ c, a.getLast? = some c → c ∉ L) ∨ (∀ c, b.head? = some c → c ∉ L))
    (h : IsTok t (a ++ b)) : IsTok t a ∨ IsTok t b := by
  obtain ⟨hne, hws, pre, post, e, hpre, hpost⟩ := h
  rw [List.append_assoc] at e
  rcases List.append_eq_append_iff.1 e with ⟨a', e1, e2⟩ | ⟨c', e1, e2⟩
  · right
    refine ⟨hne, hws, a', post, by rw [e2, List.append_assoc], ?_, hpost⟩
    intro c hc
    apply hpre c
    rw [e1, List.getLast?_append, hc]
    rfl
  · rcases List.append_eq_append_iff.1 e2 with ⟨a'', e3, e4⟩ | ⟨c'', e3, e4⟩
    · left
      refine ⟨hne, hws, pre, a'', by rw [e1, e3, List.append_assoc], hpre, ?_⟩
      intro c hc
      apply hpost c
      rw [e4, List.head?_append, hc]
      rfl
    · by_cases h1 : c' = []
      · right
        refine ⟨hne, hws, [], post, ?_, by simp, hpost⟩
        rw [e4, e3, h1]
        simp
      · by_cases h2 : c'' = []
        · left
          refine ⟨hne, hws, pre, [], ?_, hpre, by simp⟩
          rw [e1, e3, h2]
          simp
        · exfalso
          obtain ⟨x, hx⟩ : ∃ x, c'.getLast? = some x := by
            cases hl : c'.getLast? with
            | none => exact absurd (List.getLast?_eq_none_iff.1 hl) h1
            | some x => exact ⟨x, rfl⟩
          obtain ⟨y, hy⟩ : ∃ y, c''.head? = some y := by
            cases hl : c''.head? with
            | none => exact absurd (List.head?_eq_none_iff.1 hl) h2
            | some y => exact ⟨y, rfl⟩
          have hxt : x ∈ L := ht x (by
            rw [e3]; exact List.mem_append_left _ (List.mem_of_getLast?_eq_some hx))
          have hyt : y ∈ L := ht y (by
            rw [e3]; exact List.mem_append_right _ (List.mem_of_mem_head? hy))
          rcases hsep with hs | hs
          · exact hs x (by rw [e1, List.getLast?_append, hx]; rfl) hxt
          · exact hs y (by rw [e4, List.head?_append, hy]; rfl) hyt

/-- A stretch between whitespace keeps its tokens inside a longer text. -/
theorem isTok_inside {t m : List Char} (pre post : List Char)
    (hpre : ∀ c, pre.getLast? = some c → c.isWhitespace = true)
    (hpost : ∀ c, post.head? = some c → c.isWhitespace = true) (h : IsTok t m) :
    IsTok t (pre ++ m ++ post) := by
  obtain ⟨hne, hws, p, q, e, hp, hq⟩ := h
  refine ⟨hne, hws, pre ++ p, q ++ post, by rw [e]; simp [List.append_assoc], ?_, ?_⟩
  · intro c hc
    rw [List.getLast?_append] at hc
    cases hl : p.getLast? with
    | none => rw [hl] at hc; exact hpre c hc
    | some x =>
      rw [hl] at hc
      have : x = c := by simpa using hc
      rw [← this]
      exact hp x hl
  · intro c hc
    rw [List.head?_append] at hc
    cases hl : q.head? with
    | none => rw [hl] at hc; exact hpost c hc
    | some x =>
      rw [hl] at hc
      have : x = c := by simpa using hc
      rw [← this]
      exact hq x hl

theorem not_isTok_nil {t : List Char} : ¬ IsTok t [] := by
  intro h
  have := isTok_sub h
  exact h.1 (List.eq_nil_of_infix_nil this)

theorem paid_letters : ∀ c ∈ "PAID".data, c ∈ wordLetters := by decide

theorem unpaid_letters : ∀ c ∈ "UNPAID".data, c ∈ wordLetters := by decide

theorem templateText_data (lines : List String) :
    (templateText lines).data = (lines.map String.data).flatten := by
  induction lines with
  | nil => rfl
  | cons l ls ih => simp [templateText, ih]

/-- Template text whose lines pass `linesFree w` has no token that has `w`
in it. -/
theorem linesFree_sound (w : String) (t : List Char) (ht : ∀ c ∈ t, c ∈ wordLetters)
    (hsuf : w.data <:+: t) :
    ∀ lines : List String, linesFree w lines = true →
      ¬ IsTok t (templateText lines).data := by
  intro lines
  induction lines with
  | nil => intro _ h; exact not_isTok_nil h
  | cons l ls ih =>
    intro hfree h
    cases ls with
    | nil =>
      simp only [linesFree, Bool.not_eq_true', decide_eq_false_iff_not] at hfree
      simp only [templateText, String.data_append] at h
      have h' : IsTok t l.data := by simpa using h
      exact hfree (hsuf.trans (isTok_sub h'))
    | cons l2 rest =>
      simp only [linesFree, Bool.and_eq_true, Bool.not_eq_true', decide_eq_false_iff_not,
        beq_iff_eq] at hfree
      obtain ⟨⟨h1, h2⟩, h3⟩ := hfree
      have hd : (templateText (l :: l2 :: rest)).data =
          l.data ++ (templateText (l2 :: rest)).data := by
        simp [templateText]
      rw [hd] at h
      rcases isTok_append wordLetters ht (Or.inl (fun c hc => by
        rw [h2] at hc
        have : c = '\n' := by simpa using hc.symm
        rw [this]
        decide)) h with h | h
      · exact h1 (hsuf.trans (isTok_sub h))
      · exact ih h3 h

theorem guarded_ends {p : Piece} (h : p.guarded = true) :
    (∀ c, p.text.data.head? = some c → c ∉ wordLetters) ∧
      (∀ c, p.text.data.getLast? = some c → c ∉ wordLetters) ∧ p.text.data ≠ [] := by
  cases p with
  | val s => simp [Piece.guarded] at h
  | lit lines =>
    simp only [Piece.guarded] at h
    cases h1 : lines.head?.bind (fun l => l.data.head?) with
    | none => simp [h1] at h
    | some a =>
      cases h2 : lines.getLast?.bind (fun l => l.data.getLast?) with
      | none => simp [h1, h2] at h
      | some b =>
        simp only [h1, h2, Bool.and_eq_true, Bool.not_eq_true'] at h
        have ha : a ∉ wordLetters := by
          intro hm
          have := h.1
          simp [hm] at this
        have hb : b ∉ wordLetters := by
          intro hm
          have := h.2
          simp [hm] at this
        obtain ⟨l, hl, hla⟩ := Option.bind_eq_some.1 h1
        obtain ⟨m, hm, hmb⟩ := Option.bind_eq_some.1 h2
        obtain ⟨rest, hrest⟩ := List.head?_eq_some_iff.1 hl
        obtain ⟨init, hinit⟩ := List.getLast?_eq_some_iff.1 hm
        obtain ⟨ltail, hltail⟩ := List.head?_eq_some_iff.1 hla
        obtain ⟨minit, hminit⟩ := List.getLast?_eq_some_iff.1 hmb
        have hhead : (templateText lines).data.head? = some a := by
          rw [templateText_data, hrest]
          simp [hltail]
        have hlast : (templateText lines).data.getLast? = some b := by
          rw [templateText_data, hinit]
          simp [hminit, List.getLast?_append]
        refine ⟨fun c hc => ?_, fun c hc => ?_, ?_⟩
        · simp only [Piece.text] at hc
          rw [hhead] at hc
          rw [← Option.some.inj hc]
          exact ha
        · simp only [Piece.text] at hc
          rw [hlast] at hc
          rw [← Option.some.inj hc]
          exact hb
        · intro hnil
          simp only [Piece.text] at hnil
          rw [hnil] at hhead
          simp at hhead

/-- A token made of letters of the watermark words, found in the value of a
template whose pieces are `separated`, lies inside one piece. -/
theorem isTok_pieces (t : List Char) (ht : ∀ c ∈ t, c ∈ wordLetters) :
    ∀ ps : List Piece, separated ps = true → IsTok t (renderPieces ps).data →
      ∃ p ∈ ps, IsTok t p.text.data := by
  intro ps
  induction ps with
  | nil => intro _ h; exact absurd h not_isTok_nil
  | cons p rest ih =>
    intro hsep h
    simp only [renderPieces, String.data_append] at h
    cases p with
    | lit lines =>
      simp only [separated, Bool.and_eq_true] at hsep
      rcases isTok_append wordLetters ht (Or.inl (guarded_ends hsep.1).2.1) h with h | h
      · exact ⟨_, List.mem_cons_self _ _, h⟩
      · obtain ⟨q, hq, hq'⟩ := ih hsep.2 h
        exact ⟨q, List.mem_cons_of_mem _ hq, hq'⟩
    | val v =>
      cases rest with
      | nil =>
        simp only [renderPieces] at h
        have h' : IsTok t v.data := by simpa using h
        exact ⟨_, List.mem_cons_self _ _, h'⟩
      | cons q rest' =>
        cases q with
        | val w => simp [separated] at hsep
        | lit lines =>
          have hsep' : separated (.lit lines :: rest') = true := by
            simpa only [separated] using hsep
          have hg : (Piece.lit lines).guarded = true := by
            simp only [separated, Bool.and_eq_true] at hsep'
            exact hsep'.1
          have hhead : ∀ c, (renderPieces (.lit lines :: rest')).data.head? = some c →
              c ∉ wordLetters := by
            intro c hc
            simp only [renderPieces, String.data_append, List.head?_append] at hc
            obtain ⟨x, hx⟩ : ∃ x, (Piece.lit lines).text.data.head? = some x := by
              cases hl : (Piece.lit lines).text.data.head? with
              | none => exact absurd (List.head?_eq_none_iff.1 hl) (guarded_ends hg).2.2
              | some x => exact ⟨x, rfl⟩
            rw [hx] at hc
            have : x = c := by simpa using hc
            rw [← this]
            exact (guarded_ends hg).1 x hx
          rcases isTok_append wordLetters ht (Or.inr hhead) h with h | h
          · exact ⟨_, List.mem_cons_self _ _, h⟩
          · obtain ⟨q, hq, hq'⟩ := ih hsep' h
            exact ⟨q, List.mem_cons_of_mem _ hq, hq'⟩

theorem renderPieces_append (ps qs : List Piece) :
    renderPieces (ps ++ qs) = renderPieces ps ++ renderPieces qs := by
  induction ps with
  | nil => simp [renderPieces]
  | cons p ps ih => simp [renderPieces, ih, String.append_assoc]

/-- Appending pieces that start with template text keeps a list `separated`. -/
theorem separated_append (ps qs : List Piece) (hp : separated ps = true)
    (hq : separated qs = true) (hstart : ∀ v rest, qs ≠ .val v :: rest) :
    separated (ps ++ qs) = true := by
  induction ps with
  | nil => simpa using hq
  | cons p rest ih =>
    cases p with
    | lit lines =>
      simp only [separated, Bool.and_eq_true, List.cons_append] at hp ⊢
      exact ⟨hp.1, ih hp.2⟩
    | val v =>
      cases rest with
      | nil =>
        cases qs with
        | nil => rfl
        | cons q qs' =>
          cases q with
          | lit lines => simpa [separated] using hq
          | val w => exact absurd rfl (hstart w qs')
      | cons r rest' =>
        cases r with
        | val w => simp [separated] at hp
        | lit lines =>
          have hp' : separated (.lit lines :: rest') = true := by
            simpa only [separated] using hp
          have := ih hp'
          simpa only [separated, List.cons_append] using this

/-! ## The preview document as pieces -/

section PieceFacts

variable {α : Type}

theorem joinWith_empty (l : List String) : joinWith "" l = l.foldr (fun s acc => s ++ acc) "" := by
  induction l with
  | nil => rfl
  | cons s rest ih =>
    cases rest with
    | nil => simp [joinWith]
    | cons r rest' =>
      show s ++ "" ++ joinWith "" (r :: rest') = _
      rw [ih]
      simp

theorem renderPieces_nil : renderPieces [] = "" := rfl

theorem renderPieces_cons (p : Piece) (ps : List Piece) :
    renderPieces (p :: ps) = p.text ++ renderPieces ps := rfl

theorem renderPieces_mark (status : Option String) (word : String) (text : List String) :
    renderPieces (markPieces status word text) =
      (if status = some word then templateText text else "") := by
  unfold markPieces
  split_ifs <;> simp [renderPieces, Piece.text]

theorem renderPieces_desc (description : Option String) :
    renderPieces (descPieces description) = descriptionHtml description := by
  unfold descPieces descriptionHtml
  cases description with
  | none => rfl
  | some d =>
    simp only []
    split_ifs <;> simp [renderPieces, Piece.text, String.append_assoc]

theorem renderPieces_row [Mul α] (fmt : NumberFormat α) (item : ItemRow α) :
    renderPieces (rowPieces fmt item) = itemRowHtml fmt item := by
  unfold rowPieces itemRowHtml
  simp only [List.cons_append, List.nil_append, renderPieces_cons, renderPieces_nil,
    renderPieces_append, renderPieces_desc, Piece.text, String.append_assoc,
    String.append_empty]

theorem renderPieces_rows [Mul α] (fmt : NumberFormat α) (items : List (ItemRow α)) :
    renderPieces (items.flatMap (rowPieces fmt)) = joinWith "" (items.map (itemRowHtml fmt)) := by
  rw [joinWith_empty]
  induction items with
  | nil => rfl
  | cons item rest ih =>
    simp only [List.flatMap_cons, renderPieces_append, renderPieces_row, ih, List.map_cons,
      List.foldr_cons]

theorem renderPieces_bank (info : Option String) :
    renderPieces (bankPieces info) = bankBlock info := by
  unfold bankPieces bankBlock
  cases info with
  | none => rfl
  | some b =>
    simp only []
    split_ifs <;> simp [renderPieces, Piece.text, String.append_assoc]

/-- The preview document is the value of its pieces. -/
theorem previewHtml_eq [Add α] [Mul α] [Zero α] [Div α] [OfNat α 2] (fmt : NumberFormat α)
    (invoice : PreviewInvoice α) (items : List (ItemRow α)) :
    previewHtml fmt invoice items = renderPieces (previewPieces fmt invoice items) := by
  unfold previewHtml previewPieces
  simp only [List.cons_append, List.nil_append, renderPieces_cons, renderPieces_nil,
    renderPieces_append, renderPieces_mark, renderPieces_rows, renderPieces_bank, Piece.text,
    String.append_assoc, String.append_empty]

end PieceFacts

/-! ## The pieces of the preview are well formed -/

section WellFormedFacts

variable {α : Type}

theorem wellFormed_nil : WellFormed [] :=
  ⟨rfl, fun _ _ h => List.noConfusion h⟩

theorem wellFormed_append {ps qs : List Piece} (hp : WellFormed ps) (hq : WellFormed qs) :
    WellFormed (ps ++ qs) := by
  refine ⟨separated_append ps qs hp.1 hq.1 hq.2, ?_⟩
  intro v rest h
  cases ps with
  | nil => exact hq.2 v rest h
  | cons p ps' =>
    simp only [List.cons_append, List.cons.injEq] at h
    exact hp.2 v ps' (by rw [h.1])

theorem wellFormed_of_lit {lines : List String} {rest : List Piece}
    (h : separated (.lit lines :: rest) = true) : WellFormed (.lit lines :: rest) :=
  ⟨h, fun _ _ e => Piece.noConfusion (List.cons.inj e).1⟩

theorem wellFormed_mark (status : Option String) (word : String) (text : List String)
    (h : (Piece.lit text).guarded = true) : WellFormed (markPieces status word text) := by
  unfold markPieces
  split_ifs
  · exact wellFormed_of_lit (by simp [separated, h])
  · exact wellFormed_nil

theorem wellFormed_desc (description : Option String) : WellFormed (descPieces description) := by
  unfold descPieces
  cases description with
  | none => exact wellFormed_nil
  | some d =>
    simp only []
    split_ifs
    · exact wellFormed_of_lit (by rfl)
    · exact wellFormed_nil

theorem wellFormed_bank (info : Option String) : WellFormed (bankPieces info) := by
  unfold bankPieces
  cases info with
  | none => exact wellFormed_nil
  | some b =>
    simp only []
    split_ifs
    · exact wellFormed_of_lit (by rfl)
    · exact wellFormed_nil

theorem wellFormed_row [Mul α] (fmt : NumberFormat α) (item : ItemRow α) :
    WellFormed (rowPieces fmt item) := by
  unfold rowPieces
  exact wellFormed_append (wellFormed_of_lit (by rfl))
    (wellFormed_append (wellFormed_desc _) (wellFormed_of_lit (by rfl)))

theorem wellFormed_rows [Mul α] (fmt : NumberFormat α) (items : List (ItemRow α)) :
    WellFormed (items.flatMap (rowPieces fmt)) := by
  induction items with
  | nil => exact wellFormed_nil
  | cons item rest ih =>
    rw [List.flatMap_cons]
    exact wellFormed_append (wellFormed_row fmt item) ih

theorem wellFormed_preview [Add α] [Mul α] [Zero α] [Div α] [OfNat α 2]
    (fmt : NumberFormat α) (invoice : PreviewInvoice α) (items : List (ItemRow α)) :
    WellFormed (previewPieces fmt invoice items) := by
  unfold previewPieces
  exact wellFormed_append (wellFormed_of_lit (by rfl))
    (wellFormed_append (wellFormed_mark _ _ _ (by decide))
    (wellFormed_append (wellFormed_of_lit (by rfl))
    (wellFormed_append (wellFormed_mark _ _ _ (by decide))
    (wellFormed_append (wellFormed_of_lit (by rfl))
    (wellFormed_append (wellFormed_rows fmt items)
    (wellFormed_append (wellFormed_of_lit (by rfl))
    (wellFormed_append (wellFormed_bank _)
    (wellFormed_append (wellFormed_of_lit (by rfl))
    (wellFormed_append (wellFormed_bank _) (wellFormed_of_lit (by rfl)))))))))))

end WellFormedFacts

/-! ## Line breaks: split, join and replace -/

theorem replaceNewlines_data (s r : String) :
    (replaceNewlines s r).data = s.data.flatMap (fun c => if c = '\n' then r.data else [c]) :=
  rfl

/-- What `join` puts after the first element. -/
theorem joinWith_cons (sep s : String) (rest : List String) :
    joinWith sep (s :: rest) =
      s ++ (match rest with
        | [] => ""
        | r :: rest' => sep ++ joinWith sep (r :: rest')) := by
  cases rest with
  | nil => simp [joinWith]
  | cons r rest' => simp [joinWith, String.append_assoc]

theorem splitOn_ne_nil (sep : Char) (s : List Char) : splitOn sep s ≠ [] := by
  cases s with
  | nil => simp [splitOn]
  | cons c cs =>
    unfold splitOn
    split_ifs
    · simp
    · cases h : splitOn sep cs <;> simp

theorem splitOn_newline (cs : List Char) :
    splitOn '\n' ('\n' :: cs) = [] :: splitOn '\n' cs := by
  rw [splitOn]
  simp

theorem splitOn_other (c : Char) (cs l : List Char) (ls : List (List Char)) (hc : c ≠ '\n')
    (h : splitOn '\n' cs = l :: ls) : splitOn '\n' (c :: cs) = (c :: l) :: ls := by
  rw [splitOn, if_neg hc, h]

/-- Splitting at line breaks and joining with `r` replaces each line break by `r`. -/
theorem join_split (r : String) :
    ∀ s : List Char, (joinWith r ((splitOn '\n' s).map String.mk)).data =
      s.flatMap (fun c => if c = '\n' then r.data else [c]) := by
  intro s
  induction s with
  | nil => rfl
  | cons c cs ih =>
    cases hs : splitOn '\n' cs with
    | nil => exact absurd hs (splitOn_ne_nil _ _)
    | cons l ls =>
      have ih' : (joinWith r (String.mk l :: ls.map String.mk)).data =
          cs.flatMap (fun c => if c = '\n' then r.data else [c]) := by
        rw [hs] at ih
        exact ih
      by_cases hc : c = '\n'
      · have e : joinWith r (String.mk [] :: String.mk l :: ls.map String.mk) =
            String.mk [] ++ r ++ joinWith r (String.mk l :: ls.map String.mk) := rfl
        rw [hc, splitOn_newline, hs]
        show (joinWith r (String.mk [] :: String.mk l :: ls.map String.mk)).data = _
        rw [e, String.data_append, String.data_append, List.flatMap_cons, if_pos rfl, ← ih']
        rfl
      · rw [splitOn_other c cs l ls hc hs]
        show (joinWith r (String.mk (c :: l) :: ls.map String.mk)).data = _
        rw [joinWith_cons] at ih' ⊢
        rw [String.data_append] at ih' ⊢
        rw [List.flatMap_cons, if_neg hc, ← ih']
        rfl

/-- The first line of a text and what follows it. -/
theorem splitOn_first (s : List Char) :
    ∃ l ls, splitOn '\n' s = l :: ls ∧ (∀ c ∈ l, c ≠ '\n') ∧
      ((ls = [] ∧ s = l) ∨ (∃ s', s = l ++ '\n' :: s' ∧ ls = splitOn '\n' s')) := by
  induction s with
  | nil => exact ⟨[], [], rfl, by simp, Or.inl ⟨rfl, rfl⟩⟩
  | cons c cs ih =>
    obtain ⟨l, ls, e, hl, hrest⟩ := ih
    by_cases hc : c = '\n'
    · rw [hc, splitOn_newline]
      exact ⟨[], splitOn '\n' cs, rfl, by simp, Or.inr ⟨cs, rfl, rfl⟩⟩
    · rw [splitOn_other c cs l ls hc e]
      refine ⟨c :: l, ls, rfl, ?_, ?_⟩
      · intro x hx
        rcases List.mem_cons.1 hx with hx | hx
        · rw [hx]; exact hc
        · exact hl x hx
      · rcases hrest with ⟨h1, h2⟩ | ⟨s', h1, h2⟩
        · exact Or.inl ⟨h1, by rw [h2]⟩
        · exact Or.inr ⟨s', by rw [h1]; rfl, h2⟩

/-! ## Interpolated values without the watermark words -/

theorem digitChar_isDigit : ∀ k : Nat, k < 10 → (Nat.digitChar k).isDigit = true := by decide

theorem toDigitsCore_digits : ∀ (fuel n : Nat) (ds : List Char),
    (∀ c ∈ ds, c.isDigit = true) → ∀ c ∈ Nat.toDigitsCore 10 fuel n ds, c.isDigit = true := by
  intro fuel
  induction fuel with
  | zero => intro n ds h c hc; exact h c (by simpa [Nat.toDigitsCore] using hc)
  | succ f ih =>
    intro n ds h c hc
    have hd : ∀ x ∈ Nat.digitChar (n % 10) :: ds, x.isDigit = true := by
      intro x hx
      rcases List.mem_cons.1 hx with hx | hx
      · rw [hx]; exact digitChar_isDigit _ (Nat.mod_lt _ (by decide))
      · exact h x hx
    simp only [Nat.toDigitsCore] at hc
    split_ifs at hc
    · exact hd c hc
    · exact ih _ _ hd c hc

/-- A printed row id has no letter in it. -/
theorem not_isTok_natText (t : List Char) (hsuf : "PAID".data <:+: t) (n : Nat) :
    ¬ IsTok t (toString n).data := by
  intro h
  have hinf : "PAID".data <:+: (toString n).data := hsuf.trans (isTok_sub h)
  have hP : 'P' ∈ (toString n).data := hinf.subset (by decide)
  have : 'P'.isDigit = true :=
    toDigitsCore_digits (n + 1) n [] (by simp) 'P' hP
  exact absurd this (by decide)

/-- Replacing line breaks by text that is fenced by `<` and a blank brings in
no token made of the letters of the watermark words. -/
theorem isTok_replace (t : List Char) (ht : ∀ c ∈ t, c ∈ wordLetters)
    (hsuf : "PAID".data <:+: t) (r : List Char) (a b : Char) (mid : List Char)
    (hr : r = a :: mid ++ [b]) (ha : a ∉ wordLetters) (hb : b ∉ wordLetters)
    (hfree : ¬ "PAID".data <:+: r) :
    ∀ (s p : List Char),
      IsTok t (p ++ s.flatMap (fun c => if c = '\n' then r else [c])) → IsTok t (p ++ s) := by
  intro s
  induction s with
  | nil => intro p h; simpa using h
  | cons c cs ih =>
    intro p h
    by_cases hc : c = '\n'
    · rw [List.flatMap_cons, if_pos hc] at h
      have hhead : ∀ x, (r ++ cs.flatMap (fun c => if c = '\n' then r else [c])).head? =
          some x → x ∉ wordLetters := by
        intro x hx
        rw [hr] at hx
        have : a = x := by simpa using hx
        rw [← this]
        exact ha
      rcases isTok_append wordLetters ht (Or.inr hhead) h with h | h
      · have := isTok_inside [] (c :: cs) (by simp) (by
          intro x hx
          have : c = x := by simpa using hx
          rw [← this, hc]
          decide) h
        simpa using this
      · have hlast : ∀ x, r.getLast? = some x → x ∉ wordLetters := by
          intro x hx
          rw [hr, List.getLast?_concat] at hx
          rw [← Option.some.inj hx]
          exact hb
        rcases isTok_append wordLetters ht (Or.inl hlast) h with h | h
        · exact absurd (hsuf.trans (isTok_sub h)) hfree
        · have h' := ih [] (by simpa using h)
          have := isTok_inside (p ++ [c]) [] (by
            intro x hx
            rw [List.getLast?_concat] at hx
            rw [← Option.some.inj hx, hc]
            decide) (by simp) (by simpa using h')
          simpa using this
    · rw [List.flatMap_cons, if_neg hc] at h
      have := ih (p ++ [c]) (by simpa using h)
      simpa using this

section CleanFacts

variable {α : Type}

theorem word_facts {t : List Char} (hT : t = "PAID".data ∨ t = "UNPAID".data) :
    (∀ c ∈ t, c ∈ wordLetters) ∧ "PAID".data <:+: t := by
  rcases hT with h | h <;> rw [h] <;> exact ⟨by decide, by decide⟩

theorem not_isTok_of_noPaidWord {t : List Char} (hT : t = "PAID".data ∨ t = "UNPAID".data)
    {s : String} (h : NoPaidWord s) : ¬ IsTok t s.data := by
  rcases hT with e | e <;> rw [e]
  · exact h.1
  · exact h.2

theorem not_isTok_sqlText {t : List Char} (hT : t = "PAID".data ∨ t = "UNPAID".data)
    {f : Option String} (h : TextFree f) : ¬ IsTok t (sqlText f).data := by
  cases f with
  | none =>
    intro h'
    exact absurd ((word_facts hT).2.trans (isTok_sub h')) (by decide)
  | some s => exact not_isTok_of_noPaidWord hT (h s rfl)

theorem not_isTok_orEmpty {t : List Char} (hT : t = "PAID".data ∨ t = "UNPAID".data)
    {f : Option String} (h : TextFree f) : ¬ IsTok t (orEmpty f).data := by
  cases f with
  | none => exact not_isTok_nil
  | some s => exact not_isTok_of_noPaidWord hT (h s rfl)

theorem clean_nil (t : List Char) : Clean t [] := fun _ hp => absurd hp (List.not_mem_nil _)

theorem clean_append {t : List Char} {ps qs : List Piece} (hp : Clean t ps) (hq : Clean t qs) :
    Clean t (ps ++ qs) := by
  intro p hmem
  rcases List.mem_append.1 hmem with h | h
  · exact hp p h
  · exact hq p h

theorem clean_lit {t : List Char} (hT : t = "PAID".data ∨ t = "UNPAID".data)
    {lines : List String} {rest : List Piece} (hfree : linesFree "PAID" lines = true)
    (hrest : Clean t rest) : Clean t (.lit lines :: rest) := by
  intro p hmem
  rcases List.mem_cons.1 hmem with h | h
  · rw [h]
    exact linesFree_sound "PAID" t (word_facts hT).1 (word_facts hT).2 lines hfree
  · exact hrest p h

theorem clean_val {t : List Char} {v : String} {rest : List Piece} (hv : ¬ IsTok t v.data)
    (hrest : Clean t rest) : Clean t (.val v :: rest) := by
  intro p hmem
  rcases List.mem_cons.1 hmem with h | h
  · rw [h]; exact hv
  · exact hrest p h

/-- The description with its line breaks replaced has no watermark word when
the description has none. -/
theorem not_isTok_description {t : List Char} (hT : t = "PAID".data ∨ t = "UNPAID".data)
    {d : String} (h : ¬ IsTok t d.data) :
    ¬ IsTok t (replaceNewlines d "<br>- ").data := by
  intro h'
  rw [replaceNewlines_data] at h'
  have := isTok_replace t (word_facts hT).1 (word_facts hT).2 "<br>- ".data '<'
    ' ' "br>-".data rfl (by decide) (by decide) (by decide) d.data [] (by simpa using h')
  exact h (by simpa using this)

/-- The lines of a bank text, joined as the template joins them, have no
watermark word when the bank text has none. -/
theorem not_isTok_bank {t : List Char} (hT : t = "PAID".data ∨ t = "UNPAID".data)
    {b : String} (h : ¬ IsTok t b.data) :
    ¬ IsTok t (joinWith "<br>" (emphasizeFirst (splitLines b))).data := by
  obtain ⟨ht, hsuf⟩ := word_facts hT
  obtain ⟨l, ls, e, _, hrest⟩ := splitOn_first b.data
  intro h'
  have hj : joinWith "<br>" (emphasizeFirst (splitLines b)) =
      renderPieces [.lit strongOpen, .val (String.mk l), .lit strongClose,
        .val (match ls.map String.mk with
          | [] => ""
          | r :: rest => "<br>" ++ joinWith "<br>" (r :: rest))] := by
    simp only [splitLines, e, List.map_cons, emphasizeFirst]
    rw [joinWith_cons]
    simp only [renderPieces_cons, renderPieces_nil, Piece.text, String.append_assoc,
      String.append_empty]
  rw [hj] at h'
  obtain ⟨p, hp, hp'⟩ := isTok_pieces t ht _ (by rfl) h'
  simp only [List.mem_cons, List.mem_singleton, List.not_mem_nil, or_false] at hp
  rcases hp with hp | hp | hp | hp
  · rw [hp] at hp'
    exact linesFree_sound "PAID" t ht hsuf strongOpen (by decide) hp'
  · rw [hp] at hp'
    simp only [Piece.text] at hp'
    apply h
    rcases hrest with ⟨_, h2⟩ | ⟨s', h2, _⟩
    · rw [h2]; exact hp'
    · rw [h2]
      have := isTok_inside [] ('\n' :: s') (by simp) (by
        intro x hx
        have : '\n' = x := by simpa using hx
        rw [← this]
        decide) hp'
      simpa using this
  · rw [hp] at hp'
    exact linesFree_sound "PAID" t ht hsuf strongClose (by decide) hp'
  · rw [hp] at hp'
    simp only [Piece.text] at hp'
    rcases hrest with ⟨h1, _⟩ | ⟨s', h2, h3⟩
    · rw [h1] at hp'
      exact not_isTok_nil hp'
    · cases hs : splitOn '\n' s' with
      | nil => exact absurd hs (splitOn_ne_nil _ _)
      | cons l2 ls2 =>
        rw [h3, hs] at hp'
        simp only [List.map_cons, String.data_append] at hp'
        have hjs := join_split "<br>" s'
        rw [hs] at hjs
        simp only [List.map_cons] at hjs
        rw [hjs] at hp'
        rcases isTok_append wordLetters ht (Or.inl (by
          intro x hx
          have : '>' = x := by simpa using hx
          rw [← this]
          decide)) hp' with h4 | h4
        · exact absurd (hsuf.trans (isTok_sub h4)) (by decide)
        · have := isTok_replace t ht hsuf "<br>".data '<' '>' "br".data rfl (by decide)
            (by decide) (by decide) s' [] (by simpa using h4)
          apply h
          rw [h2]
          have h5 := isTok_inside (l ++ ['\n']) [] (by
            intro x hx
            rw [List.getLast?_concat] at hx
            rw [← Option.some.inj hx]
            decide) (by simp) (show IsTok t s' by simpa using this)
          simpa using h5

theorem clean_desc {t : List Char} (hT : t = "PAID".data ∨ t = "UNPAID".data)
    {description : Option String} (h : TextFree description) :
    Clean t (descPieces description) := by
  unfold descPieces
  cases description with
  | none => exact clean_nil t
  | some d =>
    simp only []
    split_ifs
    · exact clean_lit hT (by decide) (clean_val
        (not_isTok_description hT (not_isTok_of_noPaidWord hT (h d rfl)))
        (clean_lit hT (by decide) (clean_nil t)))
    · exact clean_nil t

theorem clean_bank {t : List Char} (hT : t = "PAID".data ∨ t = "UNPAID".data)
    {info : Option String} (h : TextFree info) : Clean t (bankPieces info) := by
  unfold bankPieces
  cases info with
  | none => exact clean_nil t
  | some b =>
    simp only []
    split_ifs
    · exact clean_lit hT (by decide) (clean_val
        (not_isTok_bank hT (not_isTok_of_noPaidWord hT (h b rfl)))
        (clean_lit hT (by decide) (clean_nil t)))
    · exact clean_nil t

theorem clean_row [Mul α] {t : List Char} (hT : t = "PAID".data ∨ t = "UNPAID".data)
    (fmt : NumberFormat α) (item : ItemRow α) (htitle : TextFree item.title)
    (hdesc : TextFree item.description)
    (hfmt : ∀ x : α, NoPaidWord (fmt.toText x) ∧ NoPaidWord (fmt.toFixed2 x)) :
    Clean t (rowPieces fmt item) := by
  unfold rowPieces
  exact clean_append
    (clean_lit hT (by decide) (clean_val (not_isTok_sqlText hT htitle)
      (clean_lit hT (by decide) (clean_nil t))))
    (clean_append (clean_desc hT hdesc)
      (clean_lit hT (by decide) (clean_val (not_isTok_of_noPaidWord hT (hfmt _).1)
      (clean_lit hT (by decide) (clean_val (not_isTok_of_noPaidWord hT (hfmt _).2)
      (clean_lit hT (by decide) (clean_val (not_isTok_of_noPaidWord hT (hfmt _).2)
      (clean_lit hT (by decide) (clean_nil t)))))))))

theorem clean_rows [Mul α] {t : List Char} (hT : t = "PAID".data ∨ t = "UNPAID".data)
    (fmt : NumberFormat α) (items : List (ItemRow α))
    (hitems : ∀ item ∈ items, TextFree item.title ∧ TextFree item.description)
    (hfmt : ∀ x : α, NoPaidWord (fmt.toText x) ∧ NoPaidWord (fmt.toFixed2 x)) :
    Clean t (items.flatMap (rowPieces fmt)) := by
  induction items with
  | nil => exact clean_nil t
  | cons item rest ih =>
    rw [List.flatMap_cons]
    exact clean_append
      (clean_row hT fmt item (hitems item (List.mem_cons_self _ _)).1
        (hitems item (List.mem_cons_self _ _)).2 hfmt)
      (ih (fun it hit => hitems it (List.mem_cons_of_mem _ hit)))

set_option maxRecDepth 100000 in
/-- With fields free of the watermark words, a watermark word can be a token
of the preview only through the status text or through a watermark. -/
theorem preview_clean [Add α] [Mul α] [Zero α] [Div α] [OfNat α 2] {t : List Char}
    (hT : t = "PAID".data ∨ t = "UNPAID".data) (fmt : NumberFormat α)
    (invoice : PreviewInvoice α) (items : List (ItemRow α))
    (hf : FieldsFree fmt invoice items)
    (hst : ¬ IsTok t (sqlText invoice.invoice.status).data)
    (hm1 : Clean t (markPieces invoice.invoice.status "Paid" wmPaid))
    (hm2 : Clean t (markPieces invoice.invoice.status "Unpaid" wmUnpaid)) :
    ¬ IsTok t (previewHtml fmt invoice items).data := by
  obtain ⟨hnum, hdate, hcomp, haddr, hclient, hcontact, hb1, hb2, hitems, hfmt⟩ := hf
  intro h
  rw [previewHtml_eq] at h
  obtain ⟨p, hp, hp'⟩ := isTok_pieces t (word_facts hT).1 _
    (wellFormed_preview fmt invoice items).1 h
  have hclean : Clean t (previewPieces fmt invoice items) := by
    unfold previewPieces
    exact clean_append
      (clean_lit hT (by decide) (clean_val (not_isTok_sqlText hT hnum)
        (clean_lit hT (by decide) (clean_val hst (clean_lit hT (by decide) (clean_nil t))))))
      (clean_append hm1
      (clean_append
        (clean_lit hT (by decide) (clean_val hst (clean_lit hT (by decide) (clean_nil t))))
      (clean_append hm2
      (clean_append
        (clean_lit hT (by decide)
        (clean_val (not_isTok_natText t (word_facts hT).2 _)
        (clean_lit hT (by decide) (clean_val (not_isTok_sqlText hT hnum)
        (clean_lit hT (by decide) (clean_val (not_isTok_sqlText hT hcomp)
        (clean_lit hT (by decide) (clean_val (not_isTok_orEmpty hT haddr)
        (clean_lit hT (by decide) (clean_val (not_isTok_of_noPaidWord hT (hfmt _).2)
        (clean_lit hT (by decide) (clean_val (not_isTok_sqlText hT hclient)
        (clean_lit hT (by decide) (clean_val (not_isTok_orEmpty hT hcontact)
        (clean_lit hT (by decide) (clean_val (not_isTok_sqlText hT hnum)
        (clean_lit hT (by decide) (clean_val (not_isTok_sqlText hT hdate)
        (clean_lit hT (by decide) (clean_nil t))))))))))))))))))))
      (clean_append (clean_rows hT fmt items hitems hfmt)
      (clean_append
        (clean_lit hT (by decide) (clean_val (not_isTok_of_noPaidWord hT (hfmt _).2)
        (clean_lit hT (by decide) (clean_val (not_isTok_of_noPaidWord hT (hfmt _).2)
        (clean_lit hT (by decide) (clean_val (not_isTok_of_noPaidWord hT (hfmt _).2)
        (clean_lit hT (by decide) (clean_nil t))))))))
      (clean_append (clean_bank hT hb1)
      (clean_append (clean_lit hT (by decide) (clean_nil t))
      (clean_append (clean_bank hT hb2) (clean_lit hT (by decide) (clean_nil t)))))))))))
  exact hclean p hp hp'

end CleanFacts

section WatermarkFacts

variable {α : Type}

/-- A word that stands between whitespace in the middle stretch of a text is
a token of the text. -/
theorem isTok_of_mark (t X M Y A B : List Char) (a b : Char) (hM : M = A ++ [a] ++ t ++ b :: B)
    (ht : t ≠ []) (hws : ∀ c ∈ t, c.isWhitespace = false) (ha : a.isWhitespace = true)
    (hb : b.isWhitespace = true) : IsTok t (X ++ M ++ Y) := by
  refine ⟨ht, hws, X ++ A ++ [a], b :: B ++ Y, by rw [hM]; simp [List.append_assoc], ?_, ?_⟩
  · intro c hc
    rw [List.getLast?_concat] at hc
    rw [← Option.some.inj hc]
    exact ha
  · intro c hc
    have : b = c := by simpa using hc
    rw [← this]
    exact hb

set_option maxRecDepth 100000 in
theorem wmPaid_split :
    (templateText wmPaid).data =
      (templateText wmPaid).data.take 258 ++ [' '] ++ "PAID".data ++
        '\n' :: (templateText wmPaid).data.drop 264 := by
  decide

set_option maxRecDepth 100000 in
theorem wmUnpaid_split :
    (templateText wmUnpaid).data =
      (templateText wmUnpaid).data.take 258 ++ [' '] ++ "UNPAID".data ++
        '\n' :: (templateText wmUnpaid).data.drop 266 := by
  decide

set_option maxRecDepth 100000 in
theorem wmUnpaid_pieces :
    templateText wmUnpaid =
      renderPieces [.lit (wmUnpaid.take 15), .lit ["  "], .val "UNPAID",
        .lit ["\n", "</div>\n"]] := by
  decide

/-- The watermark of an unpaid invoice has the token `UNPAID` and not the
token `PAID`. -/
theorem not_isTok_paid_wmUnpaid : ¬ IsTok "PAID".data (templateText wmUnpaid).data := by
  intro h
  rw [wmUnpaid_pieces] at h
  obtain ⟨p, hp, hp'⟩ := isTok_pieces "PAID".data paid_letters _ (by decide) h
  simp only [List.mem_cons, List.mem_singleton, List.not_mem_nil, or_false] at hp
  rcases hp with hp | hp | hp | hp <;> rw [hp] at hp'
  · exact linesFree_sound "PAID" _ paid_letters (by decide) _ (by decide) hp'
  · exact linesFree_sound "PAID" _ paid_letters (by decide) _ (by decide) hp'
  · have := isTok_word (by decide) hp'
    exact absurd this (by decide)
  · exact linesFree_sound "PAID" _ paid_letters (by decide) _ (by decide) hp'

/-- A watermark among the pieces shows its word as a token of the document. -/
theorem isTok_of_mem (t : List Char) (ps : List Piece) (text : List String) (A B : List Char)
    (hmem : Piece.lit text ∈ ps)
    (hM : (templateText text).data = A ++ [' '] ++ t ++ '\n' :: B)
    (ht : t ≠ []) (hws : ∀ c ∈ t, c.isWhitespace = false) :
    IsTok t (renderPieces ps).data := by
  obtain ⟨a, b, e⟩ := List.append_of_mem hmem
  rw [e, renderPieces_append, renderPieces_cons, String.data_append, String.data_append,
    ← List.append_assoc]
  exact isTok_of_mark t _ _ _ A B ' ' '\n' hM ht hws (by decide) (by decide)

end WatermarkFacts

section SampleFacts

theorem noPaidWord_of_absent {s : String} (h : ¬ "PAID".data <:+: s.data) : NoPaidWord s :=
  ⟨fun h' => h (isTok_sub h'),
    fun h' => h ((show "PAID".data <:+: "UNPAID".data by decide).trans (isTok_sub h'))⟩

theorem natText_no_P (n : Nat) : 'P' ∉ (toString n).data := by
  intro h
  have : 'P'.isDigit = true := toDigitsCore_digits (n + 1) n [] (by simp) 'P' h
  exact absurd this (by decide)

theorem intText_no_P (x : Int) : 'P' ∉ (toString x).data := by
  cases x with
  | ofNat n => exact natText_no_P n
  | negSucc n =>
    intro h
    have h' : 'P' ∈ ("-" ++ toString (n + 1)).data := h
    rw [String.data_append] at h'
    rcases List.mem_append.1 h' with h1 | h1
    · exact absurd h1 (by decide)
    · exact natText_no_P _ h1

theorem wholeFormat_free (x : Int) :
    NoPaidWord (wholeFormat.toText x) ∧ NoPaidWord (wholeFormat.toFixed2 x) := by
  constructor
  · apply noPaidWord_of_absent
    intro h
    exact intText_no_P x (h.subset (by decide))
  · apply noPaidWord_of_absent
    intro h
    have h' : 'P' ∈ (toString x ++ ".00").data := h.subset (by decide)
    rw [String.data_append] at h'
    rcases List.mem_append.1 h' with h1 | h1
    · exact intText_no_P x h1
    · exact absurd h1 (by decide)

theorem textFree_of_absent {f : Option String}
    (h : ∀ s, f = some s → ¬ "PAID".data <:+: s.data) : TextFree f :=
  fun s hs => noPaidWord_of_absent (h s hs)

theorem sample_fieldsFree : FieldsFree wholeFormat sampleInvoice sampleRows := by
  refine ⟨?_, ?_, ?_, ?_, ?_, ?_, ?_, ?_, ?_, wholeFormat_free⟩
  · exact textFree_of_absent (fun s hs => by
      rw [← Option.some.inj hs]; decide)
  · exact textFree_of_absent (fun s hs => by
      rw [← Option.some.inj hs]; decide)
  · exact textFree_of_absent (fun s hs => by
      rw [← Option.some.inj hs]; decide)
  · exact textFree_of_absent (fun s hs => by
      rw [← Option.some.inj hs]; decide)
  · exact textFree_of_absent (fun s hs => by
      rw [← Option.some.inj hs]; decide)
  · exact fun s hs => Option.noConfusion hs
  · exact textFree_of_absent (fun s hs => by
      rw [← Option.some.inj hs]; decide)
  · exact fun s hs => Option.noConfusion hs
  · intro item hitem
    simp only [sampleRows, List.mem_cons, List.mem_singleton, List.not_mem_nil, or_false]
      at hitem
    rcases hitem with h | h <;> rw [h]
    · exact ⟨textFree_of_absent (fun s hs => by rw [← Option.some.inj hs]; decide),
        textFree_of_absent (fun s hs => by rw [← Option.some.inj hs]; decide)⟩
    · exact ⟨textFree_of_absent (fun s hs => by rw [← Option.some.inj hs]; decide),
        fun s hs => Option.noConfusion hs⟩

end SampleFacts

section BulletFacts

theorem flatMap_no_newline (r l : List Char) (h : ∀ c ∈ l, c ≠ '\n') :
    l.flatMap (fun c => if c = '\n' then r else [c]) = l := by
  induction l with
  | nil => rfl
  | cons c cs ih =>
    rw [List.flatMap_cons, if_neg (h c (List.mem_cons_self _ _)),
      ih (fun x hx => h x (List.mem_cons_of_mem _ hx))]
    rfl

/-- Replacing the line breaks of lines joined by line breaks joins the lines
by the replacement. -/
theorem replace_join (r : String) (lines : List String)
    (h : ∀ l ∈ lines, ∀ c ∈ l.data, c ≠ '\n') :
    replaceNewlines (joinWith "\n" lines) r = joinWith r lines := by
  apply String.ext
  rw [replaceNewlines_data]
  induction lines with
  | nil => rfl
  | cons l rest ih =>
    have hl := h l (List.mem_cons_self _ _)
    have hrest := ih (fun x hx => h x (List.mem_cons_of_mem _ hx))
    cases rest with
    | nil =>
      simp only [joinWith]
      exact flatMap_no_newline _ _ hl
    | cons l2 rest' =>
      have e1 : joinWith "\n" (l :: l2 :: rest') = l ++ "\n" ++ joinWith "\n" (l2 :: rest') := rfl
      have e2 : joinWith r (l :: l2 :: rest') = l ++ r ++ joinWith r (l2 :: rest') := rfl
      have e3 : "\n".data.flatMap (fun c => if c = '\n' then r.data else [c]) = r.data := by
        show (if '\n' = '\n' then r.data else ['\n']) ++ [] = r.data
        rw [if_pos rfl, List.append_nil]
      rw [e1, e2, String.data_append, String.data_append, String.data_append,
        String.data_append, List.flatMap_append, List.flatMap_append, hrest,
        flatMap_no_newline _ _ hl, e3]

/-- A dash before lines joined by a break and a dash puts a dash before each line. -/
theorem bullets_join (lines : List String) (h : lines ≠ []) :
    "- " ++ joinWith "<br>- " lines = joinWith "<br>" (lines.map (fun l => "- " ++ l)) := by
  induction lines with
  | nil => exact absurd rfl h
  | cons l rest ih =>
    cases rest with
    | nil => rfl
    | cons l2 rest' =>
      have e1 : joinWith "<br>- " (l :: l2 :: rest') =
          l ++ "<br>- " ++ joinWith "<br>- " (l2 :: rest') := rfl
      have e2 : joinWith "<br>" ((l :: l2 :: rest').map (fun l => "- " ++ l)) =
          ("- " ++ l) ++ "<br>" ++ joinWith "<br>" ((l2 :: rest').map (fun l => "- " ++ l)) := rfl
      have e3 : ("<br>- " : String) = "<br>" ++ "- " := by decide
      rw [e1, e2, ← ih (by simp), e3]
      simp only [String.append_assoc]

end BulletFacts

section TotalsFacts

theorem exists_after (a b M : String) (h : ∃ pre post, b = pre ++ (M ++ post)) :
    ∃ pre post, a ++ b = pre ++ (M ++ post) := by
  obtain ⟨pre, post, e⟩ := h
  exact ⟨a ++ pre, post, by rw [e]; simp only [String.append_assoc]⟩

theorem litDeposit_label :
    templateText litDeposit =
      String.mk ((templateText litDeposit).data.take 50) ++
        "<span>Deposit (50%)</span>\n    <span>$" := by
  decide

theorem litBalance_label :
    templateText litBalance =
      "</span>\n  </div>\n  <div class=\"totals-row totals-final\">\n" ++
        "    <span>Remaining Balance</span>\n    <span>$" := by
  decide

theorem litBanks_label :
    templateText litBanks = "</span>" ++ String.mk ((templateText litBanks).data.drop 7) := by
  decide

/-- The two half amounts in the totals block, with their labels. -/
theorem totals_rows (f R : String) :
    ∃ pre post,
      templateText litDeposit ++ (f ++ (templateText litBalance ++ (f ++
        (templateText litBanks ++ R)))) =
      pre ++ (("<span>Deposit (50%)</span>\n    <span>$" ++ f ++
        "</span>\n  </div>\n  <div class=\"totals-row totals-final\">\n" ++
        "    <span>Remaining Balance</span>\n    <span>$" ++ f ++ "</span>") ++ post) := by
  refine ⟨String.mk ((templateText litDeposit).data.take 50),
    String.mk ((templateText litBanks).data.drop 7) ++ R, ?_⟩
  conv_lhs => rw [litDeposit_label, litBalance_label, litBanks_label]
  simp only [String.append_assoc]

end TotalsFacts

/-! ## Invoice numbering -/

/-- C1: for a clock reading with a four-digit local year, when the store read
returns `rows` the function answers `Invoice-` followed by the zero-padded
two-digit year, month and day and the letter for `rows.length` (the n-th of
`A`..`Z` below 26, `Z` from 26 on); it answers an error exactly when the
store read is an error. -/
theorem generateInvoiceNumber_format {ρ : Type} (today : JSDate)
    (dbAll : String → Except String (List ρ))
    (hy : 1000 ≤ today.getFullYear ∧ today.getFullYear ≤ 9999) :
    (∀ rows, dbAll (isoDate today) = .ok rows →
      generateInvoiceNumber today dbAll =
        .ok ("Invoice-" ++ twoDigits (today.getFullYear % 100).toNat ++
          twoDigits (today.getMonth + 1) ++ twoDigits today.getDate ++
          String.singleton (seqLetter rows.length))) ∧
    (∀ err, generateInvoiceNumber today dbAll = .error err ↔
      dbAll (isoDate today) = .error err) := by
  constructor
  · intro rows h
    rw [generateInvoiceNumber_ok today dbAll rows h, datePart_eq today hy.1 hy.2]
    simp only [String.append_assoc]
  · intro err
    unfold generateInvoiceNumber
    cases h : dbAll (isoDate today) with
    | error e => simp
    | ok rows => simp

/-- C1 at noon of 2 January 2024 on a machine at UTC-3, two invoices read. -/
theorem generateInvoiceNumber_format_witness :
    (1000 ≤ (JSDate.mk noon (-180)).getFullYear ∧
      (JSDate.mk noon (-180)).getFullYear ≤ 9999) ∧
    generateInvoiceNumber (JSDate.mk noon (-180))
      (fun _ => (Except.ok [(), ()] : Except String (List Unit))) = .ok "Invoice-240102C" :=
  ⟨by decide,
    (generateInvoiceNumber_format (JSDate.mk noon (-180))
      (fun _ => (Except.ok [(), ()] : Except String (List Unit))) (by decide)).1 [(), ()] rfl⟩

/-- C2: from a store with no invoice dated `D`, a series of creations whose
clock readings all fall on `D` answers, for the request at position `k`
(counted from 0), the label ending in the letter for `k`: `A`..`Z` for the
first 26 and `Z` afterwards, i.e. letter number `min (k + 1) 26`. -/
theorem postLabels_same_date {α : Type} [Add α] [Mul α] [Zero α] (s : Store α) (D : String)
    (reqs : List (PostReq α)) (h0 : s.selectByDate D = [])
    (hD : ∀ r ∈ reqs, isoDate r.today = D ∧ isoDate r.now₂ = D) :
    ∀ (k : Nat) (hk : k < reqs.length),
      (postLabels s reqs)[k]? = some (some ("Invoice-" ++ datePart (reqs.get ⟨k, hk⟩).today ++
        String.singleton (seqLetter k))) ∧
      seqLetter k = Char.ofNat (64 + min (k + 1) 26) := by
  intro k hk
  constructor
  · rw [postLabels_from D reqs s hD, h0]
    simp [List.getElem?_map, List.getElem?_enumFrom, hk, List.getElem?_eq_getElem]
  · unfold seqLetter
    split_ifs with h
    · congr 1
      have : min (k + 1) 26 = k + 1 := by omega
      rw [this]
      show 65 + k = 64 + (k + 1)
      omega
    · have : min (k + 1) 26 = 26 := by omega
      rw [this]

/-- C2 on 28 creations: the 3rd gets `C`, the 26th and the 28th get `Z`. -/
theorem postLabels_same_date_witness :
    (Store.empty : Store Int).selectByDate "2024-01-02" = [] ∧
    (∀ r ∈ List.replicate 28 (reqAt noon),
      isoDate r.today = "2024-01-02" ∧ isoDate r.now₂ = "2024-01-02") ∧
    (postLabels Store.empty (List.replicate 28 (reqAt noon)))[2]? =
      some (some "Invoice-240102C") ∧
    (postLabels Store.empty (List.replicate 28 (reqAt noon)))[25]? =
      some (some "Invoice-240102Z") ∧
    (postLabels Store.empty (List.replicate 28 (reqAt noon)))[27]? =
      some (some "Invoice-240102Z") :=
  ⟨rfl, by decide,
    (postLabels_same_date Store.empty "2024-01-02" (List.replicate 28 (reqAt noon)) rfl
      (by decide) 2 (by decide)).1.trans (by decide),
    (postLabels_same_date Store.empty "2024-01-02" (List.replicate 28 (reqAt noon)) rfl
      (by decide) 25 (by decide)).1.trans (by decide),
    (postLabels_same_date Store.empty "2024-01-02" (List.replicate 28 (reqAt noon)) rfl
      (by decide) 27 (by decide)).1.trans (by decide)⟩


/-- C3 as stated fails: after two creations, deletion of the first invoice and
a third creation, two stored invoices carry the same number. -/
theorem uniqueNumbers_fails : ¬ ∀ ops : List (Op Int), UniqueNumbers (run Store.empty ops) :=
  fun h => absurd (h reissueOps) (by decide)

/-- C4: on 2 January 2024, create two invoices, delete the first, create a
third: the third creation is answered with the number of the second, which a
stored invoice still holds. -/
theorem reissue_after_delete :
    ∃ (s₁ s₂ s₄ : Store Int) (a b c : PostResponse),
      post Store.empty (reqAt noon).today (reqAt noon).now₂ (reqAt noon).now₃
        (reqAt noon).body = .ok (s₁, a) ∧
      post s₁ (reqAt (noon + 60000)).today (reqAt (noon + 60000)).now₂
        (reqAt (noon + 60000)).now₃ (reqAt (noon + 60000)).body = .ok (s₂, b) ∧
      post (delete s₂ a.invoice_id) (reqAt (noon + 120000)).today (reqAt (noon + 120000)).now₂
        (reqAt (noon + 120000)).now₃ (reqAt (noon + 120000)).body = .ok (s₄, c) ∧
      isoDate (reqAt noon).today = "2024-01-02" ∧
      isoDate (reqAt (noon + 60000)).today = "2024-01-02" ∧
      isoDate (reqAt (noon + 120000)).today = "2024-01-02" ∧
      a.invoice_number = "Invoice-240102A" ∧
      b.invoice_number = "Invoice-240102B" ∧
      c.invoice_number = b.invoice_number ∧
      c.invoice_id ≠ b.invoice_id ∧
      (∃ row ∈ (delete s₂ a.invoice_id).invoices,
        row.id = b.invoice_id ∧ row.invoice_number = some c.invoice_number) :=
  ⟨_, _, _, _, _, _, rfl, rfl, rfl, by decide, by decide, by decide, by decide, by decide,
    by decide, by decide, by decide⟩

/-- Two creations on one local evening that straddles midnight UTC are both
answered `Invoice-240101A`: the second is counted against another date. -/
theorem duplicate_across_utc_midnight :
    (run Store.empty eveningOps).invoices.map (fun r => (r.invoice_number, r.invoice_date)) =
      [(some "Invoice-240101A", some "2024-01-01"),
       (some "Invoice-240101A", some "2024-01-02")] := by
  decide

/-- C5 at the failing input: at 2024-01-02T01:00:00Z on a machine at UTC-3 the
label carries the local date 240101 while the date used for counting and the
stored `invoice_date` are both 2024-01-02. -/
theorem label_date_differs_from_stored_date :
    ∃ (s' : Store Int) (resp : PostResponse),
      post Store.empty (reqAt lateEvening).today (reqAt lateEvening).now₂
        (reqAt lateEvening).now₃ (reqAt lateEvening).body = .ok (s', resp) ∧
      resp.invoice_number = "Invoice-240101A" ∧
      isoDate (reqAt lateEvening).today = "2024-01-02" ∧
      s'.invoices.map (fun r => r.invoice_date) = [some "2024-01-02"] :=
  ⟨_, _, rfl, by decide, by decide, by decide⟩

/-- C3, amended: in every store reached from the empty store by creations and
PATCH requests only, where each creation happens at a clock reading of one
century whose local calendar date is its UTC calendar date, stores the date it
counted and meets fewer than 26 invoices of that date, no two stored invoices
carry the same `invoice_number`. -/
theorem uniqueNumbers_create_patch {α : Type} [Add α] [Mul α] [Zero α] (cent : Int)
    (ops : List (Op α)) (h : RunsWith (NumberingOk cent) Store.empty ops) :
    UniqueNumbers (run Store.empty ops) := by
  have hinv : NumInv cent (keys (run (Store.empty : Store α) ops)) :=
    run_invariant (NumberingOk cent) (fun s => NumInv cent (keys s))
      (fun s op hs hok => numInv_step cent s op hs hok) ops Store.empty
      ⟨by simp [keys, Store.empty], by simp [keys, Store.empty, dateCount],
        by simp [keys, Store.empty]⟩ h
  have := hinv.2.2
  simpa [keys, List.map_map, UniqueNumbers] using this

/-- C3, amended, on a creation, a PATCH and a second creation on 2 January
2024: the two stored numbers are `Invoice-240102A` and `Invoice-240102B`. -/
theorem uniqueNumbers_create_patch_witness :
    RunsWith (NumberingOk 20) Store.empty numberingOps ∧
    UniqueNumbers (run Store.empty numberingOps) ∧
    (run Store.empty numberingOps).invoices.map (fun r => r.invoice_number) =
      [some "Invoice-240102A", some "Invoice-240102B"] :=
  have h : RunsWith (NumberingOk 20) Store.empty numberingOps :=
    ⟨⟨⟨by decide, by decide, by decide, by decide, by decide⟩, by decide, by decide⟩,
      trivial,
      ⟨⟨by decide, by decide, by decide, by decide, by decide⟩, by decide, by decide⟩,
      trivial⟩
  ⟨h, uniqueNumbers_create_patch 20 numberingOps h, by decide⟩

/-! ## Financial aggregation -/

/-- C6: a creation always succeeds in persisting one row per item of the body,
in order, each with `total = quantity * unit_price` exactly as multiplied, and
the new invoice row's `subtotal` is the sum of those totals in list order,
which is 0 for the empty list. -/
theorem post_items_and_subtotal {α : Type} [Add α] [Mul α] [Zero α] (s : Store α)
    (today now₂ now₃ : JSDate) (body : PostBody α) :
    ∃ (s' : Store α) (resp : PostResponse) (row : InvoiceRow α),
      post s today now₂ now₃ body = .ok (s', resp) ∧
      s'.invoices = s.invoices ++ [row] ∧ row.id = resp.invoice_id ∧
      s'.invoice_items =
        s.invoice_items ++ insertItems resp.invoice_id s.itemsSeq (body.items.getD []) ∧
      (insertItems resp.invoice_id s.itemsSeq (body.items.getD [])).map
          (fun it => (it.invoice_id, it.title, it.description, it.quantity, it.unit_price,
            it.total)) =
        (body.items.getD []).map (fun item => (resp.invoice_id, item.title.toSql,
          item.description.toSql, item.quantity, item.unit_price,
          item.quantity * item.unit_price)) ∧
      row.subtotal = sumTotals (insertItems resp.invoice_id s.itemsSeq (body.items.getD [])) ∧
      (body.items.getD [] = [] → row.subtotal = 0) := by
  refine ⟨_, _, _, post_eq s today now₂ now₃ body, rfl, rfl, rfl, insertItems_fields _ _ _,
    ?_, ?_⟩
  · exact (sumTotals_insertItems _ _ _).symm
  · intro h
    show subtotalOf (body.items.getD []) = 0
    rw [h]
    rfl

/-- C6 on a creation without items in the empty store: the stored subtotal is 0. -/
theorem post_items_and_subtotal_witness :
    ∃ (s' : Store Int) (resp : PostResponse) (row : InvoiceRow Int),
      post Store.empty (reqAt noon).today (reqAt noon).now₂ (reqAt noon).now₃
        (reqAt noon).body = .ok (s', resp) ∧
      s'.invoices = [row] ∧ row.subtotal = 0 := by
  obtain ⟨s', resp, row, h1, h2, _, _, _, _, h7⟩ :=
    post_items_and_subtotal (Store.empty : Store Int) (reqAt noon).today (reqAt noon).now₂
      (reqAt noon).now₃ (reqAt noon).body
  exact ⟨s', resp, row, h1, h2, h7 rfl⟩

/-- C8: a PUT on a stored invoice leaves as that invoice's items exactly the
rows inserted for the new list (one per new item, in order, with
`total = quantity * unit_price`; every earlier row of that invoice is deleted),
sets the stored subtotal to the sum of the new totals, and does not change the
items of any other invoice. -/
theorem put_replaces_items {α : Type} [Add α] [Mul α] [Zero α] (s : Store α) (id : Nat)
    (body : PutBody α) (h : ∃ r ∈ s.invoices, r.id = id) :
    (put s id body).itemsOf id = insertItems id s.itemsSeq (body.items.getD []) ∧
    (put s id body).invoice_items =
      s.invoice_items.filter (fun it => ¬ it.invoice_id = id) ++
        insertItems id s.itemsSeq (body.items.getD []) ∧
    ((put s id body).itemsOf id).map
        (fun it => (it.title, it.description, it.quantity, it.unit_price, it.total)) =
      (body.items.getD []).map (fun item => (item.title.toSql, item.description.toSql,
        item.quantity, item.unit_price, item.quantity * item.unit_price)) ∧
    (∃ r ∈ (put s id body).invoices, r.id = id) ∧
    (∀ r ∈ (put s id body).invoices, r.id = id →
      r.subtotal = sumTotals ((put s id body).itemsOf id)) ∧
    (∀ id', id' ≠ id → (put s id body).itemsOf id' = s.itemsOf id') := by
  refine ⟨itemsOf_put_same s id body, rfl, ?_, ?_, ?_, ?_⟩
  · rw [itemsOf_put_same]
    have := insertItems_fields id (body.items.getD []) s.itemsSeq
    have h2 := congrArg
      (List.map (fun p : Nat × Option String × Option String × α × α × α => p.2)) this
    simpa [List.map_map, Function.comp] using h2
  · obtain ⟨r, hr, hid⟩ := h
    refine ⟨putRow body r, ?_, ?_⟩
    · simp only [put, Store.updateWhereId, List.mem_map]
      exact ⟨r, hr, by rw [if_pos hid]⟩
    · rw [(putRow_id body r).1, hid]
  · intro r hr hid
    rw [itemsOf_put_same, sumTotals_insertItems]
    simp only [put, Store.updateWhereId, List.mem_map] at hr
    obtain ⟨r₀, _, e⟩ := hr
    by_cases h0 : r₀.id = id
    · rw [if_pos h0] at e
      rw [← e, (putRow_id body r₀).2]
    · rw [if_neg h0] at e
      rw [e] at h0
      exact absurd hid h0
  · intro id' h'
    exact itemsOf_put_other s id id' body h'

/-- C8 on an invoice created with two items and then updated to one item. -/
theorem put_replaces_items_witness :
    (∃ r ∈ (run Store.empty [postItemsAt noon twoItems]).invoices, r.id = 1) ∧
    ((put (run Store.empty [postItemsAt noon twoItems]) 1 (putBodyWith oneItem)).itemsOf 1).map
        (fun it => (it.title, it.description, it.quantity, it.unit_price, it.total)) =
      [(some "Setup", none, 1, 10, 10)] ∧
    (put (run Store.empty [postItemsAt noon twoItems]) 1 (putBodyWith oneItem)).invoices.map
        (fun r => r.subtotal) = [10] :=
  ⟨by decide,
    (put_replaces_items (run Store.empty [postItemsAt noon twoItems]) 1 (putBodyWith oneItem)
      (by decide)).2.2.1.trans (by decide),
    by decide⟩

/-- C9: the reducer run when an item list is written (POST, PUT) and the
reducer the preview runs over the rows stored for that list give the same
value, the left-to-right sum of `quantity * unit_price`; after a PUT the
preview total of the invoice is the stored subtotal, and so it is after a
creation whose new id has no item rows yet. -/
theorem aggregator_eq_renderer {α : Type} [Add α] [Mul α] [Zero α] :
    (∀ (items : List (Item α)) (id seq : Nat),
      subtotalOf items = leftToRightSum items ∧
      previewTotal (insertItems id seq items) = leftToRightSum items ∧
      previewTotal (insertItems id seq items) = subtotalOf items) ∧
    (∀ (s : Store α) (id : Nat) (body : PutBody α),
      previewTotal ((put s id body).itemsOf id) = subtotalOf (body.items.getD []) ∧
      ∀ r ∈ (put s id body).invoices, r.id = id →
        r.subtotal = previewTotal ((put s id body).itemsOf id)) ∧
    (∀ (s : Store α) (today now₂ now₃ : JSDate) (body : PostBody α),
      s.itemsOf (s.invoicesSeq + 1) = [] →
      ∃ (s' : Store α) (resp : PostResponse) (row : InvoiceRow α),
        post s today now₂ now₃ body = .ok (s', resp) ∧ row ∈ s'.invoices ∧
        row.id = resp.invoice_id ∧
        row.subtotal = previewTotal (s'.itemsOf resp.invoice_id)) := by
  have hl : ∀ (items : List (Item α)), subtotalOf items = leftToRightSum items := by
    intro items
    simp only [subtotalOf, leftToRightSum, List.foldl_map]
  refine ⟨?_, ?_, ?_⟩
  · intro items id seq
    exact ⟨hl items, (previewTotal_insertItems id seq items).trans (hl items),
      previewTotal_insertItems id seq items⟩
  · intro s id body
    refine ⟨by rw [itemsOf_put_same, previewTotal_insertItems], ?_⟩
    intro r hr hid
    rw [itemsOf_put_same, previewTotal_insertItems]
    simp only [put, Store.updateWhereId, List.mem_map] at hr
    obtain ⟨r₀, _, e⟩ := hr
    by_cases h0 : r₀.id = id
    · rw [if_pos h0] at e
      rw [← e, (putRow_id body r₀).2]
    · rw [if_neg h0] at e
      rw [e] at h0
      exact absurd hid h0
  · intro s today now₂ now₃ body hfresh
    obtain ⟨s', resp, row, h1, h2, h3, h4, _, h6, h7⟩ := post_shape s today now₂ now₃ body
    refine ⟨s', resp, row, h1, by rw [h2]; simp, h3, ?_⟩
    have hf := hfresh
    rw [← h4] at hf
    simp only [Store.itemsOf] at hf
    simp only [Store.itemsOf, h6, List.filter_append, hf, List.nil_append, filter_eq_of_all]
    rw [h7, previewTotal_insertItems]

/-- C9 on a creation with two items in the empty store: subtotal and preview
total are both 2 * 150 + 3 * 40 = 420. -/
theorem aggregator_eq_renderer_witness :
    (Store.empty : Store Int).itemsOf ((Store.empty : Store Int).invoicesSeq + 1) = [] ∧
    ∃ (s' : Store Int) (resp : PostResponse) (row : InvoiceRow Int),
      post Store.empty ⟨noon, -180⟩ ⟨noon, -180⟩ ⟨noon, -180⟩
        { client_id := .val "1", project := .undefined, status := .undefined,
          notes := .undefined, items := some twoItems } = .ok (s', resp) ∧
      row ∈ s'.invoices ∧ row.id = resp.invoice_id ∧
      row.subtotal = previewTotal (s'.itemsOf resp.invoice_id) :=
  ⟨rfl, aggregator_eq_renderer.2.2 Store.empty ⟨noon, -180⟩ ⟨noon, -180⟩ ⟨noon, -180⟩
    { client_id := .val "1", project := .undefined, status := .undefined,
      notes := .undefined, items := some twoItems } rfl⟩

/-- C7 as stated fails: a PUT addressed to id 1 on the empty store leaves an
item row for invoice 1, and the invoice created next gets id 1 with subtotal 0
while a stored item of total 10 carries its id. -/
theorem subtotalInv_fails : ¬ ∀ ops : List (Op Int), SubtotalInv (run Store.empty ops) :=
  fun h => absurd (h orphanOps) (by decide)

/-- C7, amended: in every store reached from the empty store by POST, PATCH,
DELETE and PUT requests where each PUT addresses an invoice stored at that
moment, every stored invoice's subtotal is the sum of the totals of the stored
items that carry its id. -/
theorem subtotalInv_reachable {α : Type} [Add α] [Mul α] [Zero α] (ops : List (Op α))
    (h : RunsWith PutTargetsStored Store.empty ops) :
    SubtotalInv (run (Store.empty : Store α) ops) :=
  (run_invariant PutTargetsStored StoreWF storeWF_step ops Store.empty
    ⟨fun _ hr => (by cases hr), fun _ hit => (by cases hit), fun _ hr => (by cases hr)⟩ h).1

/-- C7, amended, on a run with a creation, a PUT of the created invoice, a
PATCH, a second creation and a deletion: the one remaining invoice has
subtotal 420. -/
theorem subtotalInv_reachable_witness :
    RunsWith PutTargetsStored Store.empty lifecycleOps ∧
    SubtotalInv (run Store.empty lifecycleOps) ∧
    (run Store.empty lifecycleOps).invoices.map (fun r => (r.id, r.subtotal)) = [(2, 420)] :=
  have h : RunsWith PutTargetsStored Store.empty lifecycleOps :=
    ⟨trivial,
      (by decide : ∃ r ∈ (step Store.empty (postItemsAt noon twoItems)).invoices, r.id = 1),
      trivial, trivial, trivial, trivial⟩
  ⟨h, subtotalInv_reachable lifecycleOps h, by decide⟩

/-- C10: `total_revenue` is the sum of `subtotal` over the invoices with status
`Paid` plus the sum of `0.5 * subtotal` over those with status `Advance`, in any
commutative semiring of amounts; it is 0 when no invoice is stored, and 125
for subtotals 100 Paid, 200 Unpaid, 50 Advance. -/
theorem total_revenue_spec :
    (∀ (α : Type) [CommSemiring α] (half : α) (s : Store α),
      (statsOverview half s).total_revenue =
        ((s.invoices.filter (fun r => r.status = some "Paid")).map (fun r => r.subtotal)).sum +
        ((s.invoices.filter (fun r => r.status = some "Advance")).map
          (fun r => half * r.subtotal)).sum ∧
      (statsOverview half { s with invoices := [] }).total_revenue = 0) ∧
    (statsOverview (0.5 : ℚ) statsStore).total_revenue = 125 := by
  have key : ∀ (α : Type) [CommSemiring α] (half : α) (s : Store α),
      (statsOverview half s).total_revenue =
        ((s.invoices.filter (fun r => r.status = some "Paid")).map (fun r => r.subtotal)).sum +
        ((s.invoices.filter (fun r => r.status = some "Advance")).map
          (fun r => half * r.subtotal)).sum := by
    intro α _ half s
    show coalesce (sqlSum (s.invoices.map (revenueCase half))) 0 = _
    rw [coalesce_sqlSum, sum_revenueCase]
  refine ⟨fun α _ half s => ⟨key α half s, rfl⟩, ?_⟩
  rw [key]
  simp +decide [statsStore, invoiceWith, List.filter_cons]
  norm_num

/-- C11: `outstanding_amount` is the sum of `subtotal` over the invoices with
status `Unpaid` plus the sum of `0.5 * subtotal` over those with status
`Advance`, in any commutative semiring of amounts; it is 0 when no invoice is
stored, and 225 for subtotals 100 Paid, 200 Unpaid, 50 Advance. -/
theorem outstanding_amount_spec :
    (∀ (α : Type) [CommSemiring α] (half : α) (s : Store α),
      (statsOverview half s).outstanding_amount =
        ((s.invoices.filter (fun r => r.status = some "Unpaid")).map
          (fun r => r.subtotal)).sum +
        ((s.invoices.filter (fun r => r.status = some "Advance")).map
          (fun r => half * r.subtotal)).sum ∧
      (statsOverview half { s with invoices := [] }).outstanding_amount = 0) ∧
    (statsOverview (0.5 : ℚ) statsStore).outstanding_amount = 225 := by
  have key : ∀ (α : Type) [CommSemiring α] (half : α) (s : Store α),
      (statsOverview half s).outstanding_amount =
        ((s.invoices.filter (fun r => r.status = some "Unpaid")).map
          (fun r => r.subtotal)).sum +
        ((s.invoices.filter (fun r => r.status = some "Advance")).map
          (fun r => half * r.subtotal)).sum := by
    intro α _ half s
    show coalesce (sqlSum (s.invoices.map (outstandingCase half))) 0 = _
    rw [coalesce_sqlSum, sum_outstandingCase]
  refine ⟨fun α _ half s => ⟨key α half s, rfl⟩, ?_⟩
  rw [key]
  simp +decide [statsStore, invoiceWith, List.filter_cons]
  norm_num

/-- C12: `unpaid_count` is the number of invoices whose status is `Unpaid`
plus the number whose status is `Advance`; no other status is counted; for
statuses Paid, Unpaid, Advance it is 2. -/
theorem unpaid_count_spec :
    (∀ (α : Type) [Add α] [Mul α] [Zero α] (half : α) (s : Store α),
      (statsOverview half s).unpaid_count =
        (s.invoices.map (fun r => r.status)).count (some "Unpaid") +
          (s.invoices.map (fun r => r.status)).count (some "Advance")) ∧
    (statsOverview (0.5 : ℚ) statsStore).unpaid_count = 2 := by
  refine ⟨fun α _ _ _ half s => unpaid_filter_length s.invoices, ?_⟩
  decide

/-- C13: a PATCH that sets the status to `Paid` and names no `paid_at` is
answered with success and leaves, in every row with the addressed id,
`status = Paid` and `paid_at` = the current timestamp, with `advance_paid_at`
as it was unless the body names it; likewise for `Advance` and
`advance_paid_at`, with `paid_at` as it was unless the body names it. -/
theorem patch_autostamp {α : Type} (s : Store α) (id : Nat) (body : PatchBody) (now : JSDate) :
    (body.status = .val "Paid" → body.paid_at = .undefined →
      (∃ s', patch s id body now = .ok s' ∧ s'.invoices = s.invoices.map
        (fun r => if r.id = id then patchRow body now.toISOString r else r)) ∧
      ∀ r : InvoiceRow α,
        (patchRow body now.toISOString r).status = some "Paid" ∧
        (patchRow body now.toISOString r).paid_at = some now.toISOString ∧
        (patchRow body now.toISOString r).advance_paid_at =
          (if body.advance_paid_at = .undefined then r.advance_paid_at
           else body.advance_paid_at.toSql)) ∧
    (body.status = .val "Advance" → body.advance_paid_at = .undefined →
      (∃ s', patch s id body now = .ok s' ∧ s'.invoices = s.invoices.map
        (fun r => if r.id = id then patchRow body now.toISOString r else r)) ∧
      ∀ r : InvoiceRow α,
        (patchRow body now.toISOString r).status = some "Advance" ∧
        (patchRow body now.toISOString r).advance_paid_at = some now.toISOString ∧
        (patchRow body now.toISOString r).paid_at =
          (if body.paid_at = .undefined then r.paid_at else body.paid_at.toSql)) := by
  constructor
  · intro hs hp
    have hne : body.status ≠ .undefined := by rw [hs]; exact fun h => Field.noConfusion h
    refine ⟨⟨_, patch_with_status s id body now hne, rfl⟩, fun r => ?_⟩
    obtain ⟨c1, c2, c3, _⟩ := patchRow_columns body now.toISOString r
    refine ⟨?_, ?_, ?_⟩
    · rw [c1, if_neg hne, hs]; rfl
    · rw [c2, hp]; simp [hs]
    · rw [c3, hs]
      by_cases ha : body.advance_paid_at = .undefined
      · simp [ha]
      · simp [ha]
  · intro hs hp
    have hne : body.status ≠ .undefined := by rw [hs]; exact fun h => Field.noConfusion h
    refine ⟨⟨_, patch_with_status s id body now hne, rfl⟩, fun r => ?_⟩
    obtain ⟨c1, c2, c3, _⟩ := patchRow_columns body now.toISOString r
    refine ⟨?_, ?_, ?_⟩
    · rw [c1, if_neg hne, hs]; rfl
    · rw [c3, hp]; simp [hs]
    · rw [c2, hs]
      by_cases ha : body.paid_at = .undefined
      · simp [ha]
      · simp [ha]

/-- C13 on an invoice created at noon of 2 January 2024 and marked paid half
a minute later: `paid_at` is the timestamp of the PATCH and `advance_paid_at`
stays NULL. -/
theorem patch_autostamp_witness :
    (statusOnly "Paid").status = .val "Paid" ∧ (statusOnly "Paid").paid_at = .undefined ∧
    (∃ s', patch (run Store.empty [postAt noon]) 1 (statusOnly "Paid") ⟨noon + 30000, -180⟩ =
        .ok s' ∧
      s'.invoices.map (fun r => (r.status, r.paid_at, r.advance_paid_at)) =
        [(some "Paid", some "2024-01-02T15:00:30.000Z", none)]) :=
  ⟨rfl, rfl,
    match ((patch_autostamp (run Store.empty [postAt noon]) 1 (statusOnly "Paid")
      ⟨noon + 30000, -180⟩).1 rfl rfl).1 with
    | ⟨s', h1, h2⟩ => ⟨s', h1, by rw [h2]; decide⟩⟩

/-- C14: the UPDATE built by a PATCH assigns no column twice, and each of
`paid_at`, `advance_paid_at`, `created_at` that the body names is stored
exactly as named (a value as that value, `null` as NULL), whatever the status
in the body; a PATCH that names one of them is answered with success. -/
theorem patch_explicit_wins {α : Type} (s : Store α) (id : Nat) (body : PatchBody)
    (now : JSDate) :
    ((patchUpdates body now.toISOString).map Prod.fst).Nodup ∧
    (∀ r : InvoiceRow α,
      (body.paid_at ≠ .undefined →
        (patchRow body now.toISOString r).paid_at = body.paid_at.toSql) ∧
      (body.advance_paid_at ≠ .undefined →
        (patchRow body now.toISOString r).advance_paid_at = body.advance_paid_at.toSql) ∧
      (body.created_at ≠ .undefined →
        (patchRow body now.toISOString r).created_at = body.created_at.toSql) ∧
      (∀ v, body.paid_at = .val v → (patchRow body now.toISOString r).paid_at = some v) ∧
      (∀ v, body.advance_paid_at = .val v →
        (patchRow body now.toISOString r).advance_paid_at = some v) ∧
      (∀ v, body.created_at = .val v →
        (patchRow body now.toISOString r).created_at = some v)) ∧
    ((body.paid_at ≠ .undefined ∨ body.advance_paid_at ≠ .undefined ∨
        body.created_at ≠ .undefined) →
      ∃ s', patch s id body now = .ok s' ∧ s'.invoices = s.invoices.map
        (fun r => if r.id = id then patchRow body now.toISOString r else r)) := by
  refine ⟨?_, fun r => ?_, ?_⟩
  · obtain ⟨st, pa, ad, cr⟩ := body
    cases st <;> cases pa <;> cases ad <;> cases cr <;>
      simp [patchUpdates] <;> split_ifs <;> simp
  · obtain ⟨_, c2, c3, c4⟩ := patchRow_columns body now.toISOString r
    refine ⟨fun h => by rw [c2, if_pos h], fun h => by rw [c3, if_pos h],
      fun h => by rw [c4, if_pos h], fun v h => ?_, fun v h => ?_, fun v h => ?_⟩
    · rw [c2, h]; rfl
    · rw [c3, h]; rfl
    · rw [c4, h]; rfl
  · intro h
    unfold patch
    have hl : ¬ (patchUpdates body now.toISOString).length = 0 := by
      obtain ⟨st, pa, ad, cr⟩ := body
      rcases h with h | h | h <;> simp only [patchUpdates] <;>
        simp [h]
    simp only [hl, if_false]
    exact ⟨_, rfl, rfl⟩

/-- C14 on a body that sets the status to `Paid` and names all three
timestamps: the named values are stored, not the time of the PATCH. -/
theorem patch_explicit_wins_witness :
    (explicitBody.paid_at ≠ .undefined ∨ explicitBody.advance_paid_at ≠ .undefined ∨
      explicitBody.created_at ≠ .undefined) ∧
    (∃ s', patch (run Store.empty paidOps) 1 explicitBody ⟨noon + 60000, -180⟩ = .ok s' ∧
      s'.invoices.map (fun r => (r.status, r.paid_at, r.advance_paid_at, r.created_at)) =
        [(some "Paid", some "2023-12-24T10:00:00.000Z", none,
          some "2023-12-01T08:00:00.000Z")]) :=
  ⟨by decide,
    match (patch_explicit_wins (run Store.empty paidOps) 1 explicitBody
      ⟨noon + 60000, -180⟩).2.2 (by decide) with
    | ⟨s', h1, h2⟩ => ⟨s', h1, by rw [h2]; decide⟩⟩

/-- C15: a PATCH that sets the status to `Unpaid` or `Advance` and names no
`paid_at` is answered with success and leaves `paid_at` of every row it
rewrites as it was; a PATCH that sets the status to anything but `Advance`
and names no `advance_paid_at` leaves `advance_paid_at` as it was. -/
theorem patch_no_autoclear {α : Type} (s : Store α) (id : Nat) (body : PatchBody)
    (now : JSDate) :
    ((body.status = .val "Unpaid" ∨ body.status = .val "Advance") →
      body.paid_at = .undefined →
      (∃ s', patch s id body now = .ok s' ∧ s'.invoices = s.invoices.map
        (fun r => if r.id = id then patchRow body now.toISOString r else r)) ∧
      ∀ r : InvoiceRow α, (patchRow body now.toISOString r).paid_at = r.paid_at) ∧
    (∀ st : String, body.status = .val st → st ≠ "Advance" →
      body.advance_paid_at = .undefined →
      (∃ s', patch s id body now = .ok s' ∧ s'.invoices = s.invoices.map
        (fun r => if r.id = id then patchRow body now.toISOString r else r)) ∧
      ∀ r : InvoiceRow α,
        (patchRow body now.toISOString r).advance_paid_at = r.advance_paid_at) := by
  constructor
  · intro hs hp
    have hne : body.status ≠ .undefined := by
      rcases hs with hs | hs <;> rw [hs] <;> exact fun h => Field.noConfusion h
    refine ⟨⟨_, patch_with_status s id body now hne, rfl⟩, fun r => ?_⟩
    rw [(patchRow_columns body now.toISOString r).2.1, hp]
    rcases hs with hs | hs <;> simp [hs]
  · intro st hs hst hp
    have hne : body.status ≠ .undefined := by rw [hs]; exact fun h => Field.noConfusion h
    refine ⟨⟨_, patch_with_status s id body now hne, rfl⟩, fun r => ?_⟩
    rw [(patchRow_columns body now.toISOString r).2.2.1, hp, hs]
    simp [hst]

/-- C15 on the invoice paid at 15:00:30: a PATCH to `Unpaid` a minute later
keeps that `paid_at`. -/
theorem patch_no_autoclear_witness :
    ((statusOnly "Unpaid").status = .val "Unpaid" ∨
      (statusOnly "Unpaid").status = .val "Advance") ∧
    (statusOnly "Unpaid").paid_at = .undefined ∧
    (∃ s', patch (run Store.empty paidOps) 1 (statusOnly "Unpaid") ⟨noon + 90000, -180⟩ =
        .ok s' ∧
      s'.invoices.map (fun r => (r.status, r.paid_at)) =
        [(some "Unpaid", some "2024-01-02T15:00:30.000Z")]) :=
  ⟨Or.inl rfl, rfl,
    match ((patch_no_autoclear (run Store.empty paidOps) 1 (statusOnly "Unpaid")
      ⟨noon + 90000, -180⟩).1 (Or.inl rfl) rfl).1 with
    | ⟨s', h1, h2⟩ => ⟨s', h1, by rw [h2]; decide⟩⟩

/-- C16 as stated fails: the invoice paid at 15:00:30 and patched to `Paid`
again at 15:01:30 no longer has the first timestamp. -/
theorem paid_at_restamped :
    ¬ ∀ (s : Store Int) (id : Nat) (now : JSDate) (t : String),
      (∀ r ∈ s.invoices, r.id = id → r.status = some "Paid" ∧ r.paid_at = some t) →
      ∀ s', patch s id (statusOnly "Paid") now = .ok s' →
        ∀ r' ∈ s'.invoices, r'.id = id → r'.paid_at = some t := by
  intro h
  have h1 := h (run Store.empty paidOps) 1 ⟨noon + 90000, -180⟩ "2024-01-02T15:00:30.000Z"
    (by decide) _ rfl
  revert h1
  decide

/-- C16, amended: every PATCH that sets the status to `Paid` and names no
`paid_at` stores the current timestamp in `paid_at`, also for an invoice that
already has status `Paid` and a stored `paid_at`; likewise for `Advance` and
`advance_paid_at`. -/
theorem patch_restamps {α : Type} (s : Store α) (id : Nat) (body : PatchBody) (now : JSDate)
    (r : InvoiceRow α) (t : String) (hr : r ∈ s.invoices) (hid : r.id = id) :
    (r.status = some "Paid" → r.paid_at = some t → body.status = .val "Paid" →
      body.paid_at = .undefined →
      ∃ s', patch s id body now = .ok s' ∧ patchRow body now.toISOString r ∈ s'.invoices ∧
        (patchRow body now.toISOString r).id = id ∧
        (patchRow body now.toISOString r).paid_at = some now.toISOString) ∧
    (r.status = some "Advance" → r.advance_paid_at = some t → body.status = .val "Advance" →
      body.advance_paid_at = .undefined →
      ∃ s', patch s id body now = .ok s' ∧ patchRow body now.toISOString r ∈ s'.invoices ∧
        (patchRow body now.toISOString r).id = id ∧
        (patchRow body now.toISOString r).advance_paid_at = some now.toISOString) := by
  have hmem : patchRow body now.toISOString r ∈
      (s.updateWhereId id (patchRow body now.toISOString)).invoices := by
    simp only [Store.updateWhereId, List.mem_map]
    exact ⟨r, hr, by rw [if_pos hid]⟩
  have hid' : (patchRow body now.toISOString r).id = id := by
    rw [(patchRow_frame body now.toISOString r).1, hid]
  constructor
  · intro _ _ hs hp
    have hne : body.status ≠ .undefined := by rw [hs]; exact fun h => Field.noConfusion h
    refine ⟨_, patch_with_status s id body now hne, hmem, hid', ?_⟩
    rw [(patchRow_columns body now.toISOString r).2.1, hp]
    simp [hs]
  · intro _ _ hs hp
    have hne : body.status ≠ .undefined := by rw [hs]; exact fun h => Field.noConfusion h
    refine ⟨_, patch_with_status s id body now hne, hmem, hid', ?_⟩
    rw [(patchRow_columns body now.toISOString r).2.2.1, hp]
    simp [hs]

/-- C16, amended, on the invoice paid at 15:00:30: a second PATCH to `Paid`
at 15:01:30 stores 15:01:30. -/
theorem patch_restamps_witness :
    paidRow ∈ (run Store.empty paidOps).invoices ∧ paidRow.id = 1 ∧
    paidRow.status = some "Paid" ∧ paidRow.paid_at = some "2024-01-02T15:00:30.000Z" ∧
    (∃ s', patch (run Store.empty paidOps) 1 (statusOnly "Paid") ⟨noon + 90000, -180⟩ =
        .ok s' ∧
      patchRow (statusOnly "Paid") (JSDate.mk (noon + 90000) (-180)).toISOString paidRow ∈
        s'.invoices ∧
      (patchRow (statusOnly "Paid") (JSDate.mk (noon + 90000) (-180)).toISOString paidRow).id =
        1 ∧
      (patchRow (statusOnly "Paid") (JSDate.mk (noon + 90000) (-180)).toISOString
        paidRow).paid_at = some (JSDate.mk (noon + 90000) (-180)).toISOString) ∧
    (JSDate.mk (noon + 90000) (-180)).toISOString = "2024-01-02T15:01:30.000Z" :=
  ⟨by decide, rfl, rfl, rfl,
    (patch_restamps (run Store.empty paidOps) 1 (statusOnly "Paid") ⟨noon + 90000, -180⟩
      paidRow "2024-01-02T15:00:30.000Z" (by decide) rfl).1 rfl rfl rfl rfl,
    by decide⟩

/-- C17 at the failing input: a PUT never assigns `paid_at` or
`advance_paid_at` unless the body names them, so on an unpaid invoice a PUT to
`Paid` (or to `Advance`) with no timestamp leaves both NULL, while the PATCH
with the same status stamps the current time. -/
theorem put_no_autostamp :
    (∀ (α : Type) [Add α] [Mul α] [Zero α] (body : PutBody α) (r : InvoiceRow α),
      (body.paid_at = .undefined → (putRow body r).paid_at = r.paid_at) ∧
      (body.advance_paid_at = .undefined →
        (putRow body r).advance_paid_at = r.advance_paid_at)) ∧
    (run Store.empty [postItemsAt noon twoItems]).invoices.map
        (fun r => (r.id, r.status, r.paid_at, r.advance_paid_at)) =
      [(1, some "Unpaid", none, none)] ∧
    (put (run Store.empty [postItemsAt noon twoItems]) 1 putPaidBody).invoices.map
        (fun r => (r.id, r.status, r.paid_at, r.advance_paid_at)) =
      [(1, some "Paid", none, none)] ∧
    (put (run Store.empty [postItemsAt noon twoItems]) 1 putAdvanceBody).invoices.map
        (fun r => (r.id, r.status, r.paid_at, r.advance_paid_at)) =
      [(1, some "Advance", none, none)] ∧
    (run Store.empty [postItemsAt noon twoItems,
        .patch 1 (statusOnly "Paid") ⟨noon + 30000, -180⟩]).invoices.map
        (fun r => (r.id, r.status, r.paid_at, r.advance_paid_at)) =
      [(1, some "Paid", some "2024-01-02T15:00:30.000Z", none)] := by
  refine ⟨fun α _ _ _ body r => ⟨fun h => ?_, fun h => ?_⟩, by decide, by decide, by decide,
    by decide⟩
  · unfold putRow
    simp only [h, ne_eq, not_true_eq_false, if_false]
    split_ifs <;> rfl
  · unfold putRow
    simp only [h, ne_eq, not_true_eq_false, if_false]
    split_ifs <;> rfl

/-! ## The preview document -/

set_option maxRecDepth 100000 in
/-- C18: when no text field of the invoice, client, company or items, and no
printed number, has `PAID` or `UNPAID` as a token, the rendered preview has
the token `PAID` and not the token `UNPAID` for status `Paid`, the token
`UNPAID` and not the token `PAID` for status `Unpaid`, and neither for status
`Advance`. -/
theorem preview_watermark {α : Type} [Add α] [Mul α] [Zero α] [Div α] [OfNat α 2]
    (fmt : NumberFormat α) (invoice : PreviewInvoice α) (items : List (ItemRow α))
    (hf : FieldsFree fmt invoice items) :
    (invoice.invoice.status = some "Paid" →
      IsToken "PAID" (previewHtml fmt invoice items) ∧
      ¬ IsToken "UNPAID" (previewHtml fmt invoice items)) ∧
    (invoice.invoice.status = some "Unpaid" →
      IsToken "UNPAID" (previewHtml fmt invoice items) ∧
      ¬ IsToken "PAID" (previewHtml fmt invoice items)) ∧
    (invoice.invoice.status = some "Advance" →
      ¬ IsToken "PAID" (previewHtml fmt invoice items) ∧
      ¬ IsToken "UNPAID" (previewHtml fmt invoice items)) := by
  have hP : ("PAID".data = "PAID".data ∨ "PAID".data = "UNPAID".data) := Or.inl rfl
  have hU : ("UNPAID".data = "PAID".data ∨ "UNPAID".data = "UNPAID".data) := Or.inr rfl
  have hword : ∀ (t w : String), (∀ c ∈ w.data, c.isWhitespace = false) → t ≠ w →
      ¬ IsTok t.data (sqlText (some w)).data := by
    intro t w hw hne h
    have := isTok_word hw h
    exact hne (String.ext this)
  refine ⟨fun hs => ⟨?_, ?_⟩, fun hs => ⟨?_, ?_⟩, fun hs => ⟨?_, ?_⟩⟩
  · unfold IsToken
    rw [previewHtml_eq]
    refine isTok_of_mem _ _ wmPaid _ _ ?_ wmPaid_split (by decide) (by decide)
    simp [previewPieces, markPieces, hs]
  · refine preview_clean hU fmt invoice items hf ?_ ?_ ?_
    · rw [hs]; exact hword _ _ (by decide) (by decide)
    · rw [hs]
      simp only [markPieces, if_true]
      intro p hp
      rw [List.mem_singleton.1 hp]
      exact linesFree_sound "UNPAID" _ unpaid_letters (by decide) _ (by decide)
    · rw [hs]
      have : ¬ (some "Paid" = some "Unpaid") := by decide
      simp only [markPieces, this, if_false]
      exact clean_nil _
  · unfold IsToken
    rw [previewHtml_eq]
    refine isTok_of_mem _ _ wmUnpaid _ _ ?_ wmUnpaid_split (by decide) (by decide)
    simp [previewPieces, markPieces, hs]
  · refine preview_clean hP fmt invoice items hf ?_ ?_ ?_
    · rw [hs]; exact hword _ _ (by decide) (by decide)
    · rw [hs]
      have : ¬ (some "Unpaid" = some "Paid") := by decide
      simp only [markPieces, this, if_false]
      exact clean_nil _
    · rw [hs]
      simp only [markPieces, if_true]
      intro p hp
      rw [List.mem_singleton.1 hp]
      exact not_isTok_paid_wmUnpaid
  · refine preview_clean hP fmt invoice items hf ?_ ?_ ?_
    · rw [hs]; exact hword _ _ (by decide) (by decide)
    · rw [hs]
      have : ¬ (some "Advance" = some "Paid") := by decide
      simp only [markPieces, this, if_false]
      exact clean_nil _
    · rw [hs]
      have : ¬ (some "Advance" = some "Unpaid") := by decide
      simp only [markPieces, this, if_false]
      exact clean_nil _
  · refine preview_clean hU fmt invoice items hf ?_ ?_ ?_
    · rw [hs]; exact hword _ _ (by decide) (by decide)
    · rw [hs]
      have : ¬ (some "Advance" = some "Paid") := by decide
      simp only [markPieces, this, if_false]
      exact clean_nil _
    · rw [hs]
      have : ¬ (some "Advance" = some "Unpaid") := by decide
      simp only [markPieces, this, if_false]
      exact clean_nil _

/-- C18 on a paid invoice with two items: the fields are free of the
watermark words, and the document has the token `PAID` and not `UNPAID`. -/
theorem preview_watermark_witness :
    FieldsFree wholeFormat sampleInvoice sampleRows ∧
    sampleInvoice.invoice.status = some "Paid" ∧
    IsToken "PAID" (previewHtml wholeFormat sampleInvoice sampleRows) ∧
    ¬ IsToken "UNPAID" (previewHtml wholeFormat sampleInvoice sampleRows) :=
  ⟨sample_fieldsFree, rfl,
    (preview_watermark wholeFormat sampleInvoice sampleRows sample_fieldsFree).1 rfl⟩

/-- C19: with `T` the total recomputed from the items, the preview shows in
the row labelled `Deposit (50%)` and in the row labelled `Remaining Balance`
the same text, `T / 2` printed with two decimals; the halving is applied to
the total, not to the items. -/
theorem preview_deposit_balance {α : Type} [Add α] [Mul α] [Zero α] [Div α] [OfNat α 2]
    (fmt : NumberFormat α) (invoice : PreviewInvoice α) (items : List (ItemRow α)) :
    ∃ pre post : String,
      previewHtml fmt invoice items =
        pre ++ ("<span>Deposit (50%)</span>\n    <span>$" ++
          fmt.toFixed2 (previewTotal items / 2) ++
          "</span>\n  </div>\n  <div class=\"totals-row totals-final\">\n" ++
          "    <span>Remaining Balance</span>\n    <span>$" ++
          fmt.toFixed2 (previewTotal items / 2) ++ "</span>") ++ post := by
  generalize hM : ("<span>Deposit (50%)</span>\n    <span>$" ++
    fmt.toFixed2 (previewTotal items / 2) ++
    "</span>\n  </div>\n  <div class=\"totals-row totals-final\">\n" ++
    "    <span>Remaining Balance</span>\n    <span>$" ++
    fmt.toFixed2 (previewTotal items / 2) ++ "</span>") = M
  unfold previewHtml
  simp only [String.append_assoc]
  iterate 32 apply exists_after
  rw [← hM]
  exact totals_rows _ _

/-- C20: a description that is not empty and consists of the lines `l1..ln`
joined by line breaks is rendered as the element holding
`- l1<br>- l2<br>...<br>- ln`; a description that is NULL or empty renders
nothing; the row shows the element right after the title. -/
theorem description_bullets :
    (∀ lines : List String, lines ≠ [] → (∀ l ∈ lines, ∀ c ∈ l.data, c ≠ '\n') →
      joinWith "\n" lines ≠ "" →
      descriptionHtml (some (joinWith "\n" lines)) =
        "<span class=\"item-description\">" ++
          joinWith "<br>" (lines.map (fun l => "- " ++ l)) ++ "</span>") ∧
    descriptionHtml none = "" ∧ descriptionHtml (some "") = "" ∧
    (∀ (α : Type) [Mul α] (fmt : NumberFormat α) (item : ItemRow α),
      ∃ pre post : String, itemRowHtml fmt item =
        pre ++ (sqlText item.title ++ "<br>\n          " ++
          descriptionHtml item.description ++ "\n        </td>") ++ post) := by
  refine ⟨?_, rfl, rfl, ?_⟩
  · intro lines hne hlines hd
    have e1 : templateText descOpen = "<span class=\"item-description\">" ++ "- " := by decide
    have e2 : templateText descClose = "</span>" := by decide
    unfold descriptionHtml
    simp only [hd, ne_eq, not_false_eq_true, if_true]
    rw [replace_join _ _ hlines, e1, e2, String.append_assoc "<span class=\"item-description\">",
      bullets_join lines hne]
  · intro α _ fmt item
    have e1 : templateText rowTitleEnd = "<br>\n          " := by decide
    have e2 : templateText rowQty =
        "\n        </td>" ++ String.mk ((templateText rowQty).data.drop 14) := by decide
    refine ⟨templateText rowOpen, String.mk ((templateText rowQty).data.drop 14) ++
      (fmt.toText item.quantity ++ (templateText rowPrice ++ (fmt.toFixed2 item.unit_price ++
      (templateText rowPrice ++ (fmt.toFixed2 (item.quantity * item.unit_price) ++
      templateText rowClose))))), ?_⟩
    unfold itemRowHtml
    conv_lhs => rw [e1, e2]
    simp only [String.append_assoc]

/-- C20 on the description `Logo`, line break, `Banner`. -/
theorem description_bullets_witness :
    (["Logo", "Banner"] : List String) ≠ [] ∧
    (∀ l ∈ (["Logo", "Banner"] : List String), ∀ c ∈ l.data, c ≠ '\n') ∧
    joinWith "\n" ["Logo", "Banner"] ≠ "" ∧
    descriptionHtml (some "Logo\nBanner") =
      "<span class=\"item-description\">- Logo<br>- Banner</span>" :=
  ⟨by decide, by decide, by decide,
    description_bullets.1 ["Logo", "Banner"] (by decide) (by decide) (by decide)⟩

/-! ## Bank blocks -/

section BankFacts

/-- A text without line break is its own single line. -/
theorem splitOn_line (l : List Char) (hl : ∀ c ∈ l, c ≠ '\n') : splitOn '\n' l = [l] := by
  induction l with
  | nil => rfl
  | cons c cs ih =>
    exact splitOn_other c cs cs [] (hl c (List.mem_cons_self _ _))
      (ih (fun x hx => hl x (List.mem_cons_of_mem _ hx)))

/-- The first line of a text ends at its first line break. -/
theorem splitOn_line_break (l rest : List Char) (hl : ∀ c ∈ l, c ≠ '\n') :
    splitOn '\n' (l ++ '\n' :: rest) = l :: splitOn '\n' rest := by
  induction l with
  | nil => exact splitOn_newline rest
  | cons c cs ih =>
    exact splitOn_other c (cs ++ '\n' :: rest) cs (splitOn '\n' rest)
      (hl c (List.mem_cons_self _ _)) (ih (fun x hx => hl x (List.mem_cons_of_mem _ hx)))

/-- Splitting lines that were joined by line breaks gives the lines back. -/
theorem splitLines_join (l : String) (rest : List String)
    (h : ∀ x ∈ l :: rest, ∀ c ∈ x.data, c ≠ '\n') :
    splitLines (joinWith "\n" (l :: rest)) = l :: rest := by
  induction rest generalizing l with
  | nil =>
    simp only [joinWith, splitLines]
    rw [splitOn_line _ (h l (List.mem_cons_self _ _))]
    rfl
  | cons l2 rest' ih =>
    have e : (joinWith "\n" (l :: l2 :: rest')).data =
        l.data ++ '\n' :: (joinWith "\n" (l2 :: rest')).data := by
      show (l ++ "\n" ++ joinWith "\n" (l2 :: rest')).data = _
      simp [String.data_append]
    have ih' := ih l2 (fun x hx => h x (List.mem_cons_of_mem _ hx))
    unfold splitLines at ih' ⊢
    rw [e, splitOn_line_break _ _ (h l (List.mem_cons_self _ _)), List.map_cons, ih']

/-- A text in front of a document that does not depend on the two fields. -/
theorem exists_after_fields (a : String) (f M : Option String → Option String → String)
    (h : ∃ pre post, ∀ b1 b2, f b1 b2 = pre ++ (M b1 b2 ++ post)) :
    ∃ pre post, ∀ b1 b2, a ++ f b1 b2 = pre ++ (M b1 b2 ++ post) := by
  obtain ⟨pre, post, e⟩ := h
  exact ⟨a ++ pre, post, fun b1 b2 => by rw [e]; simp only [String.append_assoc]⟩

end BankFacts

set_option maxRecDepth 100000 in
/-- C21: a bank text that is not empty and consists of the lines `l1..ln`
joined by line breaks is rendered as the block holding `<strong>l1</strong>`
and then `l2..ln` as they are, all joined by `<br>`; a bank text that is NULL
or empty renders nothing; the document holds the block of `bank_info_1` and
then the block of `bank_info_2`, each computed from its own field alone. -/
theorem bank_block_lines :
    (∀ (l : String) (rest : List String), (∀ x ∈ l :: rest, ∀ c ∈ x.data, c ≠ '\n') →
      joinWith "\n" (l :: rest) ≠ "" →
      bankBlock (some (joinWith "\n" (l :: rest))) =
        "\n  <div class=\"bank-info\">\n    " ++
          joinWith "<br>" (("<strong>" ++ l ++ "</strong>") :: rest) ++ "\n  </div>\n  ") ∧
    bankBlock none = "" ∧ bankBlock (some "") = "" ∧
    (∀ (α : Type) [Add α] [Mul α] [Zero α] [Div α] [OfNat α 2] (fmt : NumberFormat α)
      (invoice : PreviewInvoice α) (items : List (ItemRow α)),
      ∃ pre post : String, ∀ b1 b2 : Option String,
        previewHtml fmt { invoice with bank_info_1 := b1, bank_info_2 := b2 } items =
          pre ++ "<div class=\"banks\">\n  " ++ bankBlock b1 ++ "\n  " ++ bankBlock b2 ++
            "\n</div>" ++ post) := by
  refine ⟨?_, rfl, rfl, ?_⟩
  · intro l rest hlines hne
    have e1 : templateText bankOpen = "\n  <div class=\"bank-info\">\n    " := by decide
    have e2 : templateText bankClose = "\n  </div>\n  " := by decide
    have e3 : templateText strongOpen = "<strong>" := by decide
    have e4 : templateText strongClose = "</strong>" := by decide
    unfold bankBlock
    simp only [hne, ne_eq, not_false_eq_true, if_true]
    rw [splitLines_join l rest hlines, e1, e2]
    simp only [emphasizeFirst, e3, e4]
  · intro α _ _ _ _ _ fmt invoice items
    have e1 : templateText litBanks =
        String.mk ((templateText litBanks).data.take 39) ++ "<div class=\"banks\">\n  " := by
      decide
    have e2 : templateText litBankSep = "\n  " := by decide
    have e3 : templateText litFooter =
        "\n</div>" ++ String.mk ((templateText litFooter).data.drop 7) := by decide
    obtain ⟨M, hM⟩ : ∃ M : Option String → Option String → String, ∀ b1 b2, M b1 b2 =
        "<div class=\"banks\">\n  " ++ bankBlock b1 ++ "\n  " ++ bankBlock b2 ++ "\n</div>" :=
      ⟨_, fun _ _ => rfl⟩
    suffices h : ∃ pre post : String, ∀ b1 b2 : Option String,
        previewHtml fmt { invoice with bank_info_1 := b1, bank_info_2 := b2 } items =
          pre ++ (M b1 b2 ++ post) by
      obtain ⟨pre, post, h⟩ := h
      refine ⟨pre, post, fun b1 b2 => ?_⟩
      rw [h b1 b2, hM]
      simp only [String.append_assoc]
    unfold previewHtml
    dsimp only
    simp only [String.append_assoc]
    iterate 36 apply exists_after_fields
    refine ⟨String.mk ((templateText litBanks).data.take 39),
      String.mk ((templateText litFooter).data.drop 7), fun b1 b2 => ?_⟩
    rw [hM]
    conv_lhs => rw [e1, e2, e3]
    simp only [String.append_assoc]

/-- C21 on the bank text `Bank A`, line break, `IBAN 123`. -/
theorem bank_block_lines_witness :
    (∀ x ∈ (["Bank A", "IBAN 123"] : List String), ∀ c ∈ x.data, c ≠ '\n') ∧
    joinWith "\n" ["Bank A", "IBAN 123"] ≠ "" ∧
    bankBlock (some "Bank A\nIBAN 123") =
      "\n  <div class=\"bank-info\">\n    <strong>Bank A</strong><br>IBAN 123\n  </div>\n  " :=
  ⟨by decide, by decide, bank_block_lines.1 "Bank A" ["IBAN 123"] (by decide) (by decide)⟩

section RowFacts

variable {α : Type}

/-- The table row of an item, text for text. -/
theorem itemRowHtml_text [Mul α] (fmt : NumberFormat α) (item : ItemRow α) :
    itemRowHtml fmt item =
      "\n      <tr>\n        <td>\n          " ++ sqlText item.title ++ "<br>\n          " ++
      descriptionHtml item.description ++ "\n        </td>\n        <td class=\"right\">" ++
      fmt.toText item.quantity ++ "</td>\n        <td class=\"right\">$" ++
      fmt.toFixed2 item.unit_price ++ "</td>\n        <td class=\"right\">$" ++
      fmt.toFixed2 (item.quantity * item.unit_price) ++ "</td>\n      </tr>\n    " := by
  have e1 : templateText rowOpen = "\n      <tr>\n        <td>\n          " := by decide
  have e2 : templateText rowTitleEnd = "<br>\n          " := by decide
  have e3 : templateText rowQty = "\n        </td>\n        <td class=\"right\">" := by decide
  have e4 : templateText rowPrice = "</td>\n        <td class=\"right\">$" := by decide
  have e5 : templateText rowClose = "</td>\n      </tr>\n    " := by decide
  unfold itemRowHtml
  rw [e1, e2, e3, e4, e5]

set_option maxRecDepth 100000 in
theorem litTableHead_end :
    templateText litTableHead =
      String.mk ((templateText litTableHead).data.take 217) ++ "<tbody>\n    " := by
  decide

theorem litTotals_text :
    templateText litTotals =
      "\n  </tbody>" ++ ("\n</table>\n\n<!-- Totals -->\n<div class=\"totals\">\n" ++
        "  <div class=\"totals-row\">\n    <span>Total</span>\n    <strong>$") := by
  decide

theorem litDeposit_start :
    templateText litDeposit =
      "</strong>" ++ String.mk ((templateText litDeposit).data.drop 9) := by
  decide

/-- The table body between its tags. -/
theorem table_body (rows rest : String) :
    ∃ pre post, templateText litTableHead ++ (rows ++ (templateText litTotals ++ rest)) =
      pre ++ (("<tbody>\n    " ++ rows ++ "\n  </tbody>") ++ post) := by
  refine ⟨String.mk ((templateText litTableHead).data.take 217),
    ("\n</table>\n\n<!-- Totals -->\n<div class=\"totals\">\n" ++
        "  <div class=\"totals-row\">\n    <span>Total</span>\n    <strong>$") ++ rest, ?_⟩
  conv_lhs => rw [litTableHead_end, litTotals_text]
  simp only [String.append_assoc]

/-- The empty table body and the total that follows it. -/
theorem table_body_total (f rest : String) :
    ∃ pre post, templateText litTableHead ++ ("" ++ (templateText litTotals ++
        (f ++ (templateText litDeposit ++ rest)))) =
      pre ++ (("<tbody>\n    " ++ "\n  </tbody>\n</table>\n\n<!-- Totals -->\n" ++
        "<div class=\"totals\">\n  <div class=\"totals-row\">\n    <span>Total</span>\n" ++
        "    <strong>$" ++ f ++ "</strong>") ++ post) := by
  refine ⟨String.mk ((templateText litTableHead).data.take 217),
    String.mk ((templateText litDeposit).data.drop 9) ++ rest, ?_⟩
  conv_lhs => rw [litTableHead_end, litTotals_text, litDeposit_start]
  simp only [String.append_assoc, String.empty_append]
  rfl

end RowFacts

/-- C22: the table body of the preview holds one row per item, in the order
of the item list, and nothing else; the row of an item shows its title, its
description element, its quantity, its unit price with two decimals and
`quantity * unit_price` with two decimals. With no items the table body has no
row and the total printed is that of 0 (which is `0.00` when `toFixed(2)`
prints 0 so). -/
theorem preview_item_rows {α : Type} [Add α] [Mul α] [Zero α] [Div α] [OfNat α 2]
    (fmt : NumberFormat α) (invoice : PreviewInvoice α) (items : List (ItemRow α)) :
    (∃ pre post : String, previewHtml fmt invoice items =
      pre ++ ("<tbody>\n    " ++ joinWith "" (items.map (fun item =>
        "\n      <tr>\n        <td>\n          " ++ sqlText item.title ++ "<br>\n          " ++
        descriptionHtml item.description ++ "\n        </td>\n        <td class=\"right\">" ++
        fmt.toText item.quantity ++ "</td>\n        <td class=\"right\">$" ++
        fmt.toFixed2 item.unit_price ++ "</td>\n        <td class=\"right\">$" ++
        fmt.toFixed2 (item.quantity * item.unit_price) ++ "</td>\n      </tr>\n    ")) ++
        "\n  </tbody>") ++ post) ∧
    (fmt.toFixed2 0 = "0.00" → ∃ pre post : String, previewHtml fmt invoice [] =
      pre ++ ("<tbody>\n    " ++ "\n  </tbody>\n</table>\n\n<!-- Totals -->\n" ++
        "<div class=\"totals\">\n  <div class=\"totals-row\">\n    <span>Total</span>\n" ++
        "    <strong>$0.00</strong>") ++ post) := by
  constructor
  · have hrow : (fun item => itemRowHtml fmt item) = (fun item : ItemRow α =>
        "\n      <tr>\n        <td>\n          " ++ sqlText item.title ++ "<br>\n          " ++
        descriptionHtml item.description ++ "\n        </td>\n        <td class=\"right\">" ++
        fmt.toText item.quantity ++ "</td>\n        <td class=\"right\">$" ++
        fmt.toFixed2 item.unit_price ++ "</td>\n        <td class=\"right\">$" ++
        fmt.toFixed2 (item.quantity * item.unit_price) ++ "</td>\n      </tr>\n    ") :=
      funext (itemRowHtml_text fmt)
    rw [← hrow]
    generalize hR : joinWith "" (items.map (fun item => itemRowHtml fmt item)) = R
    generalize hM : ("<tbody>\n    " ++ R ++ "\n  </tbody>") = M
    unfold previewHtml
    simp only [String.append_assoc]
    iterate 28 apply exists_after
    rw [hR, ← hM]
    exact table_body _ _
  · intro h0
    have e : ("<tbody>\n    " ++ "\n  </tbody>\n</table>\n\n<!-- Totals -->\n" ++
        "<div class=\"totals\">\n  <div class=\"totals-row\">\n    <span>Total</span>\n" ++
        "    <strong>$0.00</strong>" : String) =
        "<tbody>\n    " ++ "\n  </tbody>\n</table>\n\n<!-- Totals -->\n" ++
        "<div class=\"totals\">\n  <div class=\"totals-row\">\n    <span>Total</span>\n" ++
        "    <strong>$" ++ fmt.toFixed2 0 ++ "</strong>" := by
      rw [h0]
      decide
    rw [e]
    generalize hM : ("<tbody>\n    " ++ "\n  </tbody>\n</table>\n\n<!-- Totals -->\n" ++
        "<div class=\"totals\">\n  <div class=\"totals-row\">\n    <span>Total</span>\n" ++
        "    <strong>$" ++ fmt.toFixed2 0 ++ "</strong>") = M
    unfold previewHtml
    have ht : previewTotal ([] : List (ItemRow α)) = 0 := rfl
    have hj : joinWith "" (([] : List (ItemRow α)).map (itemRowHtml fmt)) = "" := rfl
    simp only [String.append_assoc, ht, hj]
    iterate 28 apply exists_after
    rw [← hM]
    exact table_body_total _ _

/-- C22 on the sample invoice without items, whole amounts printed with two
zero decimals. -/
theorem preview_item_rows_witness :
    wholeFormat.toFixed2 0 = "0.00" ∧
    ∃ pre post : String, previewHtml wholeFormat sampleInvoice [] =
      pre ++ ("<tbody>\n    " ++ "\n  </tbody>\n</table>\n\n<!-- Totals -->\n" ++
        "<div class=\"totals\">\n  <div class=\"totals-row\">\n    <span>Total</span>\n" ++
        "    <strong>$0.00</strong>") ++ post :=
  ⟨by decide, (preview_item_rows wholeFormat sampleInvoice []).2 (by decide)⟩

/-! ## The preview route -/

section RouteFacts

variable {α : Type}

theorem find_with_subtotal (g : InvoiceRow α → α) (id : Nat) (rows : List (InvoiceRow α)) :
    (rows.map (fun r => { r with subtotal := g r })).find? (fun i => i.id = id) =
      (rows.find? (fun i => i.id = id)).map (fun r => { r with subtotal := g r }) := by
  induction rows with
  | nil => rfl
  | cons r rest ih =>
    by_cases h : r.id = id
    · simp [List.find?, h]
    · simp [List.find?, h, ih]

theorem find_none_of_absent (id : Nat) (rows : List (InvoiceRow α))
    (h : ∀ r ∈ rows, r.id ≠ id) : rows.find? (fun i => i.id = id) = none := by
  rw [List.find?_eq_none]
  intro r hr
  simpa using h r hr

theorem find_some_of_stored (id : Nat) (rows : List (InvoiceRow α))
    (h : ∃ r ∈ rows, r.id = id) :
    ∃ r, rows.find? (fun i => i.id = id) = some r ∧ r ∈ rows ∧ r.id = id := by
  cases hf : rows.find? (fun i => i.id = id) with
  | none =>
    obtain ⟨r, hr, e⟩ := h
    rw [List.find?_eq_none] at hf
    exact absurd (by simpa using e) (hf r hr)
  | some r =>
    exact ⟨r, rfl, List.mem_of_find?_eq_some hf, by simpa using List.find?_some hf⟩

/-- What stands in front of a text stays in front when more is appended. -/
theorem starts_with_append (a t : String) (h : ∃ r, a = t ++ r) (b : String) :
    ∃ r, a ++ b = t ++ r := by
  obtain ⟨r, e⟩ := h
  exact ⟨r ++ b, by rw [e, String.append_assoc]⟩

/-- The preview document starts with the document type declaration. -/
theorem previewHtml_doctype [Add α] [Mul α] [Zero α] [Div α] [OfNat α 2]
    (fmt : NumberFormat α) (invoice : PreviewInvoice α) (items : List (ItemRow α)) :
    ∃ rest : String, previewHtml fmt invoice items = "\n<!DOCTYPE html>\n" ++ rest := by
  have e : templateText litDoctype =
      "\n<!DOCTYPE html>\n" ++ String.mk ((templateText litDoctype).data.drop 17) := by
    decide
  unfold previewHtml
  iterate 40 apply starts_with_append
  exact ⟨_, e⟩

end RouteFacts

/-- C23: the preview does not read the stored subtotal. Two invoice records
that differ only in `subtotal`, rendered with the same client, company and
items, give the same document; and the answer of the preview route does not
change when the stored subtotals of the invoices are replaced by any other
amounts. -/
theorem preview_ignores_subtotal {α : Type} [Add α] [Mul α] [Zero α] [Div α] [OfNat α 2]
    (fmt : NumberFormat α) :
    (∀ (invoice : PreviewInvoice α) (subtotal : α) (items : List (ItemRow α)),
      previewHtml fmt { invoice with invoice := { invoice.invoice with subtotal := subtotal } }
        items = previewHtml fmt invoice items) ∧
    (∀ (db : Database α) (g : InvoiceRow α → α) (id : Nat),
      preview fmt { db with store := { db.store with
        invoices := db.store.invoices.map (fun r => { r with subtotal := g r }) } } id =
      preview fmt db id) := by
  refine ⟨fun _ _ _ => rfl, fun db g id => ?_⟩
  unfold preview Database.previewRow Database.previewItems
  by_cases hc : "company_name" ∈ db.clientsColumns
  · simp only [hc, if_true, find_with_subtotal]
    cases db.store.invoices.find? (fun i => i.id = id) with
    | none => rfl
    | some r => rfl
  · simp only [hc, if_false]

/-- What the preview route does. When the invoice query reports an error,
the answer is status 500 with the error's message, whatever the id. When it
reports none: an id that matches no stored invoice is answered with status 404
and the text `Invoice not found`; an id that matches a stored invoice whose
items all have a number as `unit_price` is answered with the document of that
invoice and of the items stored for the id; and when one of those items has a
`unit_price` that is no number, the template throws and no answer is sent. -/
theorem preview_answers {α : Type} [Add α] [Mul α] [Zero α] [Div α] [OfNat α 2]
    (fmt : NumberFormat α) (db : Database α) (id : Nat) :
    ((∃ row, db.previewRow id = .ok row) →
      ((∀ r ∈ db.store.invoices, r.id ≠ id) →
        preview fmt db id = some ⟨404, "Invoice not found"⟩) ∧
      ((∃ r ∈ db.store.invoices, r.id = id) →
        (∀ item ∈ db.store.itemsOf id, fmt.isNumber item.unit_price = true) →
        ∃ invoice : PreviewInvoice α, invoice.invoice ∈ db.store.invoices ∧
          invoice.invoice.id = id ∧
          preview fmt db id = some ⟨200, previewHtml fmt invoice (db.store.itemsOf id)⟩ ∧
          ∃ rest : String, previewHtml fmt invoice (db.store.itemsOf id) =
            "\n<!DOCTYPE html>\n" ++ rest) ∧
      ((∃ r ∈ db.store.invoices, r.id = id) →
        (∃ item ∈ db.store.itemsOf id, fmt.isNumber item.unit_price = false) →
        preview fmt db id = none)) ∧
    (∀ err, db.previewRow id = .error err → preview fmt db id = some ⟨500, err⟩) := by
  constructor
  · rintro ⟨row, hrow⟩
    have hc : "company_name" ∈ db.clientsColumns := by
      by_contra hc
      simp [Database.previewRow, hc] at hrow
    refine ⟨?_, ?_, ?_⟩
    · intro habs
      unfold preview Database.previewRow
      simp only [hc, if_true, find_none_of_absent id _ habs]
      rfl
    · intro hst hnum
      obtain ⟨r, hf, hr, hid⟩ := find_some_of_stored id _ hst
      have hall : (db.store.itemsOf id).all (fun item => fmt.isNumber item.unit_price) =
          true := List.all_eq_true.2 hnum
      refine ⟨{ invoice := r
                client_name := (db.clientOf r.client_id).bind (fun c => c.company_name)
                contact_person := (db.clientOf r.client_id).bind (fun c => c.contact_person)
                company_name := db.company.bind (fun com => com.name)
                company_address := db.company.bind (fun com => com.address)
                bank_info_1 := db.company.bind (fun com => com.bank_info_1)
                bank_info_2 := db.company.bind (fun com => com.bank_info_2) },
        hr, hid, ?_, ?_⟩
      · unfold preview Database.previewRow Database.previewItems
        simp only [hc, if_true, hf, Option.map_some', hall]
      · exact previewHtml_doctype fmt _ _
    · intro hst hbad
      obtain ⟨r, hf, _, _⟩ := find_some_of_stored id _ hst
      have hall : (db.store.itemsOf id).all (fun item => fmt.isNumber item.unit_price) =
          false := by
        obtain ⟨item, hitem, hfalse⟩ := hbad
        rw [List.all_eq_false]
        exact ⟨item, hitem, by rw [hfalse]; decide⟩
      unfold preview Database.previewRow Database.previewItems
      simp only [hc, if_true, hf, Option.map_some', hall]
      rfl
  · intro err herr
    unfold preview
    rw [herr]

/-- The preview route on a database file of the older schema that holds
invoice 1: the preview of id 1 is answered with a document, the preview of
id 2 with 404. -/
theorem preview_answers_legacy :
    (∃ row, legacyDatabase.previewRow 1 = .ok row) ∧
    (∃ r ∈ legacyDatabase.store.invoices, r.id = 1) ∧
    (∀ item ∈ legacyDatabase.store.itemsOf 1, wholeFormat.isNumber item.unit_price = true) ∧
    (∃ invoice : PreviewInvoice Int, invoice.invoice ∈ legacyDatabase.store.invoices ∧
      invoice.invoice.id = 1 ∧
      preview wholeFormat legacyDatabase 1 =
        some ⟨200, previewHtml wholeFormat invoice (legacyDatabase.store.itemsOf 1)⟩ ∧
      ∃ rest : String, previewHtml wholeFormat invoice (legacyDatabase.store.itemsOf 1) =
        "\n<!DOCTYPE html>\n" ++ rest) ∧
    (∃ row, legacyDatabase.previewRow 2 = .ok row) ∧
    (∀ r ∈ legacyDatabase.store.invoices, r.id ≠ 2) ∧
    preview wholeFormat legacyDatabase 2 = some ⟨404, "Invoice not found"⟩ :=
  have h1 : ∃ row, legacyDatabase.previewRow 1 = .ok row := ⟨_, rfl⟩
  have h2 : ∃ r ∈ legacyDatabase.store.invoices, r.id = 1 := by decide
  have h3 : ∃ row, legacyDatabase.previewRow 2 = .ok row := ⟨_, rfl⟩
  have h4 : ∀ r ∈ legacyDatabase.store.invoices, r.id ≠ 2 := by decide
  have h5 : ∀ item ∈ legacyDatabase.store.itemsOf 1,
      wholeFormat.isNumber item.unit_price = true := fun _ _ => rfl
  ⟨h1, h2, h5, ((preview_answers wholeFormat legacyDatabase 1).1 h1).2.1 h2 h5, h3, h4,
    ((preview_answers wholeFormat legacyDatabase 2).1 h3).1 h4⟩

/-- C26: on a database file created by `initializeTables`, where no invoice
is stored, the preview of id 1 is answered with status 500 and the error of
the query, not with status 404 and `Invoice not found` as the claim says for
an id that matches no stored invoice: the query selects `c.company_name`,
a column table `clients` of that file does not have. -/
theorem preview_query_error :
    (∀ r ∈ freshDatabase.store.invoices, r.id ≠ 1) ∧
    freshDatabase.previewRow 1 = .error "SQLITE_ERROR: no such column: c.company_name" ∧
    preview wholeFormat freshDatabase 1 =
      some ⟨500, "SQLITE_ERROR: no such column: c.company_name"⟩ ∧
    preview wholeFormat freshDatabase 1 ≠ some ⟨404, "Invoice not found"⟩ :=
  ⟨by decide, rfl, by decide, by decide⟩

/-! ## Creating an invoice without a client; items without an invoice -/

/-- C24 as stated fails: a `POST /` whose body names no `client_id`, handled
on the empty store, is answered with success, and the invoice row (with
`client_id` NULL) and its item row are persisted. -/
theorem post_without_client_persists :
    post Store.empty ⟨noon, -180⟩ ⟨noon + 1, -180⟩ ⟨noon + 2, -180⟩
        { client_id := .undefined, project := .val "Site", status := .undefined,
          notes := .undefined, items := some oneItem } =
      .ok (run Store.empty [postWithoutClient], ⟨"Invoice-240102A", 1⟩) ∧
    (run Store.empty [postWithoutClient]).invoices.map (fun r => (r.id, r.client_id)) =
      [(1, none)] ∧
    (run Store.empty [postWithoutClient]).invoice_items.map (fun it => it.invoice_id) = [1] := by
  decide

/-- C24, amended: the create form rejects a missing client, the route does
not. `handleSubmit` on a form without a selected client alerts
`Select a client` and sends no request, so the store stays as it is; `POST /`
itself answers every body with success and persists the invoice row, with
`client_id` as sent (NULL when absent or `null`), and the item rows. -/
theorem create_form_requires_client {α : Type} [Add α] [Mul α] [Zero α] :
    (∀ (s : Store α) (today now₂ now₃ : JSDate) (form : CreateForm α),
      form.selectedClient = "" →
      handleSubmit form = .alert "Select a client" ∧
      submitForm s today now₂ now₃ form = s) ∧
    (∀ (s : Store α) (today now₂ now₃ : JSDate) (body : PostBody α),
      ∃ (s' : Store α) (resp : PostResponse) (row : InvoiceRow α),
        post s today now₂ now₃ body = .ok (s', resp) ∧
        s'.invoices = s.invoices ++ [row] ∧ row.client_id = body.client_id.toSql ∧
        s'.invoice_items =
          s.invoice_items ++ insertItems resp.invoice_id s.itemsSeq (body.items.getD [])) := by
  constructor
  · intro s today now₂ now₃ form h
    have e : handleSubmit form = .alert "Select a client" := by
      unfold handleSubmit
      rw [if_pos h]
    exact ⟨e, by unfold submitForm; rw [e]⟩
  · intro s today now₂ now₃ body
    exact ⟨_, _, _, post_eq s today now₂ now₃ body, rfl, rfl, rfl⟩

/-- C24, amended, on a form with one item and no selected client, submitted
on the empty store. -/
theorem create_form_requires_client_witness :
    formWithoutClient.selectedClient = "" ∧
    handleSubmit formWithoutClient = .alert "Select a client" ∧
    submitForm Store.empty ⟨noon, -180⟩ ⟨noon + 1, -180⟩ ⟨noon + 2, -180⟩ formWithoutClient =
      Store.empty :=
  ⟨rfl, create_form_requires_client.1 Store.empty ⟨noon, -180⟩ ⟨noon + 1, -180⟩
    ⟨noon + 2, -180⟩ formWithoutClient rfl⟩

/-- C25 as stated fails: a PUT addressed to id 1 on the empty store is
answered with success and leaves an item row with `invoice_id` 1 while no
invoice is stored. -/
theorem orphan_after_put : ¬ ∀ ops : List (Op Int), NoOrphans (run Store.empty ops) :=
  fun h => absurd (h putMissingOps) (by decide)

/-- C25, amended: in every store reached from the empty store by POST, PATCH,
DELETE and PUT requests where each PUT addresses an invoice stored at that
moment, every stored item row carries the id of a stored invoice. -/
theorem noOrphans_reachable {α : Type} [Add α] [Mul α] [Zero α] (ops : List (Op α))
    (h : RunsWith PutTargetsStored Store.empty ops) :
    NoOrphans (run (Store.empty : Store α) ops) :=
  (run_invariant PutTargetsStored StoreWF storeWF_step ops Store.empty
    ⟨fun _ hr => (by cases hr), fun _ hit => (by cases hit), fun _ hr => (by cases hr)⟩ h).2.1

/-- C25, amended, on a run with a creation, a PUT of the created invoice, a
PATCH, a second creation and a deletion: the two remaining items belong to
invoice 2, which is stored. -/
theorem noOrphans_reachable_witness :
    RunsWith PutTargetsStored Store.empty lifecycleOps ∧
    NoOrphans (run Store.empty lifecycleOps) ∧
    (run Store.empty lifecycleOps).invoice_items.map (fun it => it.invoice_id) = [2, 2] ∧
    (run Store.empty lifecycleOps).invoices.map (fun r => r.id) = [2] :=
  have h : RunsWith PutTargetsStored Store.empty lifecycleOps :=
    ⟨trivial,
      (by decide : ∃ r ∈ (step Store.empty (postItemsAt noon twoItems)).invoices, r.id = 1),
      trivial, trivial, trivial, trivial⟩
  ⟨h, noOrphans_reachable lifecycleOps h, by decide, by decide⟩

/-! ## Revenue and outstanding amount together -/

section SplitFacts

variable {α : Type} [CommSemiring α]

/-- What one invoice adds to the two amounts together. -/
theorem case_split (half : α) (hh : half + half = 1) (r : InvoiceRow α) :
    revenueCase half r + outstandingCase half r =
      if r.status = some "Paid" ∨ r.status = some "Unpaid" ∨ r.status = some "Advance"
      then r.subtotal else 0 := by
  unfold revenueCase outstandingCase
  by_cases h1 : r.status = some "Paid"
  · have h2 : ¬ r.status = some "Unpaid" := by rw [h1]; decide
    have h3 : ¬ r.status = some "Advance" := by rw [h1]; decide
    rw [if_pos h1, if_neg h2, if_neg h3, if_pos (Or.inl h1), add_zero]
  · by_cases h2 : r.status = some "Unpaid"
    · have h3 : ¬ r.status = some "Advance" := by rw [h2]; decide
      rw [if_neg h1, if_neg h3, if_pos h2, if_pos (Or.inr (Or.inl h2)), zero_add]
    · by_cases h3 : r.status = some "Advance"
      · rw [if_neg h1, if_pos h3, if_neg h2, if_pos (Or.inr (Or.inr h3)), ← mul_add, hh,
          mul_one]
      · rw [if_neg h1, if_neg h3, if_neg h2, if_neg (by tauto), add_zero]

theorem sum_case_split (half : α) (hh : half + half = 1) (rows : List (InvoiceRow α)) :
    (rows.map (revenueCase half)).sum + (rows.map (outstandingCase half)).sum =
      ((rows.filter (fun r => r.status = some "Paid" ∨ r.status = some "Unpaid" ∨
        r.status = some "Advance")).map (fun r => r.subtotal)).sum := by
  induction rows with
  | nil => simp
  | cons r rest ih =>
    have hc := case_split half hh r
    by_cases h : r.status = some "Paid" ∨ r.status = some "Unpaid" ∨ r.status = some "Advance"
    · rw [if_pos h] at hc
      rw [List.filter_cons_of_pos (by simpa using h)]
      simp only [List.map_cons, List.sum_cons]
      rw [← ih, ← hc]
      ring
    · rw [if_neg h] at hc
      rw [List.filter_cons_of_neg (by simpa using h)]
      simp only [List.map_cons, List.sum_cons]
      rw [← ih]
      calc revenueCase half r + (rest.map (revenueCase half)).sum +
            (outstandingCase half r + (rest.map (outstandingCase half)).sum)
          = (revenueCase half r + outstandingCase half r) +
            ((rest.map (revenueCase half)).sum + (rest.map (outstandingCase half)).sum) := by
            ring
        _ = _ := by rw [hc, zero_add]

end SplitFacts

/-- C28: with amounts in a commutative semiring where twice the value of the
literal `0.5` is 1, `total_revenue + outstanding_amount` is the sum of the
subtotals of the invoices whose status is `Paid`, `Unpaid` or `Advance`, which
is the sum of all subtotals when every status is one of the three; an invoice
with any other status adds 0 to both amounts. -/
theorem revenue_plus_outstanding {α : Type} [CommSemiring α] (half : α)
    (hh : half + half = 1) (s : Store α) :
    (statsOverview half s).total_revenue + (statsOverview half s).outstanding_amount =
      ((s.invoices.filter (fun r => r.status = some "Paid" ∨ r.status = some "Unpaid" ∨
        r.status = some "Advance")).map (fun r => r.subtotal)).sum ∧
    ((∀ r ∈ s.invoices, r.status = some "Paid" ∨ r.status = some "Unpaid" ∨
        r.status = some "Advance") →
      (statsOverview half s).total_revenue + (statsOverview half s).outstanding_amount =
        (s.invoices.map (fun r => r.subtotal)).sum) ∧
    (∀ r : InvoiceRow α, r.status ≠ some "Paid" → r.status ≠ some "Unpaid" →
      r.status ≠ some "Advance" → revenueCase half r = 0 ∧ outstandingCase half r = 0) := by
  have key : (statsOverview half s).total_revenue + (statsOverview half s).outstanding_amount =
      ((s.invoices.filter (fun r => r.status = some "Paid" ∨ r.status = some "Unpaid" ∨
        r.status = some "Advance")).map (fun r => r.subtotal)).sum := by
    show coalesce (sqlSum (s.invoices.map (revenueCase half))) 0 +
      coalesce (sqlSum (s.invoices.map (outstandingCase half))) 0 = _
    rw [coalesce_sqlSum, coalesce_sqlSum, sum_case_split half hh]
  refine ⟨key, fun hall => ?_, fun r h1 h2 h3 => ?_⟩
  · rw [key, List.filter_eq_self.2 (fun r hr => by simpa using hall r hr)]
  · unfold revenueCase outstandingCase
    simp only [h1, h2, h3, if_false, and_self]

/-- C28 on subtotals 100 Paid, 200 Unpaid, 50 Advance: the two amounts, 125
and 225, add up to 350. -/
theorem revenue_plus_outstanding_witness :
    (0.5 : ℚ) + 0.5 = 1 ∧
    (∀ r ∈ statsStore.invoices, r.status = some "Paid" ∨ r.status = some "Unpaid" ∨
      r.status = some "Advance") ∧
    (statsOverview (0.5 : ℚ) statsStore).total_revenue +
      (statsOverview (0.5 : ℚ) statsStore).outstanding_amount = 350 :=
  have hh : (0.5 : ℚ) + 0.5 = 1 := by norm_num
  have hall : ∀ r ∈ statsStore.invoices, r.status = some "Paid" ∨ r.status = some "Unpaid" ∨
      r.status = some "Advance" := by decide
  ⟨hh, hall, by
    rw [(revenue_plus_outstanding (0.5 : ℚ) hh statsStore).2.1 hall]
    simp [statsStore, invoiceWith]
    norm_num⟩

/-! ## CSV export -/

section CsvFacts

theorem doubleQuotes_data (s : String) :
    (doubleQuotes s).data = s.data.flatMap (fun c => if c = '"' then ['"', '"'] else [c]) :=
  rfl

theorem collapse_quote (rest : List Char) :
    collapseQuotes ('"' :: '"' :: rest) = '"' :: collapseQuotes rest := by
  rw [collapseQuotes.eq_def]
  simp

theorem collapse_other (c : Char) (hc : c ≠ '"') (l : List Char) :
    collapseQuotes (c :: l) = c :: collapseQuotes l := by
  cases l with
  | nil => rw [collapseQuotes.eq_def]; simp [collapseQuotes]
  | cons d rest => rw [collapseQuotes.eq_def]; simp [hc]

/-- Collapsing the doubled quotes of a text gives the text back. -/
theorem collapse_doubled (l : List Char) :
    collapseQuotes (l.flatMap (fun c => if c = '"' then ['"', '"'] else [c])) = l := by
  induction l with
  | nil => rfl
  | cons c cs ih =>
    by_cases hc : c = '"'
    · simp only [List.flatMap_cons, if_pos hc, List.cons_append, List.nil_append]
      rw [collapse_quote, ih, hc]
    · simp only [List.flatMap_cons, if_neg hc, List.cons_append, List.nil_append]
      rw [collapse_other c hc, ih]

/-- A text that needs no quoting has no quote in it. -/
theorem no_quote_of_plain (s : String) (h : needsQuoting s = false) : '"' ∉ s.data := by
  intro hm
  have : needsQuoting s = true := by
    unfold needsQuoting
    rw [List.any_eq_true]
    exact ⟨'"', hm, by decide⟩
  rw [h] at this
  exact absurd this (by decide)

theorem escape_plain (s : String) (h : needsQuoting s = false) :
    InvoicesPage.escapeCsvValue (.val s) = s := by
  show (if needsQuoting s = true then _ else _) = _
  rw [h]
  rfl

theorem escape_quoted (s : String) (h : needsQuoting s = true) :
    InvoicesPage.escapeCsvValue (.val s) = "\"" ++ doubleQuotes s ++ "\"" := by
  show (if needsQuoting s = true then _ else _) = _
  rw [h]
  rfl

/-- A field that does not start with a quote is read as it is. -/
theorem csvFieldValue_plain (s : String) (h : '"' ∉ s.data) : csvFieldValue s = s := by
  unfold csvFieldValue
  split
  · rename_i rest heq
    rw [heq] at h
    exact absurd (List.mem_cons_self _ _) h
  · rfl

end CsvFacts

/-- C30: `escapeCsvValue` returns a text without quote, comma, carriage
return and line feed as it is, and any other text with every quote doubled,
between two quotes; reading the result as a CSV field gives the text back;
the copies of `Invoices.js` and of `Clients.js` agree on every value. -/
theorem escapeCsvValue_faithful :
    (∀ s : String, (∀ c ∈ s.data, c ≠ '"' ∧ c ≠ ',' ∧ c ≠ '\r' ∧ c ≠ '\n') →
      InvoicesPage.escapeCsvValue (.val s) = s) ∧
    (∀ s : String, (∃ c ∈ s.data, c = '"' ∨ c = ',' ∨ c = '\r' ∨ c = '\n') →
      InvoicesPage.escapeCsvValue (.val s) = "\"" ++ doubleQuotes s ++ "\"") ∧
    (∀ s : String, csvFieldValue (InvoicesPage.escapeCsvValue (.val s)) = s) ∧
    (∀ value : Field String,
      ClientsPage.escapeCsvValue value = InvoicesPage.escapeCsvValue value) := by
  refine ⟨?_, ?_, ?_, ?_⟩
  · intro s h
    apply escape_plain
    unfold needsQuoting
    rw [List.any_eq_false]
    intro c hc
    obtain ⟨h1, h2, h3, h4⟩ := h c hc
    simp [h1, h2, h3, h4]
  · rintro s ⟨c, hc, h⟩
    apply escape_quoted
    unfold needsQuoting
    rw [List.any_eq_true]
    refine ⟨c, hc, ?_⟩
    rcases h with h | h | h | h <;> simp [h]
  · intro s
    cases hq : needsQuoting s with
    | false =>
      rw [escape_plain s hq]
      exact csvFieldValue_plain s (no_quote_of_plain s hq)
    | true =>
      rw [escape_quoted s hq]
      have e : ("\"" ++ doubleQuotes s ++ "\"").data =
          '"' :: ((doubleQuotes s).data ++ ['"']) := by
        simp [String.data_append]
      apply String.ext
      unfold csvFieldValue
      rw [e]
      simp only [List.dropLast_concat]
      rw [doubleQuotes_data, collapse_doubled]
  · intro value
    rfl

/-- C30 on a name with quotes and a comma, and on a plain word. -/
theorem escapeCsvValue_faithful_witness :
    (∃ c ∈ "Ann \"AJ\" Lee, Ltd".data, c = '"' ∨ c = ',' ∨ c = '\r' ∨ c = '\n') ∧
    InvoicesPage.escapeCsvValue (.val "Ann \"AJ\" Lee, Ltd") = "\"Ann \"\"AJ\"\" Lee, Ltd\"" ∧
    (∀ c ∈ "Site".data, c ≠ '"' ∧ c ≠ ',' ∧ c ≠ '\r' ∧ c ≠ '\n') ∧
    InvoicesPage.escapeCsvValue (.val "Site") = "Site" :=
  ⟨by decide, escapeCsvValue_faithful.2.1 "Ann \"AJ\" Lee, Ltd" (by decide), by decide,
    escapeCsvValue_faithful.1 "Site" (by decide)⟩

/-! ## Paths of backup files -/

section PathFacts

theorem splitOn_sep (sep : Char) (cs : List Char) :
    splitOn sep (sep :: cs) = [] :: splitOn sep cs := by
  rw [splitOn]
  simp

theorem splitOn_cons_ne (sep c : Char) (cs l : List Char) (ls : List (List Char))
    (hc : c ≠ sep) (h : splitOn sep cs = l :: ls) : splitOn sep (c :: cs) = (c :: l) :: ls := by
  rw [splitOn, if_neg hc, h]

theorem splitOn_no_sep (sep : Char) (l : List Char) (hl : ∀ c ∈ l, c ≠ sep) :
    splitOn sep l = [l] := by
  induction l with
  | nil => rfl
  | cons c cs ih =>
    exact splitOn_cons_ne sep c cs cs [] (hl c (List.mem_cons_self _ _))
      (ih (fun x hx => hl x (List.mem_cons_of_mem _ hx)))

/-- Splitting at a separator splits on both sides of it. -/
theorem splitOn_append_sep (sep : Char) (a b : List Char) :
    splitOn sep (a ++ sep :: b) = splitOn sep a ++ splitOn sep b := by
  induction a with
  | nil => exact splitOn_sep sep b
  | cons c cs ih =>
    by_cases hc : c = sep
    · rw [hc, List.cons_append, splitOn_sep, splitOn_sep, ih]
      rfl
    · cases hs : splitOn sep cs with
      | nil => exact absurd hs (splitOn_ne_nil _ _)
      | cons l ls =>
        rw [hs] at ih
        rw [List.cons_append, splitOn_cons_ne sep c _ l (ls ++ splitOn sep b) hc ih,
          splitOn_cons_ne sep c cs l ls hc hs]
        rfl

/-- The base name of a path has no separator in it. -/
theorem basename_no_sep (p : String) : ∀ c ∈ (basename p).data, c ≠ '/' := by
  intro c hc
  unfold basename at hc
  simp only [List.mem_reverse] at hc
  have := List.mem_takeWhile_imp hc
  simpa using this

/-- A name that starts with the backup marker is a proper component. -/
theorem marked_name (base name : String) (h : (base ++ ".backup-").data <+: name.data) :
    name ≠ "" ∧ name ≠ "." ∧ name ≠ ".." := by
  have hlen : 8 ≤ name.data.length := by
    have := h.length_le
    rw [String.data_append, List.length_append] at this
    have h8 : ".backup-".data.length = 8 := by decide
    omega
  refine ⟨?_, ?_, ?_⟩ <;>
  · intro e
    rw [e] at hlen
    revert hlen
    decide

theorem normalizeParts_concat (allow : Bool) (parts : List String) (name : String)
    (h : name ≠ "" ∧ name ≠ "." ∧ name ≠ "..") :
    normalizeParts allow (parts ++ [name]) = normalizeParts allow parts ++ [name] := by
  unfold normalizeParts
  rw [List.foldl_append]
  simp only [List.foldl_cons, List.foldl_nil]
  unfold normalizeStep
  rw [if_neg (by simp [h.1, h.2.1]), if_neg h.2.2]

theorem dirname_ne_empty (p : String) : dirname p ≠ "" := by
  unfold dirname
  split
  · decide
  · split
    · split_ifs <;> decide
    · split_ifs
      · decide
      · intro e
        have := congrArg String.data e
        simp at this

/-- Joining a directory and a proper component without separator appends the
component to the resolved components of the directory. -/
theorem pathJoin_component (dir name : String) (hd : dir ≠ "")
    (hsep : ∀ c ∈ name.data, c ≠ '/') (h : name ≠ "" ∧ name ≠ "." ∧ name ≠ "..") :
    pathJoin dir name =
      (if isAbsolute dir then "/" else "") ++ joinWith "/" (pathParts dir ++ [name]) := by
  have hj : joinWith "/" ([dir, name].filter (fun x => ¬ x = "")) = dir ++ "/" ++ name := by
    simp [List.filter, hd, h.1, joinWith]
  have hdata : (dir ++ "/" ++ name).data = dir.data ++ '/' :: name.data := by
    simp [String.data_append]
  have hdd : dir.data ≠ [] := fun e => hd (String.ext e)
  have hnd : name.data ≠ [] := fun e => h.1 (String.ext e)
  have hne : dir ++ "/" ++ name ≠ "" := by
    intro e
    have := congrArg String.data e
    rw [hdata] at this
    simp at this
  have habs : isAbsolute (dir ++ "/" ++ name) = isAbsolute dir := by
    unfold isAbsolute
    rw [hdata]
    cases hx : dir.data with
    | nil => exact absurd hx hdd
    | cons c cs => rfl
  have htrail : ((dir ++ "/" ++ name).data.getLast? == some '/') = false := by
    rw [hdata]
    have e : dir.data ++ '/' :: name.data = (dir.data ++ ['/']) ++ name.data := by simp
    rw [e, List.getLast?_append_of_ne_nil _ hnd]
    cases hl : name.data.getLast? with
    | none => rfl
    | some c =>
      have := hsep c (List.mem_of_getLast?_eq_some hl)
      simp [this]
  have hparts : pathParts (dir ++ "/" ++ name) = pathParts dir ++ [name] := by
    unfold pathParts components
    rw [habs, hdata, splitOn_append_sep, splitOn_no_sep '/' name.data hsep, List.map_append,
      List.map_cons, List.map_nil]
    exact normalizeParts_concat _ _ _ h
  unfold pathJoin
  simp only [hj, hne, if_false]
  unfold normalize
  simp only [hne, if_false, hparts, habs, htrail]
  simp

end PathFacts

/-- C29: a `POST /backups/use` with a filename text that is not answered with
`Missing filename` or `Invalid backup filename` looks at one file only, and
copies that file over the database file when it exists: the file whose
name is the last component of the filename, which has no separator in it and
starts with the base name of the database file followed by `.backup-`, placed
directly in the directory of the database file (the resolved components of
that directory, then the name). No directory component of the filename
reaches the path. Paths follow the POSIX rules of Node's `path`. -/
theorem backup_stays_in_directory (existsSync : String → Bool) (dbPath filename : String)
    (h1 : backupsUse existsSync dbPath (.val filename) ≠ .reject 400 "Missing filename")
    (h2 : backupsUse existsSync dbPath (.val filename) ≠
      .reject 400 "Invalid backup filename") :
    ∃ name : String,
      name = basename filename ∧ (∀ c ∈ name.data, c ≠ '/') ∧
      (basename dbPath ++ ".backup-").data <+: name.data ∧
      pathJoin (dirname dbPath) name =
        (if isAbsolute (dirname dbPath) then "/" else "") ++
          joinWith "/" (pathParts (dirname dbPath) ++ [name]) ∧
      (backupsUse existsSync dbPath (.val filename) = .reject 404 "Backup file not found" ∨
        backupsUse existsSync dbPath (.val filename) =
          .copied (pathJoin (dirname dbPath) name) dbPath) := by
  have hf : ¬ filename = "" := by
    intro e
    apply h1
    unfold backupsUse
    simp only [e, if_true]
  have hp : (basename dbPath ++ ".backup-").data <+: (basename filename).data := by
    by_contra hp
    apply h2
    unfold backupsUse
    simp only [hf, if_false, hp, not_false_eq_true, if_true]
  refine ⟨basename filename, rfl, basename_no_sep filename, hp,
    pathJoin_component _ _ (dirname_ne_empty dbPath) (basename_no_sep filename)
      (marked_name _ _ hp), ?_⟩
  unfold backupsUse
  simp only [hf, if_false, hp, not_true_eq_false]
  by_cases he : existsSync (pathJoin (dirname dbPath) (basename filename)) = true
  · right
    simp only [he, not_true_eq_false, if_false]
  · left
    simp only [he, not_false_eq_true, if_true]
    rfl

/-- C29 on a filename with directory components: the file restored is the one
of that name in the directory of the database file. -/
theorem backup_stays_in_directory_witness :
    backupsUse (fun _ => true) "/home/u/InvoiceApp/data/invoices.db"
      (.val "../../../etc/invoices.db.backup-2024-01-02_15-00-00") ≠
      .reject 400 "Missing filename" ∧
    backupsUse (fun _ => true) "/home/u/InvoiceApp/data/invoices.db"
      (.val "../../../etc/invoices.db.backup-2024-01-02_15-00-00") ≠
      .reject 400 "Invalid backup filename" ∧
    backupsUse (fun _ => true) "/home/u/InvoiceApp/data/invoices.db"
      (.val "../../../etc/invoices.db.backup-2024-01-02_15-00-00") =
      .copied "/home/u/InvoiceApp/data/invoices.db.backup-2024-01-02_15-00-00"
        "/home/u/InvoiceApp/data/invoices.db" ∧
    ∃ name : String,
      name = basename "../../../etc/invoices.db.backup-2024-01-02_15-00-00" ∧
      (∀ c ∈ name.data, c ≠ '/') ∧
      (basename "/home/u/InvoiceApp/data/invoices.db" ++ ".backup-").data <+: name.data ∧
      pathJoin (dirname "/home/u/InvoiceApp/data/invoices.db") name =
        (if isAbsolute (dirname "/home/u/InvoiceApp/data/invoices.db") then "/" else "") ++
          joinWith "/" (pathParts (dirname "/home/u/InvoiceApp/data/invoices.db") ++ [name]) ∧
      (backupsUse (fun _ => true) "/home/u/InvoiceApp/data/invoices.db"
          (.val "../../../etc/invoices.db.backup-2024-01-02_15-00-00") =
          .reject 404 "Backup file not found" ∨
        backupsUse (fun _ => true) "/home/u/InvoiceApp/data/invoices.db"
          (.val "../../../etc/invoices.db.backup-2024-01-02_15-00-00") =
          .copied (pathJoin (dirname "/home/u/InvoiceApp/data/invoices.db") name)
            "/home/u/InvoiceApp/data/invoices.db") :=
  ⟨by decide, by decide, by decide,
    backup_stays_in_directory (fun _ => true) "/home/u/InvoiceApp/data/invoices.db"
      "../../../etc/invoices.db.backup-2024-01-02_15-00-00" (by decide) (by decide)⟩

/-! ## Labels of the totals block -/

section LabelFacts

/-- Template text whose lines pass `linesFree w` has no token that has `w`
in it, whatever the letters of the token. -/
theorem linesFree_clear (w : String) (t : List Char) (hsuf : w.data <:+: t) :
    ∀ lines : List String, linesFree w lines = true →
      ¬ IsTok t (templateText lines).data := by
  intro lines
  induction lines with
  | nil => intro _ h; exact not_isTok_nil h
  | cons l ls ih =>
    intro hfree h
    cases ls with
    | nil =>
      simp only [linesFree, Bool.not_eq_true', decide_eq_false_iff_not] at hfree
      simp only [templateText, String.data_append] at h
      have h' : IsTok t l.data := by simpa using h
      exact hfree (hsuf.trans (isTok_sub h'))
    | cons l2 rest =>
      simp only [linesFree, Bool.and_eq_true, Bool.not_eq_true', decide_eq_false_iff_not,
        beq_iff_eq] at hfree
      obtain ⟨⟨h1, h2⟩, h3⟩ := hfree
      have hd : (templateText (l :: l2 :: rest)).data =
          l.data ++ (templateText (l2 :: rest)).data := by
        simp [templateText]
      rw [hd] at h
      have hws := h.2.1
      rcases isTok_append t (fun c hc => hc) (Or.inl (fun c hc hm => by
        rw [h2] at hc
        have e : c = '\n' := by simpa using hc.symm
        have := hws c hm
        rw [e] at this
        exact absurd this (by decide))) h with h | h
      · exact h1 (hsuf.trans (isTok_sub h))
      · exact ih h3 h

/-- A token of a text is found by `hasTokenAfter`. -/
theorem hasTokenAfter_complete (t post : List Char) (hne : t ≠ [])
    (hpost : ∀ c, post.head? = some c → c.isWhitespace = true) :
    ∀ (pre : List Char) (b : Bool), (∀ c, pre.getLast? = some c → c.isWhitespace = true) →
      (pre = [] → b = true) → hasTokenAfter t b (pre ++ t ++ post) = true := by
  intro pre
  induction pre with
  | nil =>
    intro b _ hb
    obtain ⟨c, cs, e⟩ : ∃ c cs, t = c :: cs := by
      cases t with
      | nil => exact absurd rfl hne
      | cons c cs => exact ⟨c, cs, rfl⟩
    have hstart : tokenAtStart t (t ++ post) = true := by
      unfold tokenAtStart
      rw [List.drop_left]
      have hp : t <+: t ++ post := List.prefix_append _ _
      simp only [hp, decide_True, Bool.true_and]
      cases hh : post.head? with
      | none => rfl
      | some x => exact hpost x hh
    rw [List.nil_append, hb rfl]
    rw [e] at hstart ⊢
    rw [List.cons_append, hasTokenAfter, ← List.cons_append, hstart]
    rfl
  | cons p ps ih =>
    intro b hpre _
    have hps : ∀ c, ps.getLast? = some c → c.isWhitespace = true := by
      intro c hc
      cases ps with
      | nil => simp at hc
      | cons q qs => exact hpre c (by rw [List.getLast?_cons_cons]; exact hc)
    have hb' : ps = [] → p.isWhitespace = true := by
      intro e
      exact hpre p (by rw [e]; rfl)
    have := ih p.isWhitespace hps hb'
    rw [List.cons_append, List.cons_append, hasTokenAfter, this, Bool.or_true]

/-- A token of a text is found by `hasToken`. -/
theorem hasToken_complete {t s : List Char} (h : IsTok t s) : hasToken t s = true := by
  obtain ⟨hne, _, pre, post, e, hpre, hpost⟩ := h
  rw [e]
  exact hasTokenAfter_complete t post hne hpost pre true hpre (fun _ => rfl)

/-- A piece that passes `Piece.clear t` does not have `t` as a token. -/
theorem clear_sound (t : String) (p : Piece) (h : p.clear t = true) :
    ¬ IsTok t.data p.text.data := by
  cases p with
  | lit lines =>
    simp only [Piece.clear, Bool.or_eq_true, Bool.not_eq_true'] at h
    rcases h with h | h
    · exact linesFree_clear t t.data (List.infix_refl _) lines h
    · intro ht
      have := hasToken_complete ht
      simp only [Piece.text] at this
      rw [this] at h
      exact absurd h (by decide)
  | val s =>
    simp only [Piece.clear, Bool.not_eq_true'] at h
    intro ht
    have := hasToken_complete ht
    simp only [Piece.text] at this
    rw [this] at h
    exact absurd h (by decide)

theorem guardedBy_ends (L : List Char) {p : Piece} (h : p.guardedBy L = true) :
    (∀ c, p.text.data.head? = some c → c ∉ L) ∧
      (∀ c, p.text.data.getLast? = some c → c ∉ L) ∧ p.text.data ≠ [] := by
  cases p with
  | val s => simp [Piece.guardedBy] at h
  | lit lines =>
    simp only [Piece.guardedBy] at h
    cases h1 : lines.head?.bind (fun l => l.data.head?) with
    | none => simp [h1] at h
    | some a =>
      cases h2 : lines.getLast?.bind (fun l => l.data.getLast?) with
      | none => simp [h1, h2] at h
      | some b =>
        simp only [h1, h2, Bool.and_eq_true, Bool.not_eq_true'] at h
        have ha : a ∉ L := by
          intro hm
          have := h.1
          simp [hm] at this
        have hb : b ∉ L := by
          intro hm
          have := h.2
          simp [hm] at this
        obtain ⟨l, hl, hla⟩ := Option.bind_eq_some.1 h1
        obtain ⟨m, hm, hmb⟩ := Option.bind_eq_some.1 h2
        obtain ⟨rest, hrest⟩ := List.head?_eq_some_iff.1 hl
        obtain ⟨init, hinit⟩ := List.getLast?_eq_some_iff.1 hm
        obtain ⟨ltail, hltail⟩ := List.head?_eq_some_iff.1 hla
        obtain ⟨minit, hminit⟩ := List.getLast?_eq_some_iff.1 hmb
        have hhead : (templateText lines).data.head? = some a := by
          rw [templateText_data, hrest]
          simp [hltail]
        have hlast : (templateText lines).data.getLast? = some b := by
          rw [templateText_data, hinit]
          simp [hminit, List.getLast?_append]
        refine ⟨fun c hc => ?_, fun c hc => ?_, ?_⟩
        · simp only [Piece.text] at hc
          rw [hhead] at hc
          rw [← Option.some.inj hc]
          exact ha
        · simp only [Piece.text] at hc
          rw [hlast] at hc
          rw [← Option.some.inj hc]
          exact hb
        · intro hnil
          simp only [Piece.text] at hnil
          rw [hnil] at hhead
          simp at hhead

/-- A token made of the letters `L`, found in the value of a template whose
pieces are `separatedBy L`, lies inside one piece. -/
theorem isTok_piecesBy (L t : List Char) (ht : ∀ c ∈ t, c ∈ L) :
    ∀ ps : List Piece, separatedBy L ps = true → IsTok t (renderPieces ps).data →
      ∃ p ∈ ps, IsTok t p.text.data := by
  intro ps
  induction ps with
  | nil => intro _ h; exact absurd h not_isTok_nil
  | cons p rest ih =>
    intro hsep h
    simp only [renderPieces, String.data_append] at h
    cases p with
    | lit lines =>
      simp only [separatedBy, Bool.and_eq_true] at hsep
      rcases isTok_append L ht (Or.inl (guardedBy_ends L hsep.1).2.1) h with h | h
      · exact ⟨_, List.mem_cons_self _ _, h⟩
      · obtain ⟨q, hq, hq'⟩ := ih hsep.2 h
        exact ⟨q, List.mem_cons_of_mem _ hq, hq'⟩
    | val v =>
      cases rest with
      | nil =>
        simp only [renderPieces] at h
        have h' : IsTok t v.data := by simpa using h
        exact ⟨_, List.mem_cons_self _ _, h'⟩
      | cons q rest' =>
        cases q with
        | val w => simp [separatedBy] at hsep
        | lit lines =>
          have hsep' : separatedBy L (.lit lines :: rest') = true := by
            simpa only [separatedBy] using hsep
          have hg : (Piece.lit lines).guardedBy L = true := by
            simp only [separatedBy, Bool.and_eq_true] at hsep'
            exact hsep'.1
          have hhead : ∀ c, (renderPieces (.lit lines :: rest')).data.head? = some c →
              c ∉ L := by
            intro c hc
            simp only [renderPieces, String.data_append, List.head?_append] at hc
            obtain ⟨x, hx⟩ : ∃ x, (Piece.lit lines).text.data.head? = some x := by
              cases hl : (Piece.lit lines).text.data.head? with
              | none => exact absurd (List.head?_eq_none_iff.1 hl) (guardedBy_ends L hg).2.2
              | some x => exact ⟨x, rfl⟩
            rw [hx] at hc
            have : x = c := by simpa using hc
            rw [← this]
            exact (guardedBy_ends L hg).1 x hx
          rcases isTok_append L ht (Or.inr hhead) h with h | h
          · exact ⟨_, List.mem_cons_self _ _, h⟩
          · obtain ⟨q, hq, hq'⟩ := ih hsep' h
            exact ⟨q, List.mem_cons_of_mem _ hq, hq'⟩

/-- A word between two blanks is a token of the text. -/
theorem isTok_between (t A B : List Char) (hne : t ≠ [])
    (hws : ∀ c ∈ t, c.isWhitespace = false) : IsTok t (A ++ ' ' :: (t ++ ' ' :: B)) := by
  refine ⟨hne, hws, A ++ [' '], ' ' :: B, by simp, ?_, ?_⟩
  · intro c hc
    rw [List.getLast?_concat] at hc
    rw [← Option.some.inj hc]
    decide
  · intro c hc
    rw [List.head?_cons] at hc
    rw [← Option.some.inj hc]
    decide

theorem data_between (X t Y : String) :
    (X ++ " " ++ t ++ " " ++ Y).data = X.data ++ ' ' :: (t.data ++ ' ' :: Y.data) := by
  simp [String.data_append]

/-- A totals row labelled `Remaining Balance (50%)` would make `Balance` a
token of the document. -/
theorem isTok_of_percent_row (html : String)
    (h : HasTotalsRow "Remaining Balance (50%)" html) : IsTok "Balance".data html.data := by
  obtain ⟨pre, cls, amount, post, e⟩ := h
  have el : ("Remaining Balance (50%)" : String) =
      "Remaining" ++ " " ++ "Balance" ++ " " ++ "(50%)" := by decide
  have ed : html =
      (pre ++ "<div class=\"totals-row" ++ cls ++ "\">\n    <span>" ++ "Remaining") ++ " " ++
        "Balance" ++ " " ++ ("(50%)" ++ "</span>\n    <span>$" ++ amount ++
        "</span>\n  </div>" ++ post) := by
    rw [e, el]
    simp only [String.append_assoc]
  rw [ed, data_between]
  exact isTok_between _ _ _ (by decide) (by decide)

end LabelFacts

set_option maxRecDepth 100000 in
/-- C27 as stated fails: the preview of the sample invoice has no totals row
labelled `Remaining Balance (50%)`. -/
theorem no_percent_on_balance :
    ¬ HasTotalsRow "Remaining Balance (50%)"
      (previewHtml wholeFormat sampleInvoice sampleRows) := by
  intro h
  have htok := isTok_of_percent_row _ h
  rw [previewHtml_eq] at htok
  obtain ⟨p, hp, hpt⟩ := isTok_piecesBy "Balance".data "Balance".data (fun c hc => hc) _
    (by decide) htok
  have hall : ∀ p ∈ previewPieces wholeFormat sampleInvoice sampleRows,
      p.clear "Balance" = true := by decide
  exact clear_sound "Balance" p (hall p hp) hpt

section RowLabels

/-- The row of the deposit in the totals block. -/
theorem deposit_row (f R : String) :
    ∃ pre post, templateText litDeposit ++ (f ++ (templateText litBalance ++ R)) =
      pre ++ (("<div class=\"totals-row" ++ "" ++ "\">\n    <span>" ++ "Deposit (50%)" ++
        "</span>\n    <span>$" ++ f ++ "</span>\n  </div>") ++ post) := by
  have e1 : templateText litDeposit = "</strong>\n  </div>\n  " ++ ("<div class=\"totals-row" ++
      ("" ++ ("\">\n    <span>" ++ ("Deposit (50%)" ++ "</span>\n    <span>$")))) := by decide
  have e2 : templateText litBalance = "</span>\n  </div>" ++
      String.mk ((templateText litBalance).data.drop 16) := by decide
  refine ⟨"</strong>\n  </div>\n  ", String.mk ((templateText litBalance).data.drop 16) ++ R, ?_⟩
  conv_lhs => rw [e1, e2]
  simp only [String.append_assoc]

/-- The row of the remaining balance in the totals block. -/
theorem balance_row (f R : String) :
    ∃ pre post, templateText litBalance ++ (f ++ (templateText litBanks ++ R)) =
      pre ++ (("<div class=\"totals-row" ++ " totals-final" ++ "\">\n    <span>" ++
        "Remaining Balance" ++ "</span>\n    <span>$" ++ f ++ "</span>\n  </div>") ++ post) := by
  have e1 : templateText litBalance = "</span>\n  </div>\n  " ++ ("<div class=\"totals-row" ++
      (" totals-final" ++ ("\">\n    <span>" ++ ("Remaining Balance" ++
      "</span>\n    <span>$")))) := by decide
  have e2 : templateText litBanks = "</span>\n  </div>" ++
      String.mk ((templateText litBanks).data.drop 16) := by decide
  refine ⟨"</span>\n  </div>\n  ", String.mk ((templateText litBanks).data.drop 16) ++ R, ?_⟩
  conv_lhs => rw [e1, e2]
  simp only [String.append_assoc]

end RowLabels

/-- C27, amended: the preview of every invoice has a totals row labelled
exactly `Deposit (50%)` and a totals row labelled exactly `Remaining Balance`
(the second label has no percentage). -/
theorem totals_row_labels {α : Type} [Add α] [Mul α] [Zero α] [Div α] [OfNat α 2]
    (fmt : NumberFormat α) (invoice : PreviewInvoice α) (items : List (ItemRow α)) :
    HasTotalsRow "Deposit (50%)" (previewHtml fmt invoice items) ∧
    HasTotalsRow "Remaining Balance" (previewHtml fmt invoice items) := by
  have hd : ∃ pre post : String, previewHtml fmt invoice items =
      pre ++ (("<div class=\"totals-row" ++ "" ++ "\">\n    <span>" ++ "Deposit (50%)" ++
        "</span>\n    <span>$" ++ fmt.toFixed2 (previewTotal items / 2) ++
        "</span>\n  </div>") ++ post) := by
    generalize hM : ("<div class=\"totals-row" ++ "" ++ "\">\n    <span>" ++ "Deposit (50%)" ++
        "</span>\n    <span>$" ++ fmt.toFixed2 (previewTotal items / 2) ++
        "</span>\n  </div>") = M
    unfold previewHtml
    simp only [String.append_assoc]
    iterate 32 apply exists_after
    rw [← hM]
    exact deposit_row _ _
  have hb : ∃ pre post : String, previewHtml fmt invoice items =
      pre ++ (("<div class=\"totals-row" ++ " totals-final" ++ "\">\n    <span>" ++
        "Remaining Balance" ++ "</span>\n    <span>$" ++
        fmt.toFixed2 (previewTotal items / 2) ++ "</span>\n  </div>") ++ post) := by
    generalize hM : ("<div class=\"totals-row" ++ " totals-final" ++ "\">\n    <span>" ++
        "Remaining Balance" ++ "</span>\n    <span>$" ++
        fmt.toFixed2 (previewTotal items / 2) ++ "</span>\n  </div>") = M
    unfold previewHtml
    simp only [String.append_assoc]
    iterate 34 apply exists_after
    rw [← hM]
    exact balance_row _ _
  obtain ⟨pre1, post1, h1⟩ := hd
  obtain ⟨pre2, post2, h2⟩ := hb
  refine ⟨⟨pre1, "", fmt.toFixed2 (previewTotal items / 2), post1, ?_⟩,
    ⟨pre2, " totals-final", fmt.toFixed2 (previewTotal items / 2), post2, ?_⟩⟩
  · rw [h1]
    simp only [String.append_assoc]
  · rw [h2]
    simp only [String.append_assoc]
end DPInvoices
